import Mathlib

/-!
# PBSM3D blowing-snow module: a shallow embedding of `src/modules/PBSM3D.cpp`

Number model.  A C++ `double` is modelled by an exact rational (`ℚ`): every finite
double is a rational, and all arithmetic is carried out exactly (no rounding, no
overflow).  NaN is represented only where the source tests for it with `is_nan`:
the face variable `swe` and the entries of the divergence solution `dSdt` are
`Option ℚ` with `none` standing for NaN.  At the third `is_nan` test (the limited
`c_salt`) a quotient of finite operands is NaN exactly for `0/0`.

Library code that is not part of the module (`pow`, `sqrt`, Lambert W, the log wind
profile, the bearing conversion, the MeteoIO atmosphere helpers, the TOMS-748 root
finder, the two ViennaCL solves, the physical constants) is collected in the
structure `Ext` and passed to every function that calls it.

Containers.  `std::vector<double>` is a function `Nat → ℚ`; a row
`std::map<unsigned, double>` is a function `Nat → Option ℚ` (`none`: key absent);
small fixed arrays (`m[5]`, `A[5]`, `K[5]`, `alpha[5]`, `face_neigh[3]`, the three edges)
are functions on `Nat` read only at their valid indices.
-/

namespace PBSM3D

/-! ## Basic containers -/

/-- Dense vector `arma::vec(3)`. -/
structure Vec3 where
  x : ℚ
  y : ℚ
  z : ℚ
deriving DecidableEq

/-- Inner product `arma::dot`. -/
def dot (a b : Vec3) : ℚ := a.x * b.x + a.y * b.y + a.z * b.z

/-- In-place scaling `uvw *= s`. -/
def Vec3.scale (a : Vec3) (s : ℚ) : Vec3 := ⟨a.x * s, a.y * s, a.z * s⟩

/-- A `std::vector<double>`. -/
abbrev Vec := Nat → ℚ

/-- A sparse row `std::map<unsigned int, double>`; `none` means the key is absent. -/
abbrev SpRow := Nat → Option ℚ

/-- A `std::vector` of sparse rows. -/
abbrev SpMat := Nat → SpRow

/-- The empty row. -/
def SpRow.empty : SpRow := fun _ => none

/-- Assignment `row[k] = v`. -/
def SpRow.set (r : SpRow) (k : Nat) (v : ℚ) : SpRow :=
  fun j => if j = k then some v else r j

/-- Compound assignment `row[k] += v`; `operator[]` value-initialises a missing key to `0.0`. -/
def SpRow.add (r : SpRow) (k : Nat) (v : ℚ) : SpRow :=
  fun j => if j = k then some ((r k).getD 0 + v) else r j

/-- Guarded initialisation `if (row.find(k) == row.end()) row[k] = 0.0`. -/
def SpRow.init0 (r : SpRow) (k : Nat) : SpRow :=
  if r k = none then r.set k 0 else r

/-- Replace row `i` of a matrix. -/
def SpMat.setRow (M : SpMat) (i : Nat) (r : SpRow) : SpMat :=
  fun k => if k = i then r else M k

/-- Assignment `v[i] = a` on a dense vector. -/
def Vec.set (v : Vec) (i : Nat) (a : ℚ) : Vec :=
  fun k => if k = i then a else v k

/-- Assignment to one slot of a small array. -/
def arrSet (a : Nat → ℚ) (i : Nat) (v : ℚ) : Nat → ℚ :=
  fun k => if k = i then v else a k

/-! ## Library code used by the module -/

/-- Library functions and constants the module calls but does not define. -/
structure Ext where
  /-- Constant `PhysConst::rho_ice`. -/
  rho_ice : ℚ
  /-- Constant `PhysConst::kappa`. -/
  kappa : ℚ
  /-- Constant `M_PI`. -/
  M_PI : ℚ
  /-- Function `pow(x, y)`. -/
  pow : ℚ → ℚ → ℚ
  /-- Function `sqrt(x)`. -/
  sqrt : ℚ → ℚ
  /-- Function `cos(x)`. -/
  cos : ℚ → ℚ
  /-- Function `gsl_sf_lambert_Wm1`. -/
  lambert_Wm1 : ℚ → ℚ
  /-- Function `Atmosphere::log_scale_wind(u, Z_in, Z_out, snowdepth, z0)`; `none` is the defaulted `z0`. -/
  log_scale_wind : ℚ → ℚ → ℚ → ℚ → Option ℚ → ℚ
  /-- Function `math::gis::bearing_to_cartesian`. -/
  bearing_to_cartesian : ℚ → ℚ × ℚ
  /-- Function `arma::norm(v, 2)`. -/
  norm : Vec3 → ℚ
  /-- Function `math::gis::distance` between two face centres. -/
  distance : ℚ × ℚ → ℚ × ℚ → ℚ
  /-- Function `mio::Atmosphere::saturatedVapourPressure`. -/
  saturatedVapourPressure : ℚ → ℚ
  /-- Function `mio::Atmosphere::stdAirPressure`. -/
  stdAirPressure : ℚ → ℚ
  /-- Function `mio::Atmosphere::stdDryAirDensity`. -/
  stdDryAirDensity : ℚ → ℚ → ℚ
  /-- Function `boost::math::tools::toms748_solve(f, min, max, tol, max_iter)`; `none` when it throws. -/
  toms748_solve : (ℚ → ℚ) → ℚ → ℚ → Option (ℚ × ℚ)
  /-- The preconditioned BiCGStab solve of the suspension system of the given dimension. -/
  solve_C : Nat → SpMat → Vec → Vec
  /-- The BiCGStab solve of the divergence system; an entry may be NaN (`none`). -/
  solve_A : Nat → SpMat → Vec → (Nat → Option ℚ)

/-! ## Mesh, face variables, module data -/

/-- Geometry of a mesh face as the module reads it. -/
structure Face where
  /-- Accessor `face->cell_id`. -/
  cell_id : Nat
  /-- Accessor `face->get_area()`. -/
  area : ℚ
  /-- Accessor `face->get_z()`. -/
  elev : ℚ
  /-- Accessor `face->center()`. -/
  center : ℚ × ℚ
  /-- Accessor `face->edge_length(j)`, `j = 0, 1, 2`. -/
  edge_length : Nat → ℚ
  /-- Accessor `face->edge_unit_normal(j)`, `j = 0, 1, 2`. -/
  edge_unit_normal : Nat → ℚ × ℚ
  /-- Accessor `face->neighbor(j)`: the index of the neighbouring face in the mesh, `none` for `nullptr`. -/
  neighbor : Nat → Option Nat

/-- The per-face variable store read by `face_data` and written by `set_face_data`. -/
structure Vars where
  vw_dir : ℚ
  U_2m_above_srf : ℚ
  /-- Variable `swe`; `none` is NaN. -/
  swe : Option ℚ
  t : ℚ
  rh : ℚ
  u10 : ℚ
  is_drifting : ℚ
  /-- Variables `c0, c1, ...` keyed by the layer number. -/
  c : Nat → ℚ
  /-- Variables `K0, K1, ...` keyed by the layer number. -/
  K : Nat → ℚ
  Qsusp_pbsm : ℚ
  hs : ℚ
  ustar : ℚ
  csalt : ℚ
  /-- The variable `u*_th`. -/
  u_th : ℚ
  drift_mass : ℚ
  drift_mass_no_subl : ℚ
  Qsusp : ℚ
  Qsubl : ℚ
  Qsalt : ℚ
  sum_drift : ℚ

/-- The module's per-face cache `PBSM3D::data`. -/
structure Data where
  /-- The five prism-face normals `m[0..4]`. -/
  m : Nat → Vec3
  /-- The five prism-face areas `A[0..4]`. -/
  A : Nat → ℚ
  /-- Neighbour-present flags `face_neigh[0..2]`. -/
  face_neigh : Nat → Bool
  is_edge : Bool
  z0 : ℚ
  hs : ℚ

/-- A mesh face together with its variable store and the module's cache. -/
structure MFace where
  face : Face
  vars : Vars
  d : Data

/-- The mesh: faces in index order, `domain->face(i)`. -/
abbrev Mesh := List MFace

/-- The recognised configuration options; `none` when the key is not configured. -/
structure Config where
  settling_velocity : Option ℚ
  snow_diffusion_const : Option ℚ
  vertical_advection : Option Bool

/-- The member variables of the `PBSM3D` object set by `init`. -/
structure Module where
  nLayer : Nat
  susp_depth : ℚ
  v_edge_height : ℚ
  l__max : ℚ
  settling_velocity : ℚ
  snow_diffusion_const : ℚ
  do_vertical_advection : Bool

/-! ## `PBSM3D::init` -/

/-- The neighbour loop of `init`: `is_edge` after inspecting edges `0, 1, 2` in order. -/
def init_is_edge (face : Face) : Bool :=
  [0, 1, 2].foldl (fun e a => if face.neighbor a = none then true else e) false

/-- The body of the face loop of `init`: build the cache and zero `sum_drift`. -/
def init_face (v_edge_height : ℚ) (face : Face) (vars : Vars) : MFace :=
  let m : Nat → Vec3 := fun j =>
    if j = 0 then ⟨(face.edge_unit_normal 0).1, (face.edge_unit_normal 0).2, 0⟩
    else if j = 1 then ⟨(face.edge_unit_normal 1).1, (face.edge_unit_normal 1).2, 0⟩
    else if j = 2 then ⟨(face.edge_unit_normal 2).1, (face.edge_unit_normal 2).2, 0⟩
    else if j = 3 then ⟨0, 0, 1⟩
    else ⟨0, 0, -1⟩
  let A : Nat → ℚ := fun j =>
    if j < 3 then face.edge_length j * v_edge_height else face.area
  let face_neigh : Nat → Bool := fun a => (face.neighbor a).isSome
  { face := face
    vars := { vars with sum_drift := 0 }
    d := { m := m, A := A, face_neigh := face_neigh, is_edge := init_is_edge face,
           z0 := 0, hs := 0 } }

/-- Member `PBSM3D::init`: read the configuration, reject a positive settling velocity, build the
per-face cache.  `Except.error` is the thrown `module_error`. -/
def init (cfg : Config) (domain : List (Face × Vars)) : Except String (Module × Mesh) :=
  let nLayer : Nat := 5
  let susp_depth : ℚ := 5
  let v_edge_height : ℚ := susp_depth / nLayer
  let l__max : ℚ := 40
  let settling_velocity : ℚ := cfg.settling_velocity.getD (-1 / 2)
  if settling_velocity > 0 then
    Except.error "PBSM3D settling velocity must be negative"
  else
    let snow_diffusion_const : ℚ := cfg.snow_diffusion_const.getD (5 / 1000)
    let do_vertical_advection : Bool := cfg.vertical_advection.getD true
    Except.ok
      ({ nLayer := nLayer, susp_depth := susp_depth, v_edge_height := v_edge_height,
         l__max := l__max, settling_velocity := settling_velocity,
         snow_diffusion_const := snow_diffusion_const,
         do_vertical_advection := do_vertical_advection },
       domain.map (fun fv => init_face v_edge_height fv.1 fv.2))

/-! ## `PBSM3D::run`, first face loop: saltation -/

/-- The neighbour `face->neighbor(j)` looked up in the mesh. -/
def neighbor_face (mesh : Mesh) (face : Face) (j : Nat) : Option MFace :=
  (face.neighbor j).bind (fun k => mesh[k]?)

/-- The value `face->neighbor(j)->cell_id`; a neighbour index outside the mesh reads as `0`. -/
def neighbor_cell_id (mesh : Mesh) (face : Face) (j : Nat) : Nat :=
  ((neighbor_face mesh face j).map (fun nb => nb.face.cell_id)).getD 0

/-- The wind vector `uvw` set up from the bearing: `v = -bearing_to_cartesian(phi)`, `uvw(2) = 0`. -/
def wind_vector (ext : Ext) (phi : ℚ) : Vec3 :=
  let v := ext.bearing_to_cartesian phi
  ⟨-v.1, -v.2, 0⟩

/-- Friction velocity: `-.2*u2/gsl_sf_lambert_Wm1(-0.1107384167e-1*u2)` clamped below by `0.1`. -/
def ustar_of (ext : Ext) (u2 : ℚ) : ℚ :=
  max (1 / 10) (-(2 / 10) * u2 / ext.lambert_Wm1 (-(1107384167 / 100000000000) * u2))

/-- Roughness length `d->z0 = max(0.001, 0.1203*ustar*ustar/(2.0*9.81))`. -/
def z0_of (ustar : ℚ) : ℚ :=
  max (1 / 1000) (1203 / 10000 * ustar * ustar / (2 * (981 / 100)))

/-- Saltation layer depth `hs = 0.08436*pow(ustar, 1.27)`. -/
def hs_of (ext : Ext) (ustar : ℚ) : ℚ :=
  8436 / 100000 * ext.pow ustar (127 / 100)

/-- Air density `rho_f = 1.225`. -/
def rho_f : ℚ := 1225 / 1000

/-- Saltation threshold `u_star_saltation = thresh_A*sqrt((rho_p-rho_f)/(rho_f)*_d*g)`. -/
def u_star_saltation (ext : Ext) : ℚ :=
  18 / 100 * ext.sqrt ((ext.rho_ice - rho_f) / rho_f * (48 / 100000) * (981 / 100))

/-- Unlimited saltation concentration (Pomeroy 1990), source line 254. -/
def c_salt_unlimited (ustar uss : ℚ) : ℚ :=
  rho_f / (329 / 100 * ustar) * (1 - (uss * uss) / (ustar * ustar))

/-- Mean wind speed in the saltation layer, source line 264. -/
def uhs_of (ext : Ext) (u2 hs z0 : ℚ) : ℚ :=
  max (1 / 10) (ext.log_scale_wind u2 2 hs 0 (some z0) / 2)

/-- The limiter test quantity `salt`, source lines 272 to 284: the loop over the three edges,
then the division by the area and the multiplication by `dt`. -/
def salt_of (face : Face) (m : Nat → Vec3) (uvw : Vec3) (Qsalt dt : ℚ) : ℚ :=
  let salt := [0, 1, 2].foldl
    (fun s j => s + face.edge_length j * dot uvw (m j) * Qsalt) 0
  let salt := salt / face.area
  salt * dt

/-- The denominator of the limited concentration, source line 297. -/
def limiter_den (face : Face) (m : Nat → Vec3) (uvw : Vec3) (dt hs uhs : ℚ) : ℚ :=
  dt * hs * uhs * (face.edge_length 0 * dot uvw (m 0) + face.edge_length 1 * dot uvw (m 1)
    + face.edge_length 2 * dot uvw (m 2))

/-- What the saltation block leaves in its local variables and face variables. -/
structure Salt where
  c_salt : ℚ
  Qsalt : ℚ
  is_drifting : ℚ
  Qsusp_pbsm : ℚ

/-- The saltation block, source lines 223 to 309.  The argument `swe` is already NaN-coerced. -/
def saltation (ext : Ext) (dt : ℚ) (face : Face) (m : Nat → Vec3) (uvw : Vec3)
    (u2 u10 ustar hs z0 uss swe : ℚ) : Salt :=
  if ustar > uss ∧ swe > 0 then
    let pbsm_qsusp := ext.pow u10 (413 / 100) / 674100
    let c_salt := c_salt_unlimited ustar uss
    let uhs := uhs_of ext u2 hs z0
    let Qsalt := c_salt * uhs * hs
    let salt := salt_of face m uvw Qsalt dt
    if salt > swe then
      let den := limiter_den face m uvw dt hs uhs
      let c_salt := swe * face.area / den
      let Qsalt := c_salt * uhs * hs
      if swe * face.area = 0 ∧ den = 0 then
        { c_salt := 0, Qsalt := 0, is_drifting := 1, Qsusp_pbsm := pbsm_qsusp }
      else
        { c_salt := c_salt, Qsalt := Qsalt, is_drifting := 1, Qsusp_pbsm := pbsm_qsusp }
    else
      { c_salt := c_salt, Qsalt := Qsalt, is_drifting := 1, Qsusp_pbsm := pbsm_qsusp }
  else
    { c_salt := 0, Qsalt := 0, is_drifting := 0, Qsusp_pbsm := 0 }

/-- The NaN coercion `swe = is_nan(swe) ? 0 : swe`. -/
def swe_of (vars : Vars) : ℚ := vars.swe.getD 0

/-- The saltation block evaluated on a face of the mesh, with every argument computed as in
the source from the face variables. -/
def face_salt (ext : Ext) (dt : ℚ) (f : MFace) : Salt :=
  let u2 := f.vars.U_2m_above_srf
  let ustar := ustar_of ext u2
  saltation ext dt f.face f.d.m (wind_vector ext f.vars.vw_dir) u2
    (ext.log_scale_wind u2 2 10 0 none) ustar (hs_of ext ustar) (z0_of ustar)
    (u_star_saltation ext) (swe_of f.vars)

/-- The face variables after the saltation part of the loop body (source lines 147 to 321). -/
def salt_vars (ext : Ext) (dt : ℚ) (f : MFace) : Vars :=
  let u2 := f.vars.U_2m_above_srf
  let ustar := ustar_of ext u2
  let s := face_salt ext dt f
  { f.vars with
    u10 := ext.log_scale_wind u2 2 10 0 none
    hs := hs_of ext ustar
    u_th := u_star_saltation ext
    ustar := ustar
    is_drifting := s.is_drifting
    Qsusp_pbsm := s.Qsusp_pbsm
    csalt := s.c_salt
    Qsalt := s.Qsalt }

/-! ## `PBSM3D::run`, first face loop: suspension assembly -/

/-- The state carried through the layer loop of one face: the wind vector `uvw` (rescaled in
place at every layer), the system under assembly and the face variables. -/
structure LayerSt where
  uvw : Vec3
  C : SpMat
  b : Vec
  vars : Vars

/-- Cell centre height `cz = z + hs + v_edge_height/2.`. -/
def cz_of (mod : Module) (hs : ℚ) (z : Nat) : ℚ :=
  (z : ℚ) + hs + mod.v_edge_height / 2

/-- Vertical eddy diffusivity `K[3] = K[4]` of a layer, source lines 329 and 332. -/
def K_of (ext : Ext) (mod : Module) (ustar z0 cz : ℚ) : ℚ :=
  let l := ext.kappa * (cz + z0) * mod.l__max / (ext.kappa * cz + ext.kappa * z0 + mod.l__max)
  mod.snow_diffusion_const * max (ustar * l) (ext.kappa * cz * ustar)

/-- Layer wind speed `u_z = max(0.1, log_scale_wind(u2, 2, cz, 0, d->z0))`. -/
def u_z_of (ext : Ext) (u2 cz z0 : ℚ) : ℚ :=
  max (1 / 10) (ext.log_scale_wind u2 2 cz 0 (some z0))

/-- The wind vector of a layer, source lines 340 to 345: the vector left by the previous layer
is rescaled by `u_z / norm(uvw)` and its third component is set to the settling velocity. -/
def layer_wind (ext : Ext) (mod : Module) (u_z : ℚ) (uvw : Vec3) : Vec3 :=
  let length := ext.norm uvw
  let scale := u_z / length
  let uvw := uvw.scale scale
  { uvw with z := mod.settling_velocity }

/-- One pass of the lateral loop `for(int f = 0; f < 3; f++)`, source lines 363 to 392. -/
def lateral_step (mesh : Mesh) (face : Face) (d : Data) (ntri z idx : Nat)
    (alpha udotm : Nat → ℚ) (row : SpRow) (f : Nat) : SpRow :=
  if udotm f > 0 then
    if d.face_neigh f then
      (row.add idx (-d.A f * udotm f - alpha f)).add idx (alpha f)
    else
      row.add idx (-d.A f * udotm f)
  else
    if d.face_neigh f then
      let nidx := ntri * z + neighbor_cell_id mesh face f
      (row.add idx (-alpha f)).set nidx (-d.A f * udotm f + alpha f)
    else
      row.add idx (-alpha f)

/-- The vertical terms with `do_vertical_advection` set, source lines 403 to 466.
Returns the row and the right-hand side. -/
def vertical_advective (mod : Module) (d : Data) (ntri z cell_id : Nat)
    (K alpha udotm : Nat → ℚ) (c_salt : ℚ) (row : SpRow) (b : Vec) : SpRow × Vec :=
  let idx := ntri * z + cell_id
  let up := ntri * (z + 1) + cell_id
  let down := ntri * (z - 1) + cell_id
  if z = 0 then
    let row := row.add idx (-d.A 4 * K 4)
    let b := b.set idx (-d.A 4 * K 4 * c_salt + 0)
    if udotm 3 > 0 then
      ((row.add idx (-d.A 3 * udotm 3 - alpha 3)).add up (alpha 3), b)
    else
      ((row.add idx (-alpha 3)).add up (-d.A 3 * udotm 3 + alpha 3), b)
  else if z = mod.nLayer - 1 then
    let row :=
      if udotm 3 > 0 then row.add idx (-d.A 3 * udotm 3 - alpha 3)
      else row.add idx (-alpha 3)
    if udotm 4 > 0 then
      ((row.add idx (-d.A 4 * udotm 4 - alpha 4)).add down (alpha 4), b)
    else
      ((row.add idx (-alpha 4)).add down (-d.A 4 * udotm 4 + alpha 4), b)
  else
    let row :=
      if udotm 3 > 0 then (row.add idx (-d.A 3 * udotm 3 - alpha 3)).add up (alpha 3)
      else (row.add idx (-alpha 3)).add up (-d.A 3 * udotm 3 + alpha 3)
    if udotm 4 > 0 then
      ((row.add idx (-d.A 4 * udotm 4 - alpha 4)).add down (alpha 4), b)
    else
      ((row.add idx (-alpha 4)).add down (-d.A 4 * udotm 4 + alpha 4), b)

/-- The vertical terms of the diffusion-only case, source lines 467 to 498. -/
def vertical_diffusive (mod : Module) (d : Data) (ntri z cell_id : Nat)
    (K alpha : Nat → ℚ) (c_salt : ℚ) (row : SpRow) (b : Vec) : SpRow × Vec :=
  let idx := ntri * z + cell_id
  let up := ntri * (z + 1) + cell_id
  let down := ntri * (z - 1) + cell_id
  if z = 0 then
    let row := row.add idx (-d.A 4 * K 4)
    let b := b.set (ntri * z + cell_id) (-d.A 4 * K 4 * c_salt)
    ((row.add (ntri * z + cell_id) (-alpha 3)).add up (alpha 3), b)
  else if z = mod.nLayer - 1 then
    ((row.add (ntri * z + cell_id) (-alpha 3 - alpha 4)).add down (alpha 4), b)
  else
    (((row.add idx (-alpha 3 - alpha 4)).add up (alpha 3)).add down (alpha 4), b)

/-- The body of the layer loop `for (int z = 0; z < nLayer; ++z)`, source lines 325 to 499.
The arrays `K` and `alpha` hold `0` in slots `0, 1, 2` throughout and are rewritten in slots
`3, 4` at every layer before they are read. -/
def layer_body (ext : Ext) (mod : Module) (ntri : Nat) (mesh : Mesh) (face : Face) (d : Data)
    (u2 ustar c_salt : ℚ) (z : Nat) (st : LayerSt) : LayerSt :=
  let cz := cz_of mod d.hs z
  let K34 := K_of ext mod ustar d.z0 cz
  let K : Nat → ℚ := arrSet (arrSet (fun _ => 0) 3 K34) 4 K34
  let vars := { st.vars with K := arrSet st.vars.K z (K 3) }
  let alpha : Nat → ℚ :=
    arrSet (arrSet (fun _ => 0) 3 (d.A 3 * K 3 / mod.v_edge_height)) 4
      (d.A 4 * K 4 / mod.v_edge_height)
  let u_z := u_z_of ext u2 cz d.z0
  let uvw := layer_wind ext mod u_z st.uvw
  let udotm : Nat → ℚ := fun j => dot uvw (d.m j)
  let idx := ntri * z + face.cell_id
  let row := (st.C idx).init0 idx
  let row := [0, 1, 2].foldl (lateral_step mesh face d ntri z idx alpha udotm) row
  let row := if z ≠ mod.nLayer - 1 then row.init0 (ntri * (z + 1) + face.cell_id) else row
  let row := if z ≠ 0 then row.init0 (ntri * (z - 1) + face.cell_id) else row
  let rb :=
    if mod.do_vertical_advection then
      vertical_advective mod d ntri z face.cell_id K alpha udotm c_salt row st.b
    else
      vertical_diffusive mod d ntri z face.cell_id K alpha c_salt row st.b
  { uvw := uvw, C := st.C.setRow idx rb.1, b := rb.2, vars := vars }

/-- A counted loop `for (z = z0; z < z0 + n; ++z) st = body z st`. -/
def layer_loop (body : Nat → LayerSt → LayerSt) : Nat → Nat → LayerSt → LayerSt
  | 0, _, st => st
  | n + 1, z, st => layer_loop body n (z + 1) (body z st)

/-- The module cache of a face after the first loop body has stored `z0` and `hs`. -/
def data1 (ext : Ext) (f : MFace) : Data :=
  let ustar := ustar_of ext f.vars.U_2m_above_srf
  { f.d with z0 := z0_of ustar, hs := hs_of ext ustar }

/-- The body of the first face loop of `run`, source lines 141 to 500: saltation, then the
assembly of the face's rows of the suspension system. -/
def run_face1 (ext : Ext) (mod : Module) (dt : ℚ) (ntri : Nat) (mesh : Mesh) (f : MFace)
    (C : SpMat) (b : Vec) : MFace × SpMat × Vec :=
  let u2 := f.vars.U_2m_above_srf
  let ustar := ustar_of ext u2
  let d := data1 ext f
  let s := face_salt ext dt f
  let st0 : LayerSt :=
    { uvw := wind_vector ext f.vars.vw_dir, C := C, b := b, vars := salt_vars ext dt f }
  let st := layer_loop (layer_body ext mod ntri mesh f.face d u2 ustar s.c_salt) mod.nLayer 0 st0
  ({ face := f.face, vars := st.vars, d := d }, st.C, st.b)

/-- The first face loop over the faces `fs` (in index order), threading the system. -/
def loop1 (ext : Ext) (mod : Module) (dt : ℚ) (ntri : Nat) (mesh : Mesh) :
    List MFace → SpMat → Vec → List MFace × SpMat × Vec
  | [], C, b => ([], C, b)
  | f :: fs, C, b =>
    let r := run_face1 ext mod dt ntri mesh f C b
    let rest := loop1 ext mod dt ntri mesh fs r.2.1 r.2.2
    (r.1 :: rest.1, rest.2.1, rest.2.2)

/-- The first stage of `run`: the mesh after the first face loop and the assembled suspension
system `C`, `b` (both start empty, respectively zero). -/
def stage1 (ext : Ext) (mod : Module) (dt : ℚ) (mesh : Mesh) : List MFace × SpMat × Vec :=
  loop1 ext mod dt mesh.length mesh mesh (fun _ => SpRow.empty) (fun _ => 0)

/-! ## `PBSM3D::run`, second face loop: suspension flux and sublimation -/

/-- The accumulators of the layer loop of the second face loop. -/
structure PostSt where
  Qsusp : ℚ
  Qsubl : ℚ
  vars : Vars

/-- The clamp `c = c < 0 ? 0 : c`. -/
def clamp0 (c : ℚ) : ℚ := if c < 0 then 0 else c

/-- The sublimation rate coefficient `csubl` of a layer, source lines 556 to 603; `none` when
the root finder throws.  The argument `t` is in kelvin. -/
def csubl_of (ext : Ext) (face : Face) (t q P cz u_z : ℚ) : Option ℚ :=
  let v := 188 / 100 * ext.pow 10 (-5)
  let rm := 46 / 10 * ext.pow 10 (-5) * ext.pow cz (-(258 / 1000))
  let xrz := 5 / 1000 * ext.pow u_z (136 / 100)
  let omega := 11 / 10 * ext.pow 10 7 * ext.pow rm (18 / 10)
  let Vr := omega + 3 * xrz * ext.cos (ext.M_PI / 4)
  let Re := 2 * rm * Vr / v
  let Nu := 179 / 100 + 606 / 1000 * ext.pow Re (5 / 10)
  let Sh := Nu
  let D := 206 / 100 * ext.pow 10 (-5) * ext.pow (t / 273) (175 / 100)
  let lambda_t := 63 / 1000000 * (t - 27315 / 100) + 673 / 100000
  let Ls := 2838 / 1000 * ext.pow 10 6
  let rho_a := ext.stdDryAirDensity face.elev t
  let Tsfn : ℚ → ℚ := fun Ts =>
    let es_Ts := ext.saturatedVapourPressure Ts
    let ea_ts := 1 * es_Ts / 1000
    let qTs := 633 / 1000 * ea_ts / P
    (D * Sh * Ls * q * rho_a - D * Sh * Ls * qTs * rho_a + Nu * t * lambda_t) / (lambda_t * Nu) - Ts
  match ext.toms748_solve Tsfn 200 300 with
  | none => none
  | some r =>
    let Ts := r.1 + (r.2 - r.1) / 2
    let dmdtz := 2 * ext.M_PI * rm * lambda_t / Ls * Nu * (Ts - t)
    let alpha := 408 / 100 + 126 / 10 * cz
    let mm := 4 / 3 * ext.M_PI * ext.rho_ice * rm * rm * rm * (1 + 3 / alpha + 2 / (alpha * alpha))
    some (dmdtz / mm)

/-- The body of the layer loop of the second face loop, source lines 543 to 607. -/
def post_layer (ext : Ext) (mod : Module) (ntri : Nat) (face : Face) (d : Data) (x : Vec)
    (u2 t q P : ℚ) (z : Nat) (st : PostSt) : Option PostSt :=
  let c := clamp0 (x (ntri * z + face.cell_id))
  let cz := cz_of mod d.hs z
  let u_z := u_z_of ext u2 cz d.z0
  let Qsusp := st.Qsusp + c * u_z * mod.v_edge_height
  let vars := if z < 15 then { st.vars with c := arrSet st.vars.c z c } else st.vars
  match csubl_of ext face t q P cz u_z with
  | none => none
  | some csubl =>
    some { Qsusp := Qsusp, Qsubl := st.Qsubl + csubl * c * mod.v_edge_height, vars := vars }

/-- A counted loop whose body may fail. -/
def post_loop (body : Nat → PostSt → Option PostSt) : Nat → Nat → PostSt → Option PostSt
  | 0, _, st => some st
  | n + 1, z, st =>
    match body z st with
    | none => none
    | some st1 => post_loop body n (z + 1) st1

/-- The body of the second face loop of `run`, source lines 521 to 610. -/
def run_face2 (ext : Ext) (mod : Module) (ntri : Nat) (x : Vec) (f : MFace) : Option MFace :=
  let u2 := f.vars.U_2m_above_srf
  let rh := f.vars.rh / 100
  let t := f.vars.t + 27315 / 100
  let es := ext.saturatedVapourPressure t
  let ea := rh * es / 1000
  let P := ext.stdAirPressure f.face.elev / 1000
  let q := 633 / 1000 * ea / P
  match post_loop (post_layer ext mod ntri f.face f.d x u2 t q P) mod.nLayer 0
      { Qsusp := 0, Qsubl := 0, vars := f.vars } with
  | none => none
  | some st => some { f with vars := { st.vars with Qsusp := st.Qsusp, Qsubl := st.Qsubl } }

/-- The second face loop; it fails when the root finder fails on some cell. -/
def loop2 (ext : Ext) (mod : Module) (ntri : Nat) (x : Vec) : List MFace → Option (List MFace)
  | [] => some []
  | f :: fs =>
    match run_face2 ext mod ntri x f with
    | none => none
    | some f1 =>
      match loop2 ext mod ntri x fs with
      | none => none
      | some fs1 => some (f1 :: fs1)

/-! ## `PBSM3D::run`, third face loop: divergence assembly -/

/-- The regularisation constant `eps = 1e-8`. -/
def eps : ℚ := 1 / 100000000

/-- One pass of the edge loop `for (int j = 0; j < 3; j++)`, source lines 667 to 704, acting on
row `A[i]` and on the entry `bb[i]`. -/
def div_step (ext : Ext) (mesh : Mesh) (f : MFace) (i : Nat) (udotm : Nat → ℚ)
    (acc : SpRow × ℚ) (j : Nat) : SpRow × ℚ :=
  let row := acc.1
  let bbi := acc.2
  let E := f.face.edge_length j
  if f.d.face_neigh j then
    let nQsalt := ((neighbor_face mesh f.face j).map (fun nb => nb.vars.Qsalt)).getD 0
    let nQsusp := ((neighbor_face mesh f.face j).map (fun nb => nb.vars.Qsusp)).getD 0
    let ncenter := ((neighbor_face mesh f.face j).map (fun nb => nb.face.center)).getD (0, 0)
    let ncell := neighbor_cell_id mesh f.face j
    let qs := (nQsalt + f.vars.Qsalt) / 2
    let qt := (nQsusp + f.vars.Qsusp) / 2
    let Qt := qs + qt
    let dx := ext.distance f.face.center ncenter
    let row := row.init0 ncell
    let row := row.add i (eps / (dx * f.face.area) - 1)
    let row := row.add ncell (-eps / (dx * f.face.area))
    (row, bbi + E * Qt * udotm j / f.face.area)
  else
    let qs := (0 + f.vars.Qsalt) / 2
    let qt := (0 + f.vars.Qsusp) / 2
    let Qt := qs + qt
    let dx : ℚ := 1
    let row := row.add i (eps / (dx * f.face.area) - 1)
    (row, bbi + E * Qt * udotm j / f.face.area)

/-- The body of the third face loop of `run`, source lines 620 to 777, for the face at index `i`. -/
def run_face3 (ext : Ext) (mesh : Mesh) (f : MFace) (i : Nat) (A : SpMat) (bb : Vec) :
    SpMat × Vec :=
  let uvw := wind_vector ext f.vars.vw_dir
  let udotm : Nat → ℚ := fun j => dot uvw (f.d.m j)
  let row := (A i).init0 i
  let r := [0, 1, 2].foldl (div_step ext mesh f i udotm) (row, bb i)
  (A.setRow i r.1, bb.set i r.2)

/-- The third face loop over the faces `fs`, the first of which has index `i`. -/
def loop3 (ext : Ext) (mesh : Mesh) : List MFace → Nat → SpMat → Vec → SpMat × Vec
  | [], _, A, bb => (A, bb)
  | f :: fs, i, A, bb =>
    let r := run_face3 ext mesh f i A bb
    loop3 ext mesh fs (i + 1) r.1 r.2

/-- The third stage of `run`: the divergence system `A`, `bb` assembled over the mesh left by
the second stage. -/
def stage3 (ext : Ext) (mesh : Mesh) : SpMat × Vec :=
  loop3 ext mesh mesh 0 (fun _ => SpRow.empty) (fun _ => 0)

/-! ## `PBSM3D::run`, fourth face loop: mass update -/

/-- The body of the fourth face loop of `run`, source lines 797 to 812. -/
def run_face4 (dt : ℚ) (dSdt : Nat → Option ℚ) (f : MFace) (i : Nat) : MFace :=
  let subl_mass_flux := f.vars.Qsubl
  let qdep : ℚ := (dSdt i).getD 0
  let mass := (-qdep + subl_mass_flux) * dt
  let mass_no_subl := -qdep * dt
  let sum_drift := f.vars.sum_drift
  { f with vars := { f.vars with drift_mass := mass, drift_mass_no_subl := mass_no_subl,
                                 sum_drift := sum_drift + mass } }

/-- The fourth face loop over the faces `fs`, the first of which has index `i`. -/
def loop4 (dt : ℚ) (dSdt : Nat → Option ℚ) : List MFace → Nat → List MFace
  | [], _ => []
  | f :: fs, i => run_face4 dt dSdt f i :: loop4 dt dSdt fs (i + 1)

/-! ## `PBSM3D::run` -/

/-- The solved suspension concentrations `x` of a run. -/
def run_x (ext : Ext) (mod : Module) (dt : ℚ) (mesh : Mesh) : Vec :=
  let s1 := stage1 ext mod dt mesh
  ext.solve_C (mesh.length * mod.nLayer) s1.2.1 s1.2.2

/-- The mesh after the first two face loops of a run; `none` when the root finder fails. -/
def stage2 (ext : Ext) (mod : Module) (dt : ℚ) (mesh : Mesh) : Option (List MFace) :=
  loop2 ext mod mesh.length (run_x ext mod dt mesh) (stage1 ext mod dt mesh).1

/-- Member `PBSM3D::run`: one timestep of length `dt` over the mesh; `none` when the root
finder throws. -/
def run (ext : Ext) (mod : Module) (dt : ℚ) (mesh : Mesh) : Option Mesh :=
  match stage2 ext mod dt mesh with
  | none => none
  | some mesh2 =>
    let s3 := stage3 ext mesh2
    let dSdt := ext.solve_A mesh.length s3.1 s3.2
    some (loop4 dt dSdt mesh2 0)

/-! ## Closed forms used in the proofs -/

/-- The value written to `b[idx]` by the layer-0 pass of the layer loop. -/
def b_entry (ext : Ext) (mod : Module) (d : Data) (ustar c_salt : ℚ) : ℚ :=
  -d.A 4 * K_of ext mod ustar d.z0 (cz_of mod d.hs 0) * c_salt

/-- The face variables after `n` passes of the layer loop starting at layer `z`: only the
diffusivity outputs `K<z>` change. -/
def layer_vars (ext : Ext) (mod : Module) (d : Data) (ustar : ℚ) : Nat → Nat → Vars → Vars
  | 0, _, v => v
  | n + 1, z, v =>
    layer_vars ext mod d ustar n (z + 1)
      { v with K := arrSet v.K z (K_of ext mod ustar d.z0 (cz_of mod d.hs z)) }

/-- The face record left by the first loop body; it does not depend on the system. -/
def face1_out (ext : Ext) (mod : Module) (dt : ℚ) (f : MFace) : MFace :=
  { face := f.face
    vars := layer_vars ext mod (data1 ext f) (ustar_of ext f.vars.U_2m_above_srf) mod.nLayer 0
      (salt_vars ext dt f)
    d := data1 ext f }

/-- The `z`-th term of the suspension flux sum. -/
def Qsusp_term (ext : Ext) (mod : Module) (ntri : Nat) (face : Face) (d : Data) (x : Vec)
    (u2 : ℚ) (z : Nat) : ℚ :=
  clamp0 (x (ntri * z + face.cell_id)) * u_z_of ext u2 (cz_of mod d.hs z) d.z0 * mod.v_edge_height

/-- The `z`-th term of the sublimation sum (`0` for a failed root find). -/
def Qsubl_term (ext : Ext) (mod : Module) (ntri : Nat) (face : Face) (d : Data) (x : Vec)
    (u2 t q P : ℚ) (z : Nat) : ℚ :=
  (csubl_of ext face t q P (cz_of mod d.hs z) (u_z_of ext u2 (cz_of mod d.hs z) d.z0)).getD 0
    * clamp0 (x (ntri * z + face.cell_id)) * mod.v_edge_height

/-- Air temperature in kelvin, `t = face_data("t") + 273.15`. -/
def t_of (f : MFace) : ℚ := f.vars.t + 27315 / 100

/-- Air pressure in kPa, `P = stdAirPressure(z)/1000`. -/
def P_of (ext : Ext) (f : MFace) : ℚ := ext.stdAirPressure f.face.elev / 1000

/-- Specific humidity of the air, `q = 0.633*ea/P`. -/
def q_of (ext : Ext) (f : MFace) : ℚ :=
  633 / 1000 * (f.vars.rh / 100 * ext.saturatedVapourPressure (t_of f) / 1000) / P_of ext f

/-- The suspension flux `Qsusp` of a face as a sum over its layers. -/
def Qsusp_of (ext : Ext) (mod : Module) (ntri : Nat) (x : Vec) (f : MFace) : ℚ :=
  ∑ z in Finset.range mod.nLayer, Qsusp_term ext mod ntri f.face f.d x f.vars.U_2m_above_srf z

/-- The sublimation flux `Qsubl` of a face as a sum over its layers. -/
def Qsubl_of (ext : Ext) (mod : Module) (ntri : Nat) (x : Vec) (f : MFace) : ℚ :=
  ∑ z in Finset.range mod.nLayer,
    Qsubl_term ext mod ntri f.face f.d x f.vars.U_2m_above_srf (t_of f) (q_of ext f) (P_of ext f) z

/-- The face record left by the second loop body when the root finder succeeds. -/
def face2_out (ext : Ext) (mod : Module) (ntri : Nat) (x : Vec) (f : MFace) : MFace :=
  { f with vars :=
    { f.vars with
      c := fun j => if j < mod.nLayer ∧ j < 15 then clamp0 (x (ntri * j + f.face.cell_id))
                    else f.vars.c j
      Qsusp := Qsusp_of ext mod ntri x f
      Qsubl := Qsubl_of ext mod ntri x f } }

/-- The edge flux `Qt[j]` of the divergence assembly. -/
def Qt_of (mesh : Mesh) (f : MFace) (j : Nat) : ℚ :=
  if f.d.face_neigh j then
    (((neighbor_face mesh f.face j).map (fun nb => nb.vars.Qsalt)).getD 0 + f.vars.Qsalt) / 2
      + (((neighbor_face mesh f.face j).map (fun nb => nb.vars.Qsusp)).getD 0 + f.vars.Qsusp) / 2
  else
    (0 + f.vars.Qsalt) / 2 + (0 + f.vars.Qsusp) / 2

/-- The term edge `j` adds to `bb[i]`. -/
def bb_term (ext : Ext) (mesh : Mesh) (f : MFace) (j : Nat) : ℚ :=
  f.face.edge_length j * Qt_of mesh f j * dot (wind_vector ext f.vars.vw_dir) (f.d.m j)
    / f.face.area

/-- What the third loop body adds to `bb[i]` over the three edges. -/
def bb_incr (ext : Ext) (mesh : Mesh) (f : MFace) : ℚ :=
  bb_term ext mesh f 0 + bb_term ext mesh f 1 + bb_term ext mesh f 2

/-- The solved divergence `dSdt` of a run, from the mesh left by the second stage. -/
def run_dSdt (ext : Ext) (n : Nat) (mesh2 : List MFace) : Nat → Option ℚ :=
  ext.solve_A n (stage3 ext mesh2).1 (stage3 ext mesh2).2

/-- The mesh left by the first two face loops when the root finder succeeds. -/
def mesh2_of (ext : Ext) (mod : Module) (dt : ℚ) (mesh : Mesh) : List MFace :=
  (mesh.map (face1_out ext mod dt)).map (face2_out ext mod mesh.length (run_x ext mod dt mesh))

/-- The root finder succeeds on every cell of the face `f`, which is a face as left by the
first face loop. -/
def roots_ok (ext : Ext) (mod : Module) (f : MFace) : Prop :=
  ∀ z, z < mod.nLayer →
    (csubl_of ext f.face (t_of f) (q_of ext f) (P_of ext f) (cz_of mod f.d.hs z)
      (u_z_of ext f.vars.U_2m_above_srf (cz_of mod f.d.hs z) f.d.z0)).isSome

/-- The root finder succeeds on every cell of a run over `mesh`. -/
def run_roots_ok (ext : Ext) (mod : Module) (dt : ℚ) (mesh : Mesh) : Prop :=
  ∀ f ∈ mesh, roots_ok ext mod (face1_out ext mod dt f)

/-- The variable store of face `i` after one run; `none` when the run fails or the mesh has no
face `i`. -/
def run_vars (ext : Ext) (mod : Module) (dt : ℚ) (mesh : Mesh) (i : Nat) : Option Vars :=
  (run ext mod dt mesh).bind (fun m => (m[i]?).map (fun f => f.vars))

/-! ## A reference instance of the library and concrete meshes

The library functions are tabulated to four significant digits at the arguments the
concrete runs of this file evaluate (an argument that is not tabulated reads as `0`); the saturation
vapour pressure is piecewise linear on a 5 K grid; the root finder is a bracketed bisection and
both linear solves are exact Gauss-Jordan eliminations over `ℚ`. -/

/-- A table row: a key and its value. -/
def tab_row (k : List ℚ) (v : ℚ) : List ℚ × ℚ := (k, v)

/-- A grid point: an abscissa and its value. -/
def grid_pt (a v : ℚ) : ℚ × ℚ := (a, v)

/-- Table lookup: the value stored under the key `a`, `0` when `a` is not tabulated. -/
def tab_get : List (List ℚ × ℚ) → List ℚ → ℚ
  | [], _ => 0
  | e :: rest, a => if e.1 = a then e.2 else tab_get rest a

/-- Piecewise linear interpolation on an increasing grid, constant outside it. -/
def interp : List (ℚ × ℚ) → ℚ → ℚ
  | [], _ => 0
  | [p], _ => p.2
  | p :: p1 :: rest, T =>
    if T ≤ p.1 then p.2
    else if T ≤ p1.1 then p.2 + (p1.2 - p.2) * (T - p.1) / (p1.1 - p.1)
    else interp (p1 :: rest) T

/-- Bisection: `n` halvings of a bracket `[lo, hi]`, keeping the half on which `f` changes sign
(`flo` is the sign of `f lo`). -/
def bisect (f : ℚ → ℚ) (flo : Bool) : Nat → ℚ → ℚ → ℚ × ℚ
  | 0, lo, hi => (lo, hi)
  | n + 1, lo, hi =>
    let mid := (lo + hi) / 2
    if decide (f mid ≤ 0) = flo then bisect f flo n mid hi else bisect f flo n lo mid

/-- A bracketed root finder: fails when `f` does not change sign over `[lo, hi]`, otherwise
returns the bracket after 12 bisections. -/
def ref_toms748 (f : ℚ → ℚ) (lo hi : ℚ) : Option (ℚ × ℚ) :=
  if (f lo ≤ 0 ∧ 0 ≤ f hi) ∨ (0 ≤ f lo ∧ f hi ≤ 0) then
    some (bisect f (decide (f lo ≤ 0)) 12 lo hi)
  else none

/-- One elimination step of Gauss-Jordan on the augmented rows `a`: pivot on column `k`. -/
def gauss_step (n : Nat) (a : List (List ℚ)) (k : Nat) : List (List ℚ) :=
  match (List.range n).find? (fun r => decide (k ≤ r) && decide ((a.getD r []).getD k 0 ≠ 0)) with
  | none => a
  | some p =>
    let rp := a.getD p []
    let a1 := (a.set p (a.getD k [])).set k rp
    let pv := rp.getD k 0
    let rk := rp.map (fun v => v / pv)
    (List.range n).map (fun r =>
      if r = k then rk
      else
        let row := a1.getD r []
        let fac := row.getD k 0
        List.zipWith (fun vr vk => vr - fac * vk) row rk)

/-- The reduced augmented rows of the system `M x = b` of dimension `n`. -/
def gauss_rows (n : Nat) (M : SpMat) (b : Vec) : List (List ℚ) :=
  (List.range n).foldl (gauss_step n)
    ((List.range n).map (fun i => (List.range n).map (fun j => (M i j).getD 0) ++ [b i]))

/-- Exact solve by Gauss-Jordan elimination. -/
def gauss (n : Nat) (M : SpMat) (b : Vec) : Vec :=
  fun i => ((gauss_rows n M b).getD i []).getD n 0

/-- Tabulated values of `pow(x, y)` (four significant digits), keys `[x, y]`. -/
def ref_pow_tab : List (List ℚ × ℚ) :=
  [tab_row [1000 / 1717, 127 / 100] (5033 / 10000),
   tab_row [326 / 25, 413 / 100] (40370),
   tab_row [10, (-5)] (1 / 100000),
   tab_row [135614597 / 250000000, (-129 / 500)] (1171 / 1000),
   tab_row [81 / 10, 34 / 25] (86 / 5),
   tab_row [10, 7] (10000000),
   tab_row [26933 / 500000000, 9 / 5] (259 / 12500000000),
   tab_row [55260025147 / 23500000000, 1 / 2] (1533 / 1000),
   tab_row [5263 / 5460, 7 / 4] (9377 / 10000),
   tab_row [10, 6] (1000000),
   tab_row [385614597 / 250000000, (-129 / 500)] (4471 / 5000),
   tab_row [4811 / 500, 34 / 25] (1087 / 50),
   tab_row [102833 / 2500000000, 9 / 5] (51 / 4000000000),
   tab_row [3813410743323 / 2350000000000, 1 / 2] (637 / 500),
   tab_row [635614597 / 250000000, (-129 / 500)] (393 / 500),
   tab_row [207 / 20, 34 / 25] (2401 / 100),
   tab_row [9039 / 250000000, 9 / 5] (1011 / 100000000000),
   tab_row [661423519107 / 470000000000, 1 / 2] (593 / 500),
   tab_row [885614597 / 250000000, (-129 / 500)] (451 / 625),
   tab_row [1083 / 100, 34 / 25] (2553 / 100),
   tab_row [10373 / 312500000, 9 / 5] (2167 / 250000000000),
   tab_row [759577333097 / 587500000000, 1 / 2] (1137 / 1000),
   tab_row [1135614597 / 250000000, (-129 / 500)] (6767 / 10000),
   tab_row [1119 / 100, 34 / 25] (2669 / 100),
   tab_row [155641 / 5000000000, 9 / 5] (7721 / 1000000000000),
   tab_row [11455753004777 / 9400000000000, 1 / 2] (138 / 125),
   tab_row [3000 / 761, 127 / 100] (5709 / 1000),
   tab_row [3911 / 100, 413 / 100] (3768000),
   tab_row [24540281 / 25000000, (-129 / 500)] (201 / 200),
   tab_row [2299 / 100, 34 / 25] (7107 / 100),
   tab_row [4623 / 100000000, 9 / 5] (1573 / 100000000000),
   tab_row [856950674793 / 188000000000, 1 / 2] (427 / 200),
   tab_row [49540281 / 25000000, (-129 / 500)] (4191 / 5000),
   tab_row [2991 / 100, 34 / 25] (1017 / 10),
   tab_row [96393 / 2500000000, 9 / 5] (227 / 20000000000),
   tab_row [2320239370053 / 470000000000, 1 / 2] (1111 / 500),
   tab_row [74540281 / 25000000, (-129 / 500)] (943 / 1250),
   tab_row [1697 / 50, 34 / 25] (1207 / 10),
   tab_row [21689 / 625000000, 9 / 5] (939 / 100000000000),
   tab_row [600132265899 / 117500000000, 1 / 2] (113 / 50),
   tab_row [99540281 / 25000000, (-129 / 500)] (7001 / 10000),
   tab_row [3679 / 100, 34 / 25] (1347 / 10),
   tab_row [161023 / 5000000000, 9 / 5] (513 / 62500000000),
   tab_row [4891825763433 / 940000000000, 1 / 2] (2281 / 1000),
   tab_row [124540281 / 25000000, (-129 / 500)] (413 / 625),
   tab_row [3899 / 100, 34 / 25] (729 / 5),
   tab_row [9499 / 312500000, 9 / 5] (3699 / 500000000000),
   tab_row [154625263443 / 29375000000, 1 / 2] (1147 / 500),
   tab_row [1 / 10, 127 / 100] (537 / 10000),
   tab_row [126132533 / 250000000, (-129 / 500)] (1193 / 1000),
   tab_row [819 / 500, 34 / 25] (489 / 250),
   tab_row [27439 / 500000000, 9 / 5] (1071 / 50000000000),
   tab_row [3517217644923 / 2350000000000, 1 / 2] (1223 / 1000),
   tab_row [376132533 / 250000000, (-129 / 500)] (9 / 10),
   tab_row [77 / 40, 34 / 25] (2437 / 1000),
   tab_row [207 / 5000000, 9 / 5] (129 / 10000000000),
   tab_row [69447688767 / 94000000000, 1 / 2] (1719 / 2000),
   tab_row [626132533 / 250000000, (-129 / 500)] (7891 / 10000),
   tab_row [2059 / 1000, 34 / 25] (267 / 100),
   tab_row [181493 / 5000000000, 9 / 5] (509 / 50000000000),
   tab_row [5092670167403 / 9400000000000, 1 / 2] (7361 / 10000),
   tab_row [876132533 / 250000000, (-129 / 500)] (1809 / 2500),
   tab_row [537 / 250, 34 / 25] (2829 / 1000),
   tab_row [41607 / 1250000000, 9 / 5] (8711 / 1000000000000),
   tab_row [10470550378239 / 23500000000000, 1 / 2] (267 / 400),
   tab_row [1126132533 / 250000000, (-129 / 500)] (3391 / 5000),
   tab_row [1107 / 500, 34 / 25] (2947 / 1000),
   tab_row [77993 / 2500000000, 9 / 5] (969 / 125000000000),
   tab_row [18176948047023 / 47000000000000, 1 / 2] (6219 / 10000)]

/-- Tabulated values of `sqrt(x)`, keys `[x]`. -/
def ref_sqrt_tab : List (List ℚ × ℚ) :=
  [tab_row [15400719 / 4375000] (469 / 250),
   tab_row [1] (1),
   tab_row [3293 / 50] (1623 / 200),
   tab_row [67675848061 / 731702500] (9617 / 1000),
   tab_row [11595086030463865 / 108276386492836] (207 / 20),
   tab_row [317323552627730641 / 2706909662320900] (1083 / 100),
   tab_row [250000 / 9] (1667 / 10),
   tab_row [5287901 / 10000] (23),
   tab_row [47296850463481 / 52900000000] (299 / 10),
   tab_row [136197368367986755129 / 118232822500000000] (1697 / 50),
   tab_row [3787597882244729809 / 2798410000000000] (3679 / 100),
   tab_row [733261 / 250000] (1713 / 1000),
   tab_row [474486541 / 130416400] (1907 / 1000),
   tab_row [1991921880514021 / 474278670643600] (2049 / 1000),
   tab_row [253924174432473794869 / 55311445697465580100] (2143 / 1000)]

/-- Tabulated values of `cos(x)`, keys `[x]`. -/
def ref_cos_tab : List (List ℚ × ℚ) :=
  [tab_row [1570796327 / 2000000000] (7071 / 10000)]

/-- Tabulated values of the lower Lambert W branch, keys `[x]`. -/
def ref_lambert_tab : List (List ℚ × ℚ) :=
  [tab_row [(-1107384167 / 10000000000)] ((-1717 / 500)),
   tab_row [(-3322152501 / 10000000000)] ((-761 / 500)),
   tab_row [(-1107384167 / 50000000000)] ((-2759 / 500))]

/-- Tabulated values of `log_scale_wind`, keys `[u, Z_in, Z_out, snowdepth, z0]`. -/
def ref_wind_tab : List (List ℚ × ℚ) :=
  [tab_row [10, 2, 10, 0, 1 / 100] (326 / 25),
   tab_row [10, 2, 135614597 / 250000000, 0, 2005000 / 964025103] (81 / 10),
   tab_row [10, 2, 385614597 / 250000000, 0, 2005000 / 964025103] (4811 / 500),
   tab_row [10, 2, 635614597 / 250000000, 0, 2005000 / 964025103] (207 / 20),
   tab_row [10, 2, 885614597 / 250000000, 0, 2005000 / 964025103] (1083 / 100),
   tab_row [10, 2, 1135614597 / 250000000, 0, 2005000 / 964025103] (1119 / 100),
   tab_row [10, 2, 10614597 / 250000000, 0, 2005000 / 964025103] (4391 / 1000),
   tab_row [30, 2, 10, 0, 1 / 100] (3911 / 100),
   tab_row [30, 2, 12040281 / 25000000, 0, 6015000 / 63124189] (1597 / 100),
   tab_row [30, 2, 24540281 / 25000000, 0, 6015000 / 63124189] (2299 / 100),
   tab_row [30, 2, 49540281 / 25000000, 0, 6015000 / 63124189] (2991 / 100),
   tab_row [30, 2, 74540281 / 25000000, 0, 6015000 / 63124189] (1697 / 50),
   tab_row [30, 2, 99540281 / 25000000, 0, 6015000 / 63124189] (3679 / 100),
   tab_row [30, 2, 124540281 / 25000000, 0, 6015000 / 63124189] (3899 / 100),
   tab_row [2, 2, 10, 0, 1 / 100] (326 / 125),
   tab_row [2, 2, 126132533 / 250000000, 0, 1 / 1000] (819 / 500),
   tab_row [2, 2, 376132533 / 250000000, 0, 1 / 1000] (77 / 40),
   tab_row [2, 2, 626132533 / 250000000, 0, 1 / 1000] (2059 / 1000),
   tab_row [2, 2, 876132533 / 250000000, 0, 1 / 1000] (537 / 250),
   tab_row [2, 2, 1126132533 / 250000000, 0, 1 / 1000] (1107 / 500)]

/-- Tabulated first components of `bearing_to_cartesian`, keys `[theta]`. -/
def ref_bearing_x_tab : List (List ℚ × ℚ) :=
  [tab_row [5313 / 100] (4 / 5),
   tab_row [0] (0),
   tab_row [23313 / 100] ((-4 / 5)),
   tab_row [180] (0)]

/-- Tabulated second components of `bearing_to_cartesian`, keys `[theta]`. -/
def ref_bearing_y_tab : List (List ℚ × ℚ) :=
  [tab_row [5313 / 100] (3 / 5),
   tab_row [0] (1),
   tab_row [23313 / 100] ((-3 / 5)),
   tab_row [180] ((-1))]

/-- Tabulated values of `stdAirPressure`, keys `[altitude]`. -/
def ref_pressure_tab : List (List ℚ × ℚ) :=
  [tab_row [0] (101300)]

/-- Tabulated values of `stdDryAirDensity`, keys `[altitude, T]`. -/
def ref_density_tab : List (List ℚ × ℚ) :=
  [tab_row [0, 5263 / 20] (1341 / 1000)]

/-- Saturation vapour pressure on a 5 K grid from 200 K to 300 K (four significant digits). -/
def ref_satvp_grid : List (ℚ × ℚ) :=
  [grid_pt (200) (371 / 2500),
   grid_pt (205) (319 / 1000),
   grid_pt (210) (6603 / 10000),
   grid_pt (215) (33 / 25),
   grid_pt (220) (319 / 125),
   grid_pt (225) (4789 / 1000),
   grid_pt (230) (1092 / 125),
   grid_pt (235) (388 / 25),
   grid_pt (240) (269 / 10),
   grid_pt (245) (911 / 20),
   grid_pt (250) (7547 / 100),
   grid_pt (255) (245 / 2),
   grid_pt (260) (1951 / 10),
   grid_pt (265) (1526 / 5),
   grid_pt (270) (4693 / 10),
   grid_pt (275) (3488 / 5),
   grid_pt (280) (9909 / 10),
   grid_pt (285) (1388),
   grid_pt (290) (1918),
   grid_pt (295) (2618),
   grid_pt (300) (3532)]

/-- The reference library instance. -/
def ext_ref : Ext :=
  { rho_ice := 917
    kappa := 2 / 5
    M_PI := 1570796327 / 500000000
    pow := fun x y => tab_get ref_pow_tab [x, y]
    sqrt := fun x => tab_get ref_sqrt_tab [x]
    cos := fun x => tab_get ref_cos_tab [x]
    lambert_Wm1 := fun x => tab_get ref_lambert_tab [x]
    log_scale_wind := fun u zi zo sd z0 => tab_get ref_wind_tab [u, zi, zo, sd, z0.getD (1 / 100)]
    bearing_to_cartesian := fun th => (tab_get ref_bearing_x_tab [th], tab_get ref_bearing_y_tab [th])
    norm := fun v => tab_get ref_sqrt_tab [v.x * v.x + v.y * v.y + v.z * v.z]
    distance := fun p q =>
      tab_get ref_sqrt_tab [(p.1 - q.1) * (p.1 - q.1) + (p.2 - q.2) * (p.2 - q.2)]
    saturatedVapourPressure := interp ref_satvp_grid
    stdAirPressure := fun h => tab_get ref_pressure_tab [h]
    stdDryAirDensity := fun h T => tab_get ref_density_tab [h, T]
    toms748_solve := ref_toms748
    solve_C := gauss
    solve_A := fun n M b i => some (gauss n M b i) }

/-- The module state left by `init` under the default configuration. -/
def mod_ref : Module :=
  { nLayer := 5, susp_depth := 5, v_edge_height := 1, l__max := 40, settling_velocity := -1 / 2,
    snow_diffusion_const := 5 / 1000, do_vertical_advection := true }

/-- A variable store holding the five drivers, every output still zero. -/
def vars_of (vw_dir u2 : ℚ) (swe : Option ℚ) (t rh : ℚ) : Vars :=
  { vw_dir := vw_dir, U_2m_above_srf := u2, swe := swe, t := t, rh := rh, u10 := 0,
    is_drifting := 0, c := fun _ => 0, K := fun _ => 0, Qsusp_pbsm := 0, hs := 0, ustar := 0,
    csalt := 0, u_th := 0, drift_mass := 0, drift_mass_no_subl := 0, Qsusp := 0, Qsubl := 0,
    Qsalt := 0, sum_drift := 0 }

/-- A three-slot array. -/
def arr3 {α : Type} (a b c : α) : Nat → α := fun j => if j = 0 then a else if j = 1 then b else c

/-- Lower-left half of the rectangle `[0,300] × [0,400]`: vertices `(0,0), (300,0), (0,400)`;
its hypotenuse (edge 1) is shared with face 1.  The factor `s = ±1` scales the edge normals
(`s = 1`: outward). -/
def tri0 (s : ℚ) : Face :=
  { cell_id := 0, area := 60000, elev := 0, center := (100, 400 / 3),
    edge_length := arr3 300 500 400,
    edge_unit_normal := arr3 (0, -1 * s) (4 / 5 * s, 3 / 5 * s) (-1 * s, 0),
    neighbor := arr3 none (some 1) none }

/-- Upper-right half of the rectangle: vertices `(300,0), (300,400), (0,400)`; its hypotenuse
(edge 0) is shared with face 0. -/
def tri1 (s : ℚ) : Face :=
  { cell_id := 1, area := 60000, elev := 0, center := (200, 800 / 3),
    edge_length := arr3 500 400 300,
    edge_unit_normal := arr3 (-4 / 5 * s, -3 / 5 * s) (1 * s, 0) (0, 1 * s),
    neighbor := arr3 (some 0) none none }

/-- The two-triangle domain: wind 10 m/s from bearing 53.13 degrees (blowing from face 1 to
face 0), -10 degrees C, 70 % humidity; face 0 is bare (`swe = 0`), face 1 holds 100 kg/m^2. -/
def domain_two (s : ℚ) : List (Face × Vars) :=
  [(tri0 s, vars_of (5313 / 100) 10 (some 0) (-10) 70),
   (tri1 s, vars_of (5313 / 100) 10 (some 100) (-10) 70)]

/-- Face 0 of the two-triangle mesh after `init`: the bare face. -/
def bare_face (s : ℚ) : MFace := init_face 1 (tri0 s) (vars_of (5313 / 100) 10 (some 0) (-10) 70)

/-- Face 1 of the two-triangle mesh after `init`: the snow-covered face. -/
def snow_face (s : ℚ) : MFace :=
  init_face 1 (tri1 s) (vars_of (5313 / 100) 10 (some 100) (-10) 70)

/-- The two-triangle mesh after `init`. -/
def mesh_two (s : ℚ) : Mesh := [bare_face s, snow_face s]

/-- The same two triangles in a calm: wind 2 m/s, snow on both faces. -/
def mesh_calm : Mesh :=
  [init_face 1 (tri0 1) (vars_of (5313 / 100) 2 (some 50) (-10) 70),
   init_face 1 (tri1 1) (vars_of (5313 / 100) 2 (some 100) (-10) 70)]

/-- The equilateral triangle of edge 100 m and area 4330.127 m^2; the normals are the double
precision values of `(0,-1)`, `(sqrt 3 / 2, 1/2)`, `(-sqrt 3 / 2, 1/2)`. -/
def tri_eq : Face :=
  { cell_id := 0, area := 4330127 / 1000, elev := 0, center := (50, 2886751 / 100000),
    edge_length := arr3 100 100 100,
    edge_unit_normal := arr3 (0, -1) (8660254037844386 / 10000000000000000, 1 / 2)
      (-8660254037844386 / 10000000000000000, 1 / 2),
    neighbor := arr3 none none none }

/-- The equilateral face after `init`, with wind speed `u2` from the north and snow `swe`. -/
def eq_face (u2 : ℚ) (swe : Option ℚ) : MFace := init_face 1 tri_eq (vars_of 0 u2 swe (-10) 70)

/-- The single-triangle mesh after `init`. -/
def mesh_eq (u2 : ℚ) (swe : Option ℚ) : Mesh := [eq_face u2 swe]

/-- A face record whose three edge normals all point downwind, so that its edges do not close
up: on it the limiter test `salt > swe` succeeds (wind 10 m/s, `swe = 1`). -/
def skew_face : MFace :=
  init_face 1 { tri1 1 with edge_unit_normal := fun _ => (-4 / 5, -3 / 5) }
    (vars_of (5313 / 100) 10 (some 1) (-10) 70)

/-- The lateral flux sum `sum_e edge_length_e * (uvw . m_e)` of a face. -/
def edge_flux_sum (ext : Ext) (f : MFace) : ℚ :=
  f.face.edge_length 0 * dot (wind_vector ext f.vars.vw_dir) (f.d.m 0)
    + f.face.edge_length 1 * dot (wind_vector ext f.vars.vw_dir) (f.d.m 1)
    + f.face.edge_length 2 * dot (wind_vector ext f.vars.vw_dir) (f.d.m 2)

/-- The unlimited saltation flux `Qsalt = c_salt * uhs * hs` of a face, source line 267. -/
def Qsalt_unlimited (ext : Ext) (f : MFace) : ℚ :=
  let ustar := ustar_of ext f.vars.U_2m_above_srf
  c_salt_unlimited ustar (u_star_saltation ext)
    * uhs_of ext f.vars.U_2m_above_srf (hs_of ext ustar) (z0_of ustar) * hs_of ext ustar

/-- The limiter test `salt > swe` of a face, source line 287. -/
def limiter_taken (ext : Ext) (dt : ℚ) (f : MFace) : Prop :=
  salt_of f.face f.d.m (wind_vector ext f.vars.vw_dir) (Qsalt_unlimited ext f) dt > swe_of f.vars

/-- The face is drifting: `ustar > u_star_saltation && swe > 0`, source line 244. -/
def drifting (ext : Ext) (f : MFace) : Prop :=
  ustar_of ext f.vars.U_2m_above_srf > u_star_saltation ext ∧ swe_of f.vars > 0

/-- The five driver variables another module writes into a face before a timestep. -/
structure Drivers where
  vw_dir : ℚ
  U_2m_above_srf : ℚ
  swe : Option ℚ
  t : ℚ
  rh : ℚ

/-- The refresh of one face's drivers. -/
def set_drivers_face (dr : Drivers) (f : MFace) : MFace :=
  { f with vars := { f.vars with vw_dir := dr.vw_dir, U_2m_above_srf := dr.U_2m_above_srf,
                                 swe := dr.swe, t := dr.t, rh := dr.rh } }

/-- The refresh of the drivers of the faces `fs`, the first of which has index `i`: face `k`
receives `drv k`; no other variable changes. -/
def set_drivers (drv : Nat → Drivers) : List MFace → Nat → List MFace
  | [], _ => []
  | f :: fs, i => set_drivers_face (drv i) f :: set_drivers drv fs (i + 1)

/-- A sequence of timesteps, each given by its length `dt` and the drivers refreshed before
it: the meshes after each `run`, or `none` when a run fails. -/
def run_seq (ext : Ext) (mod : Module) : List (ℚ × (Nat → Drivers)) → Mesh → Option (List Mesh)
  | [], _ => some []
  | step :: rest, mesh =>
    match run ext mod step.1 (set_drivers step.2 mesh 0) with
    | none => none
    | some m1 =>
      match run_seq ext mod rest m1 with
      | none => none
      | some ms => some (m1 :: ms)

/-- The value of `sum_drift` on face `i` of a mesh (`0` when there is no face `i`). -/
def sum_drift_at (m : Mesh) (i : Nat) : ℚ := ((m[i]?).map (fun f => f.vars.sum_drift)).getD 0

/-- The value of `drift_mass` on face `i` of a mesh (`0` when there is no face `i`). -/
def drift_mass_at (m : Mesh) (i : Nat) : ℚ := ((m[i]?).map (fun f => f.vars.drift_mass)).getD 0

/-- The vector `x` solves the system `M x = b` of dimension `n` exactly. -/
def is_solution (n : Nat) (M : SpMat) (b : Vec) (x : Vec) : Prop :=
  ∀ i, i < n → ∑ j in Finset.range n, (M i j).getD 0 * x j = b i

/-- The default configuration: no key configured. -/
def cfg_default : Config :=
  { settling_velocity := none, snow_diffusion_const := none, vertical_advection := none }

/-- The drivers of the two-triangle scenario. -/
def drivers_two : Nat → Drivers := fun k =>
  if k = 0 then { vw_dir := 5313 / 100, U_2m_above_srf := 10, swe := some 0, t := -10, rh := 70 }
  else { vw_dir := 5313 / 100, U_2m_above_srf := 10, swe := some 100, t := -10, rh := 70 }

/-- The two-triangle mesh after its first timestep of one hour (empty if the run failed). -/
def mesh_two_run : Mesh :=
  (run ext_ref mod_ref 3600 (set_drivers drivers_two (mesh_two 1) 0)).getD []

/-- The negation of a vector. -/
def Vec3.neg (a : Vec3) : Vec3 := ⟨-a.x, -a.y, -a.z⟩

/-- The face with each of its three lateral edge normals replaced by its negation. -/
def negate_normals (face : Face) : Face :=
  { face with
    edge_unit_normal := fun j => (-(face.edge_unit_normal j).1, -(face.edge_unit_normal j).2) }

/-- The mesh face of `negate_normals`: the cached normals `m[0..2]` are negated too. -/
def negate_mface (f : MFace) : MFace :=
  { face := negate_normals f.face
    vars := f.vars
    d := { f.d with m := fun j => if j < 3 then (f.d.m j).neg else f.d.m j } }

/-- The edges of a face close up: `sum_e edge_length_e * n_e = 0`, as for every triangle. -/
def closes_up (face : Face) : Prop :=
  face.edge_length 0 * (face.edge_unit_normal 0).1 + face.edge_length 1 * (face.edge_unit_normal 1).1
      + face.edge_length 2 * (face.edge_unit_normal 2).1 = 0 ∧
  face.edge_length 0 * (face.edge_unit_normal 0).2 + face.edge_length 1 * (face.edge_unit_normal 1).2
      + face.edge_length 2 * (face.edge_unit_normal 2).2 = 0

/-- The face has no neighbour across any of its three edges. -/
def isolated (face : Face) : Prop :=
  face.neighbor 0 = none ∧ face.neighbor 1 = none ∧ face.neighbor 2 = none

/-- What the symmetry proof needs of a mesh face: no neighbour flags, flat lateral normals, and
edge lengths as well as side areas that close up against the cached normals. -/
def neg_ok (f : MFace) : Prop :=
  (f.d.face_neigh 0 = false ∧ f.d.face_neigh 1 = false ∧ f.d.face_neigh 2 = false) ∧
  ((f.d.m 0).z = 0 ∧ (f.d.m 1).z = 0 ∧ (f.d.m 2).z = 0) ∧
  (f.face.edge_length 0 * (f.d.m 0).x + f.face.edge_length 1 * (f.d.m 1).x
      + f.face.edge_length 2 * (f.d.m 2).x = 0 ∧
   f.face.edge_length 0 * (f.d.m 0).y + f.face.edge_length 1 * (f.d.m 1).y
      + f.face.edge_length 2 * (f.d.m 2).y = 0) ∧
  (f.d.A 0 * (f.d.m 0).x + f.d.A 1 * (f.d.m 1).x + f.d.A 2 * (f.d.m 2).x = 0 ∧
   f.d.A 0 * (f.d.m 0).y + f.d.A 1 * (f.d.m 1).y + f.d.A 2 * (f.d.m 2).y = 0)

/-- What one pass of the lateral loop adds to the diagonal when the edge has no neighbour and
no lateral diffusion. -/
def lateral_gain (d : Data) (udotm : Nat → ℚ) (j : Nat) : ℚ :=
  if udotm j > 0 then -d.A j * udotm j else 0

/-- The lateral reflection of a vector: the two horizontal components are negated. -/
def Vec3.flip (a : Vec3) : Vec3 := ⟨-a.x, -a.y, a.z⟩

/-- A variable store with the wind bearing turned by 180 degrees. -/
def reverse_vars (v : Vars) : Vars := { v with vw_dir := v.vw_dir + 180 }

/-- The mesh face with every lateral edge normal negated and the wind bearing turned by 180
degrees. -/
def reverse_mface (f : MFace) : MFace :=
  { face := negate_normals f.face
    vars := reverse_vars f.vars
    d := { f.d with m := fun j => if j < 3 then (f.d.m j).neg else f.d.m j } }

/-- What the reversal symmetry needs of a mesh face: the library's bearing conversion negates
when the face's bearing is turned by 180 degrees, the lateral normals are horizontal and the
top and bottom normals vertical. -/
def rev_ok (ext : Ext) (f : MFace) : Prop :=
  ext.bearing_to_cartesian (f.vars.vw_dir + 180)
      = (-(ext.bearing_to_cartesian f.vars.vw_dir).1, -(ext.bearing_to_cartesian f.vars.vw_dir).2) ∧
  ((f.d.m 0).z = 0 ∧ (f.d.m 1).z = 0 ∧ (f.d.m 2).z = 0) ∧
  ((f.d.m 3).x = 0 ∧ (f.d.m 3).y = 0 ∧ (f.d.m 4).x = 0 ∧ (f.d.m 4).y = 0)

/-- The layer-loop state of the reversed face. -/
def LayerSt.rev (st : LayerSt) : LayerSt :=
  { uvw := st.uvw.flip, C := st.C, b := st.b, vars := reverse_vars st.vars }

/-- The accumulators of the second loop for the reversed face. -/
def PostSt.rev (st : PostSt) : PostSt := { st with vars := reverse_vars st.vars }

/-- Every key present in the row is below `N`. -/
def SpRow.below (r : SpRow) (N : Nat) : Prop := ∀ j, r j ≠ none → j < N

/-- Every key present in the matrix lies in a row below `N` and is itself below `N`. -/
def SpMat.below (C : SpMat) (N : Nat) : Prop := ∀ r j, C r j ≠ none → r < N ∧ j < N

/-- The array `alpha[5]` of a layer pass: slots `0, 1, 2` (the lateral faces) hold `0`, slots
`3` and `4` the values `a3`, `a4` written at that layer (source lines 190, 335, 337). -/
def alpha_arr (a3 a4 : ℚ) : Nat → ℚ := arrSet (arrSet (fun _ => 0) 3 a3) 4 a4

/-- The wind vector `uvw` with which the layer-`z` pass of the first face loop forms `udotm`:
the vector held by the state of the layer loop of `run_face1` after `z + 1` passes. -/
def layer_uvw (ext : Ext) (mod : Module) (dt : ℚ) (ntri : Nat) (mesh : Mesh) (f : MFace)
    (z : Nat) : Vec3 :=
  (layer_loop
    (layer_body ext mod ntri mesh f.face (data1 ext f) f.vars.U_2m_above_srf
      (ustar_of ext f.vars.U_2m_above_srf) (face_salt ext dt f).c_salt) (z + 1) 0
    { uvw := wind_vector ext f.vars.vw_dir, C := fun _ => SpRow.empty, b := fun _ => 0,
      vars := salt_vars ext dt f }).uvw

/-- The layer wind speed `u_z` of layer `z` of a face. -/
def face_u_z (ext : Ext) (mod : Module) (f : MFace) (z : Nat) : ℚ :=
  u_z_of ext f.vars.U_2m_above_srf (cz_of mod (data1 ext f).hs z) (data1 ext f).z0

/-- The vertical terms of the upwind assembly with every advective product `A_3*(u.m_3)`,
`A_4*(u.m_4)` multiplied by `keep`: the branches are those of `vertical_advective`, chosen by
the sign of `udotm`.  With `keep = 1` it is the advective assembly, with `keep = 0` the
advective assembly after deleting those terms. -/
def vertical_upwind (keep : ℚ) (mod : Module) (d : Data) (ntri z cell_id : Nat)
    (K alpha udotm : Nat → ℚ) (c_salt : ℚ) (row : SpRow) (b : Vec) : SpRow × Vec :=
  let idx := ntri * z + cell_id
  let up := ntri * (z + 1) + cell_id
  let down := ntri * (z - 1) + cell_id
  let adv3 := keep * (d.A 3 * udotm 3)
  let adv4 := keep * (d.A 4 * udotm 4)
  if z = 0 then
    let row := row.add idx (-d.A 4 * K 4)
    let b := b.set idx (-d.A 4 * K 4 * c_salt)
    if udotm 3 > 0 then
      ((row.add idx (-adv3 - alpha 3)).add up (alpha 3), b)
    else
      ((row.add idx (-alpha 3)).add up (-adv3 + alpha 3), b)
  else if z = mod.nLayer - 1 then
    let row :=
      if udotm 3 > 0 then row.add idx (-adv3 - alpha 3)
      else row.add idx (-alpha 3)
    if udotm 4 > 0 then
      ((row.add idx (-adv4 - alpha 4)).add down (alpha 4), b)
    else
      ((row.add idx (-alpha 4)).add down (-adv4 + alpha 4), b)
  else
    let row :=
      if udotm 3 > 0 then (row.add idx (-adv3 - alpha 3)).add up (alpha 3)
      else (row.add idx (-alpha 3)).add up (-adv3 + alpha 3)
    if udotm 4 > 0 then
      ((row.add idx (-adv4 - alpha 4)).add down (alpha 4), b)
    else
      ((row.add idx (-alpha 4)).add down (-adv4 + alpha 4), b)

/-- The layer pass of the upwind assembly with the vertical advective products multiplied by
`keep`: `layer_body` with `vertical_upwind keep` for its vertical terms. -/
def layer_body_up (keep : ℚ) (ext : Ext) (mod : Module) (ntri : Nat) (mesh : Mesh) (face : Face)
    (d : Data) (u2 ustar c_salt : ℚ) (z : Nat) (st : LayerSt) : LayerSt :=
  let cz := cz_of mod d.hs z
  let K34 := K_of ext mod ustar d.z0 cz
  let K : Nat → ℚ := arrSet (arrSet (fun _ => 0) 3 K34) 4 K34
  let vars := { st.vars with K := arrSet st.vars.K z (K 3) }
  let alpha : Nat → ℚ :=
    arrSet (arrSet (fun _ => 0) 3 (d.A 3 * K 3 / mod.v_edge_height)) 4
      (d.A 4 * K 4 / mod.v_edge_height)
  let u_z := u_z_of ext u2 cz d.z0
  let uvw := layer_wind ext mod u_z st.uvw
  let udotm : Nat → ℚ := fun j => dot uvw (d.m j)
  let idx := ntri * z + face.cell_id
  let row := (st.C idx).init0 idx
  let row := [0, 1, 2].foldl (lateral_step mesh face d ntri z idx alpha udotm) row
  let row := if z ≠ mod.nLayer - 1 then row.init0 (ntri * (z + 1) + face.cell_id) else row
  let row := if z ≠ 0 then row.init0 (ntri * (z - 1) + face.cell_id) else row
  let rb := vertical_upwind keep mod d ntri z face.cell_id K alpha udotm c_salt row st.b
  { uvw := uvw, C := st.C.setRow idx rb.1, b := rb.2, vars := vars }

/-- The first loop body with `layer_body_up keep` for its layer pass. -/
def run_face1_up (keep : ℚ) (ext : Ext) (mod : Module) (dt : ℚ) (ntri : Nat) (mesh : Mesh)
    (f : MFace) (C : SpMat) (b : Vec) : MFace × SpMat × Vec :=
  let u2 := f.vars.U_2m_above_srf
  let ustar := ustar_of ext u2
  let d := data1 ext f
  let s := face_salt ext dt f
  let st0 : LayerSt :=
    { uvw := wind_vector ext f.vars.vw_dir, C := C, b := b, vars := salt_vars ext dt f }
  let st := layer_loop (layer_body_up keep ext mod ntri mesh f.face d u2 ustar s.c_salt)
    mod.nLayer 0 st0
  ({ face := f.face, vars := st.vars, d := d }, st.C, st.b)

/-- The first face loop with `run_face1_up keep` for its body. -/
def loop1_up (keep : ℚ) (ext : Ext) (mod : Module) (dt : ℚ) (ntri : Nat) (mesh : Mesh) :
    List MFace → SpMat → Vec → List MFace × SpMat × Vec
  | [], C, b => ([], C, b)
  | f :: fs, C, b =>
    let r := run_face1_up keep ext mod dt ntri mesh f C b
    let rest := loop1_up keep ext mod dt ntri mesh fs r.2.1 r.2.2
    (r.1 :: rest.1, rest.2.1, rest.2.2)

/-- The suspension system of the upwind assembly with the vertical advective products
multiplied by `keep`. -/
def stage1_up (keep : ℚ) (ext : Ext) (mod : Module) (dt : ℚ) (mesh : Mesh) :
    List MFace × SpMat × Vec :=
  loop1_up keep ext mod dt mesh.length mesh mesh (fun _ => SpRow.empty) (fun _ => 0)

/-- The module state with the option `vertical_advection` set to `v`. -/
def with_advection (mod : Module) (v : Bool) : Module := { mod with do_vertical_advection := v }

/-- The edge pass `div_step` with the constant `eps` replaced by the argument `e`. -/
def div_step_e (e : ℚ) (ext : Ext) (mesh : Mesh) (f : MFace) (i : Nat) (udotm : Nat → ℚ)
    (acc : SpRow × ℚ) (j : Nat) : SpRow × ℚ :=
  let row := acc.1
  let bbi := acc.2
  let E := f.face.edge_length j
  if f.d.face_neigh j then
    let nQsalt := ((neighbor_face mesh f.face j).map (fun nb => nb.vars.Qsalt)).getD 0
    let nQsusp := ((neighbor_face mesh f.face j).map (fun nb => nb.vars.Qsusp)).getD 0
    let ncenter := ((neighbor_face mesh f.face j).map (fun nb => nb.face.center)).getD (0, 0)
    let ncell := neighbor_cell_id mesh f.face j
    let qs := (nQsalt + f.vars.Qsalt) / 2
    let qt := (nQsusp + f.vars.Qsusp) / 2
    let Qt := qs + qt
    let dx := ext.distance f.face.center ncenter
    let row := row.init0 ncell
    let row := row.add i (e / (dx * f.face.area) - 1)
    let row := row.add ncell (-e / (dx * f.face.area))
    (row, bbi + E * Qt * udotm j / f.face.area)
  else
    let qs := (0 + f.vars.Qsalt) / 2
    let qt := (0 + f.vars.Qsusp) / 2
    let Qt := qs + qt
    let dx : ℚ := 1
    let row := row.add i (e / (dx * f.face.area) - 1)
    (row, bbi + E * Qt * udotm j / f.face.area)

/-- The third loop body with `div_step_e e` for its edge pass. -/
def run_face3_e (e : ℚ) (ext : Ext) (mesh : Mesh) (f : MFace) (i : Nat) (A : SpMat) (bb : Vec) :
    SpMat × Vec :=
  let uvw := wind_vector ext f.vars.vw_dir
  let udotm : Nat → ℚ := fun j => dot uvw (f.d.m j)
  let row := (A i).init0 i
  let r := [0, 1, 2].foldl (div_step_e e ext mesh f i udotm) (row, bb i)
  (A.setRow i r.1, bb.set i r.2)

/-- The third face loop with `run_face3_e e` for its body. -/
def loop3_e (e : ℚ) (ext : Ext) (mesh : Mesh) : List MFace → Nat → SpMat → Vec → SpMat × Vec
  | [], _, A, bb => (A, bb)
  | f :: fs, i, A, bb =>
    let r := run_face3_e e ext mesh f i A bb
    loop3_e e ext mesh fs (i + 1) r.1 r.2

/-- The divergence system assembled with the constant `eps` replaced by `e`. -/
def stage3_e (e : ℚ) (ext : Ext) (mesh : Mesh) : SpMat × Vec :=
  loop3_e e ext mesh mesh 0 (fun _ => SpRow.empty) (fun _ => 0)

/-- The centre distance `dx[j]` of edge `j`: the distance to the neighbour's centre, `1` when
the neighbour is missing. -/
def dx_of (ext : Ext) (mesh : Mesh) (f : MFace) (j : Nat) : ℚ :=
  if f.d.face_neigh j then
    ext.distance f.face.center
      (((neighbor_face mesh f.face j).map (fun nb => nb.face.center)).getD (0, 0))
  else 1

/-- The regularisation term `e/(dx[j]*area)` of edge `j`. -/
def reg_term (e : ℚ) (ext : Ext) (mesh : Mesh) (f : MFace) (j : Nat) : ℚ :=
  e / (dx_of ext mesh f j * f.face.area)

/-- Edge `j` of the face has a neighbour and its cell id is `k`. -/
def edge_to (mesh : Mesh) (f : MFace) (k j : Nat) : Bool :=
  f.d.face_neigh j && decide (neighbor_cell_id mesh f.face j = k)

/-- What the pass of edge `j` adds to the entry `A[i][k]`: `e/(dx*area) - 1` on the diagonal,
`-e/(dx*area)` in the neighbour's column. -/
def div_gain (e : ℚ) (ext : Ext) (mesh : Mesh) (f : MFace) (i k j : Nat) : ℚ :=
  (if k = i then reg_term e ext mesh f j - 1 else 0)
    + (if edge_to mesh f k j then -reg_term e ext mesh f j else 0)

/-- The row `A[i]` as the pass of face `f` at index `i` leaves it when it starts from the
empty row: the entry in column `k`. -/
def div_row (e : ℚ) (ext : Ext) (mesh : Mesh) (f : MFace) (i k : Nat) : Option ℚ :=
  if k = i ∨ edge_to mesh f k 0 = true ∨ edge_to mesh f k 1 = true ∨ edge_to mesh f k 2 = true
  then some (div_gain e ext mesh f i k 0 + div_gain e ext mesh f i k 1
    + div_gain e ext mesh f i k 2)
  else none

/-- The mean saltation-layer wind speed `uhs` of a face. -/
def face_uhs (ext : Ext) (f : MFace) : ℚ :=
  uhs_of ext f.vars.U_2m_above_srf (hs_of ext (ustar_of ext f.vars.U_2m_above_srf))
    (z0_of (ustar_of ext f.vars.U_2m_above_srf))

/-- The limiter denominator `dt*hs*uhs*(el0*udotm[0]+el1*udotm[1]+el2*udotm[2])` of a face. -/
def face_limiter_den (ext : Ext) (dt : ℚ) (f : MFace) : ℚ :=
  limiter_den f.face f.d.m (wind_vector ext f.vars.vw_dir) dt
    (hs_of ext (ustar_of ext f.vars.U_2m_above_srf)) (face_uhs ext f)

/-- The cached lateral normals of the face are its edge unit normals with zero third
component, as `init` stores them. -/
def normals_cached (f : MFace) : Prop :=
  ∀ j, j < 3 → f.d.m j = ⟨(f.face.edge_unit_normal j).1, (f.face.edge_unit_normal j).2, 0⟩

/-! # Lemmas and theorems -/

/-! ## `init` -/

theorem init_error_iff (cfg : Config) (domain : List (Face × Vars)) :
    (∃ e, init cfg domain = Except.error e) ↔ cfg.settling_velocity.getD (-1 / 2) > 0 := by
  unfold init
  by_cases h : cfg.settling_velocity.getD (-1 / 2) > 0
  · simp [h]
  · simp [h]

theorem salt_of_eq (face : Face) (m : Nat → Vec3) (uvw : Vec3) (Q dt : ℚ) :
    salt_of face m uvw Q dt =
      Q * dt * (face.edge_length 0 * dot uvw (m 0) + face.edge_length 1 * dot uvw (m 1)
        + face.edge_length 2 * dot uvw (m 2)) / face.area := by
  simp only [salt_of, List.foldl_cons, List.foldl_nil]
  ring

theorem saltation_mass_bound (ext : Ext) (dt : ℚ) (face : Face) (m : Nat → Vec3) (uvw : Vec3)
    (u2 u10 ustar hs z0 uss swe : ℚ)
    (hdr : ustar > uss) (hswe : swe > 0) :
    let S := face.edge_length 0 * dot uvw (m 0) + face.edge_length 1 * dot uvw (m 1)
        + face.edge_length 2 * dot uvw (m 2)
    let Q := (saltation ext dt face m uvw u2 u10 ustar hs z0 uss swe).Qsalt
    Q * dt * S / face.area ≤ swe ∧
    (salt_of face m uvw (c_salt_unlimited ustar uss * uhs_of ext u2 hs z0 * hs) dt > swe →
      Q * dt * S / face.area = swe) := by
  intro S Q
  have hQ : Q = (saltation ext dt face m uvw u2 u10 ustar hs z0 uss swe).Qsalt := rfl
  unfold saltation at hQ
  simp only [hdr, hswe, and_self, if_true] at hQ
  by_cases hl : salt_of face m uvw (c_salt_unlimited ustar uss * uhs_of ext u2 hs z0 * hs) dt > swe
  · rw [if_pos hl] at hQ
    have hpos : 0 < salt_of face m uvw (c_salt_unlimited ustar uss * uhs_of ext u2 hs z0 * hs) dt :=
      lt_trans hswe hl
    rw [salt_of_eq] at hpos
    have hne : (c_salt_unlimited ustar uss * uhs_of ext u2 hs z0 * hs) * dt * S / face.area ≠ 0 :=
      ne_of_gt hpos
    have harea : face.area ≠ 0 := by
      intro h; apply hne; rw [h]; simp
    have hnum : (c_salt_unlimited ustar uss * uhs_of ext u2 hs z0 * hs) * dt * S ≠ 0 := by
      intro h; apply hne; rw [h]; simp
    have hS : S ≠ 0 := right_ne_zero_of_mul hnum
    have h1 := left_ne_zero_of_mul hnum
    have hdt : dt ≠ 0 := right_ne_zero_of_mul h1
    have h2 := left_ne_zero_of_mul h1
    have hhs : hs ≠ 0 := right_ne_zero_of_mul h2
    have h3 := left_ne_zero_of_mul h2
    have huhs : uhs_of ext u2 hs z0 ≠ 0 := right_ne_zero_of_mul h3
    have hden : limiter_den face m uvw dt hs (uhs_of ext u2 hs z0) ≠ 0 := by
      unfold limiter_den
      exact mul_ne_zero (mul_ne_zero (mul_ne_zero hdt hhs) huhs) hS
    have hno : ¬ (swe * face.area = 0 ∧ limiter_den face m uvw dt hs (uhs_of ext u2 hs z0) = 0) :=
      fun h => hden h.2
    rw [if_neg hno] at hQ
    simp only at hQ
    have key : Q * dt * S / face.area = swe := by
      rw [hQ]
      unfold limiter_den
      field_simp
      ring
    exact ⟨le_of_eq key, fun _ => key⟩
  · rw [if_neg hl] at hQ
    simp only at hQ
    rw [salt_of_eq] at hl
    rw [hQ]
    exact ⟨not_lt.mp hl, fun h => absurd (by rw [salt_of_eq] at h; exact h) hl⟩

/-! ## The first face loop -/

theorem vertical_advective_b (mod : Module) (d : Data) (ntri z cell_id : Nat)
    (K alpha udotm : Nat → ℚ) (c_salt : ℚ) (row : SpRow) (b : Vec) :
    (vertical_advective mod d ntri z cell_id K alpha udotm c_salt row b).2 =
      if z = 0 then b.set (ntri * z + cell_id) (-d.A 4 * K 4 * c_salt) else b := by
  unfold vertical_advective
  split_ifs <;> simp

theorem vertical_diffusive_b (mod : Module) (d : Data) (ntri z cell_id : Nat)
    (K alpha : Nat → ℚ) (c_salt : ℚ) (row : SpRow) (b : Vec) :
    (vertical_diffusive mod d ntri z cell_id K alpha c_salt row b).2 =
      if z = 0 then b.set (ntri * z + cell_id) (-d.A 4 * K 4 * c_salt) else b := by
  unfold vertical_diffusive
  split_ifs <;> simp

theorem vertical_b (mod : Module) (d : Data) (ntri z cell_id : Nat)
    (K alpha udotm : Nat → ℚ) (c_salt : ℚ) (row : SpRow) (b : Vec) :
    (if mod.do_vertical_advection then
        vertical_advective mod d ntri z cell_id K alpha udotm c_salt row b
      else vertical_diffusive mod d ntri z cell_id K alpha c_salt row b).2 =
      if z = 0 then b.set (ntri * z + cell_id) (-d.A 4 * K 4 * c_salt) else b := by
  cases mod.do_vertical_advection
  · simp only [Bool.false_eq_true, if_false, vertical_diffusive_b]
  · simp only [if_true, vertical_advective_b]

theorem layer_body_b (ext : Ext) (mod : Module) (ntri : Nat) (mesh : Mesh) (face : Face)
    (d : Data) (u2 ustar c_salt : ℚ) (z : Nat) (st : LayerSt) :
    (layer_body ext mod ntri mesh face d u2 ustar c_salt z st).b =
      if z = 0 then st.b.set face.cell_id (b_entry ext mod d ustar c_salt) else st.b := by
  simp only [layer_body, vertical_b]
  by_cases hz : z = 0
  · subst hz
    simp [b_entry, arrSet]
  · simp only [hz, if_false]

theorem layer_body_vars (ext : Ext) (mod : Module) (ntri : Nat) (mesh : Mesh) (face : Face)
    (d : Data) (u2 ustar c_salt : ℚ) (z : Nat) (st : LayerSt) :
    (layer_body ext mod ntri mesh face d u2 ustar c_salt z st).vars =
      { st.vars with K := arrSet st.vars.K z (K_of ext mod ustar d.z0 (cz_of mod d.hs z)) } := by
  unfold layer_body
  simp [arrSet]

theorem layer_loop_b_pos (body : Nat → LayerSt → LayerSt)
    (hb : ∀ z st, 0 < z → (body z st).b = st.b) :
    ∀ n z st, 0 < z → (layer_loop body n z st).b = st.b := by
  intro n
  induction n with
  | zero => intro z st _; rfl
  | succ n ih =>
    intro z st hz
    simp only [layer_loop]
    rw [ih (z + 1) (body z st) (Nat.succ_pos z), hb z st hz]



theorem layer_loop_b (ext : Ext) (mod : Module) (ntri : Nat) (mesh : Mesh) (face : Face)
    (d : Data) (u2 ustar c_salt : ℚ) (n : Nat) (st : LayerSt) :
    (layer_loop (layer_body ext mod ntri mesh face d u2 ustar c_salt) n 0 st).b =
      if 0 < n then st.b.set face.cell_id (b_entry ext mod d ustar c_salt) else st.b := by
  cases n with
  | zero => rfl
  | succ n =>
    simp only [layer_loop, Nat.succ_pos, if_true]
    rw [layer_loop_b_pos _ (fun z st hz => by rw [layer_body_b]; simp [Nat.pos_iff_ne_zero.mp hz])
      n 1 _ Nat.one_pos, layer_body_b]
    simp

theorem layer_loop_vars (ext : Ext) (mod : Module) (ntri : Nat) (mesh : Mesh) (face : Face)
    (d : Data) (u2 ustar c_salt : ℚ) :
    ∀ n z st, (layer_loop (layer_body ext mod ntri mesh face d u2 ustar c_salt) n z st).vars =
      layer_vars ext mod d ustar n z st.vars := by
  intro n
  induction n with
  | zero => intro z st; rfl
  | succ n ih =>
    intro z st
    simp only [layer_loop, layer_vars]
    rw [ih, layer_body_vars]

theorem layer_vars_fields (ext : Ext) (mod : Module) (d : Data) (ustar : ℚ) :
    ∀ n z v, ∃ K1, layer_vars ext mod d ustar n z v = { v with K := K1 } := by
  intro n
  induction n with
  | zero => intro z v; exact ⟨v.K, rfl⟩
  | succ n ih =>
    intro z v
    obtain ⟨K1, h⟩ := ih (z + 1) { v with K := arrSet v.K z (K_of ext mod ustar d.z0 (cz_of mod d.hs z)) }
    exact ⟨K1, by simp only [layer_vars]; rw [h]⟩

theorem run_face1_out (ext : Ext) (mod : Module) (dt : ℚ) (ntri : Nat) (mesh : Mesh) (f : MFace)
    (C : SpMat) (b : Vec) :
    (run_face1 ext mod dt ntri mesh f C b).1 = face1_out ext mod dt f := by
  simp only [run_face1, face1_out, layer_loop_vars]

theorem run_face1_b (ext : Ext) (mod : Module) (dt : ℚ) (ntri : Nat) (mesh : Mesh) (f : MFace)
    (C : SpMat) (b : Vec) (k : Nat) :
    (run_face1 ext mod dt ntri mesh f C b).2.2 k =
      if 0 < mod.nLayer ∧ k = f.face.cell_id then
        b_entry ext mod (data1 ext f) (ustar_of ext f.vars.U_2m_above_srf) (face_salt ext dt f).c_salt
      else b k := by
  simp only [run_face1, layer_loop_b]
  by_cases hn : 0 < mod.nLayer
  · by_cases hk : k = f.face.cell_id
    · simp [hn, hk, Vec.set]
    · simp [hn, hk, Vec.set]
  · simp [hn]

theorem loop1_out (ext : Ext) (mod : Module) (dt : ℚ) (ntri : Nat) (mesh : Mesh) :
    ∀ (fs : List MFace) (C : SpMat) (b : Vec),
      (loop1 ext mod dt ntri mesh fs C b).1 = fs.map (face1_out ext mod dt) := by
  intro fs
  induction fs with
  | nil => intro C b; rfl
  | cons f fs ih =>
    intro C b
    simp only [loop1, List.map_cons, ih, run_face1_out]

theorem loop1_b_other (ext : Ext) (mod : Module) (dt : ℚ) (ntri : Nat) (mesh : Mesh) (k : Nat) :
    ∀ (fs : List MFace) (C : SpMat) (b : Vec), (∀ g ∈ fs, g.face.cell_id ≠ k) →
      (loop1 ext mod dt ntri mesh fs C b).2.2 k = b k := by
  intro fs
  induction fs with
  | nil => intro C b _; rfl
  | cons f fs ih =>
    intro C b h
    simp only [loop1]
    rw [ih _ _ (fun g hg => h g (List.mem_cons_of_mem _ hg)), run_face1_b]
    have : k ≠ f.face.cell_id := fun e => h f (List.mem_cons_self _ _) e.symm
    simp [this]

theorem loop1_b_zero (ext : Ext) (mod : Module) (dt : ℚ) (ntri : Nat) (mesh : Mesh) :
    ∀ (fs : List MFace) (C : SpMat) (b : Vec),
      (∀ g ∈ fs, (face_salt ext dt g).c_salt = 0) → (∀ k, b k = 0) →
      ∀ k, (loop1 ext mod dt ntri mesh fs C b).2.2 k = 0 := by
  intro fs
  induction fs with
  | nil => intro C b _ hb k; exact hb k
  | cons f fs ih =>
    intro C b h hb k
    simp only [loop1]
    apply ih _ _ (fun g hg => h g (List.mem_cons_of_mem _ hg))
    intro j
    rw [run_face1_b]
    split_ifs
    · simp [b_entry, h f (List.mem_cons_self _ _)]
    · exact hb j

theorem loop1_b_at (ext : Ext) (mod : Module) (dt : ℚ) (ntri : Nat) (mesh : Mesh) :
    ∀ (fs : List MFace) (C : SpMat) (b : Vec),
      (fs.map (fun g => g.face.cell_id)).Nodup →
      ∀ f ∈ fs, (face_salt ext dt f).c_salt = 0 → b f.face.cell_id = 0 →
      (loop1 ext mod dt ntri mesh fs C b).2.2 f.face.cell_id = 0 := by
  intro fs
  induction fs with
  | nil => intro C b _ f hf; simp at hf
  | cons g fs ih =>
    intro C b hnd f hf hc hb
    simp only [List.map_cons, List.nodup_cons, List.mem_map, not_exists, not_and] at hnd
    simp only [loop1]
    rcases List.mem_cons.mp hf with rfl | hmem
    · rw [loop1_b_other _ _ _ _ _ _ _ _ _ (fun g hg => hnd.1 g hg), run_face1_b]
      split_ifs
      · simp [b_entry, hc]
      · exact hb
    · apply ih _ _ hnd.2 f hmem hc
      rw [run_face1_b]
      have : f.face.cell_id ≠ g.face.cell_id := fun e => hnd.1 f hmem e
      simp [this, hb]

/-! ## The second face loop -/

theorem clamp0_eq_max (c : ℚ) : clamp0 c = max c 0 := by
  unfold clamp0
  split_ifs with h
  · exact (max_eq_right (le_of_lt h)).symm
  · exact (max_eq_left (not_lt.mp h)).symm

theorem clamp0_nonneg (c : ℚ) : 0 ≤ clamp0 c := by
  rw [clamp0_eq_max]; exact le_max_right _ _

theorem u_z_of_pos (ext : Ext) (u2 cz z0 : ℚ) : 1 / 10 ≤ u_z_of ext u2 cz z0 :=
  le_max_left _ _

theorem post_loop_spec (ext : Ext) (mod : Module) (ntri : Nat) (face : Face) (d : Data) (x : Vec)
    (u2 t q P : ℚ) :
    ∀ n z st,
      (∀ j, z ≤ j → j < z + n → (csubl_of ext face t q P (cz_of mod d.hs j)
        (u_z_of ext u2 (cz_of mod d.hs j) d.z0)).isSome) →
      ∃ st1, post_loop (post_layer ext mod ntri face d x u2 t q P) n z st = some st1 ∧
      st1.Qsusp = st.Qsusp + ∑ k in Finset.range n, Qsusp_term ext mod ntri face d x u2 (z + k) ∧
      st1.Qsubl = st.Qsubl + ∑ k in Finset.range n, Qsubl_term ext mod ntri face d x u2 t q P (z + k) ∧
      ∃ c1, st1.vars = { st.vars with c := c1 } ∧
        ∀ j, c1 j = if z ≤ j ∧ j < z + n ∧ j < 15 then clamp0 (x (ntri * j + face.cell_id))
                    else st.vars.c j := by
  intro n
  induction n with
  | zero =>
    intro z st _
    refine ⟨st, rfl, by simp, by simp, st.vars.c, rfl, ?_⟩
    intro j
    have : ¬ (z ≤ j ∧ j < z + 0 ∧ j < 15) := by omega
    rw [if_neg this]
  | succ n ih =>
    intro z st hroot
    obtain ⟨v, hv⟩ := Option.isSome_iff_exists.mp (hroot z (le_refl z) (by omega))
    have hbody : post_layer ext mod ntri face d x u2 t q P z st = some
        { Qsusp := st.Qsusp + Qsusp_term ext mod ntri face d x u2 z,
          Qsubl := st.Qsubl + Qsubl_term ext mod ntri face d x u2 t q P z,
          vars := if z < 15 then { st.vars with c := arrSet st.vars.c z (clamp0 (x (ntri * z + face.cell_id))) }
                  else st.vars } := by
      simp only [post_layer, hv, Qsusp_term, Qsubl_term, Option.getD_some]
    obtain ⟨st1, h1, h2, h3, c1, h4, h5⟩ := ih (z + 1) _
      (fun j hj1 hj2 => hroot j (by omega) (by omega))
    refine ⟨st1, ?_, ?_, ?_, c1, ?_, ?_⟩
    · simp only [post_loop, hbody]; exact h1
    · rw [h2, Finset.sum_range_succ']
      simp only [add_zero]
      have : ∀ k, z + 1 + k = z + (k + 1) := fun k => by omega
      simp only [this]; ring
    · rw [h3, Finset.sum_range_succ']
      simp only [add_zero]
      have : ∀ k, z + 1 + k = z + (k + 1) := fun k => by omega
      simp only [this]; ring
    · rw [h4]; split_ifs <;> rfl
    · intro j
      rw [h5 j]
      by_cases hz : z < 15
      · simp only [hz, if_true, arrSet]
        by_cases hj : j = z
        · subst hj
          have h1 : ¬ (j + 1 ≤ j ∧ j < j + 1 + n ∧ j < 15) := by omega
          have h2 : (j ≤ j ∧ j < j + (n + 1) ∧ j < 15) := by omega
          simp [h1, h2]
        · by_cases hc : z + 1 ≤ j ∧ j < z + 1 + n ∧ j < 15
          · have h2 : (z ≤ j ∧ j < z + (n + 1) ∧ j < 15) := by omega
            simp [hc, h2]
          · have h2 : ¬ (z ≤ j ∧ j < z + (n + 1) ∧ j < 15) := by omega
            simp [hc, h2, hj]
      · simp only [hz, if_false]
        have h1 : ¬ (z + 1 ≤ j ∧ j < z + 1 + n ∧ j < 15) := by omega
        have h2 : ¬ (z ≤ j ∧ j < z + (n + 1) ∧ j < 15) := by omega
        simp [h1, h2]

theorem run_face2_eq (ext : Ext) (mod : Module) (ntri : Nat) (x : Vec) (f : MFace)
    (hroot : roots_ok ext mod f) :
    run_face2 ext mod ntri x f = some (face2_out ext mod ntri x f) := by
  obtain ⟨st1, h1, h2, h3, c1, h4, h5⟩ :=
    post_loop_spec ext mod ntri f.face f.d x f.vars.U_2m_above_srf (t_of f) (q_of ext f)
      (P_of ext f) mod.nLayer 0 { Qsusp := 0, Qsubl := 0, vars := f.vars }
      (fun j _ hj => hroot j (by omega))
  have hc : c1 = fun j => if j < mod.nLayer ∧ j < 15 then clamp0 (x (ntri * j + f.face.cell_id))
                    else f.vars.c j := by
    funext j
    rw [h5 j]
    simp
  simp only [t_of, q_of, P_of] at h1
  simp only [run_face2, h1, face2_out, h2, h3, h4, hc, Qsusp_of, Qsubl_of, zero_add, t_of, q_of,
    P_of]

theorem loop2_eq (ext : Ext) (mod : Module) (ntri : Nat) (x : Vec) :
    ∀ fs : List MFace, (∀ f ∈ fs, roots_ok ext mod f) →
      loop2 ext mod ntri x fs = some (fs.map (face2_out ext mod ntri x)) := by
  intro fs
  induction fs with
  | nil => intro _; rfl
  | cons f fs ih =>
    intro h
    simp only [loop2, run_face2_eq ext mod ntri x f (h f (List.mem_cons_self _ _)),
      ih (fun g hg => h g (List.mem_cons_of_mem _ hg)), List.map_cons]

theorem stage2_eq (ext : Ext) (mod : Module) (dt : ℚ) (mesh : Mesh)
    (hroot : run_roots_ok ext mod dt mesh) :
    stage2 ext mod dt mesh = some ((mesh.map (face1_out ext mod dt)).map
      (face2_out ext mod mesh.length (run_x ext mod dt mesh))) := by
  have h : ∀ f ∈ mesh.map (face1_out ext mod dt), roots_ok ext mod f := by
    intro f hf
    obtain ⟨g, hg, rfl⟩ := List.mem_map.mp hf
    exact hroot g hg
  simp only [stage2, stage1, loop1_out, loop2_eq ext mod _ _ _ h]

/-! ## The third and fourth face loops, and the whole run -/

theorem div_step_bb (ext : Ext) (mesh : Mesh) (f : MFace) (i : Nat) (acc : SpRow × ℚ) (j : Nat) :
    (div_step ext mesh f i (fun j => dot (wind_vector ext f.vars.vw_dir) (f.d.m j)) acc j).2 =
      acc.2 + bb_term ext mesh f j := by
  unfold div_step bb_term Qt_of
  split_ifs <;> rfl

theorem run_face3_bb (ext : Ext) (mesh : Mesh) (f : MFace) (i : Nat) (A : SpMat) (bb : Vec) :
    (run_face3 ext mesh f i A bb).2 = bb.set i (bb i + bb_incr ext mesh f) := by
  simp only [run_face3, List.foldl_cons, List.foldl_nil, div_step_bb, bb_incr]
  rw [add_assoc, add_assoc, ← add_assoc (bb_term ext mesh f 0)]

theorem loop3_bb (ext : Ext) (mesh : Mesh) :
    ∀ (fs : List MFace) (i : Nat) (A : SpMat) (bb : Vec) (k : Nat),
      (loop3 ext mesh fs i A bb).2 k =
        if i ≤ k then bb k + ((fs[k - i]?).map (bb_incr ext mesh)).getD 0 else bb k := by
  intro fs
  induction fs with
  | nil => intro i A bb k; simp [loop3]
  | cons f fs ih =>
    intro i A bb k
    simp only [loop3]
    rw [ih, run_face3_bb]
    by_cases h1 : i + 1 ≤ k
    · have h2 : i ≤ k := by omega
      have h3 : k ≠ i := by omega
      have h4 : k - i = (k - (i + 1)) + 1 := by omega
      simp only [h1, h2, if_true, Vec.set, h3, if_false]
      rw [h4, List.getElem?_cons_succ]
    · by_cases h2 : k = i
      · subst h2
        simp [Vec.set]
      · have h3 : ¬ i ≤ k := by omega
        simp [h1, h3, Vec.set, h2]

theorem loop4_getElem? (dt : ℚ) (dSdt : Nat → Option ℚ) :
    ∀ (fs : List MFace) (i k : Nat),
      (loop4 dt dSdt fs i)[k]? = (fs[k]?).map (fun f => run_face4 dt dSdt f (i + k)) := by
  intro fs
  induction fs with
  | nil => intro i k; simp [loop4]
  | cons f fs ih =>
    intro i k
    cases k with
    | zero => simp [loop4]
    | succ k =>
      simp only [loop4, List.getElem?_cons_succ, ih]
      have : i + 1 + k = i + (k + 1) := by omega
      rw [this]

theorem loop4_length (dt : ℚ) (dSdt : Nat → Option ℚ) :
    ∀ (fs : List MFace) (i : Nat), (loop4 dt dSdt fs i).length = fs.length := by
  intro fs
  induction fs with
  | nil => intro i; rfl
  | cons f fs ih => intro i; simp [loop4, ih]

theorem run_eq (ext : Ext) (mod : Module) (dt : ℚ) (mesh : Mesh)
    (hroot : run_roots_ok ext mod dt mesh) :
    run ext mod dt mesh = some (loop4 dt (run_dSdt ext mesh.length (mesh2_of ext mod dt mesh))
      (mesh2_of ext mod dt mesh) 0) := by
  simp only [run, stage2_eq ext mod dt mesh hroot, run_dSdt, mesh2_of]

theorem run_getElem? (ext : Ext) (mod : Module) (dt : ℚ) (mesh : Mesh)
    (hroot : run_roots_ok ext mod dt mesh) (k : Nat) :
    (run ext mod dt mesh).map (fun m => m[k]?) = some ((mesh[k]?).map (fun f =>
      run_face4 dt (run_dSdt ext mesh.length (mesh2_of ext mod dt mesh))
        (face2_out ext mod mesh.length (run_x ext mod dt mesh) (face1_out ext mod dt f)) k)) := by
  rw [run_eq ext mod dt mesh hroot]
  simp only [Option.map_some', loop4_getElem?, mesh2_of, List.getElem?_map, Option.map_map,
    zero_add]
  rfl

/-! ## Claims C1 to C4 -/

theorem face_salt_not_drifting (ext : Ext) (dt : ℚ) (f : MFace)
    (h : ustar_of ext f.vars.U_2m_above_srf ≤ u_star_saltation ext ∨ f.vars.swe = some 0
      ∨ f.vars.swe = none) :
    face_salt ext dt f = { c_salt := 0, Qsalt := 0, is_drifting := 0, Qsusp_pbsm := 0 } := by
  have hc : ¬ (ustar_of ext f.vars.U_2m_above_srf > u_star_saltation ext ∧ swe_of f.vars > 0) := by
    rintro ⟨h1, h2⟩
    rcases h with h | h | h
    · exact absurd h1 (not_lt.mpr h)
    · simp [swe_of, h] at h2
    · simp [swe_of, h] at h2
  simp only [face_salt, saltation, hc, if_false]

theorem face1_out_salt (ext : Ext) (mod : Module) (dt : ℚ) (f : MFace) :
    (face1_out ext mod dt f).vars.is_drifting = (face_salt ext dt f).is_drifting ∧
    (face1_out ext mod dt f).vars.csalt = (face_salt ext dt f).c_salt ∧
    (face1_out ext mod dt f).vars.Qsalt = (face_salt ext dt f).Qsalt := by
  obtain ⟨K1, h⟩ := layer_vars_fields ext mod (data1 ext f) (ustar_of ext f.vars.U_2m_above_srf)
    mod.nLayer 0 (salt_vars ext dt f)
  have e : (face1_out ext mod dt f).vars = { salt_vars ext dt f with K := K1 } := h
  rw [e]
  exact ⟨rfl, rfl, rfl⟩

theorem stage1_getElem? (ext : Ext) (mod : Module) (dt : ℚ) (mesh : Mesh) (i : Nat) :
    (stage1 ext mod dt mesh).1[i]? = (mesh[i]?).map (face1_out ext mod dt) := by
  simp only [stage1, loop1_out, List.getElem?_map]

/-- C1 (code evaluated at the failing input): `init` does not raise for a configured
settling velocity of exactly `0`; the guard is `settling_velocity > 0`, so `init` raises iff
the settling velocity is strictly positive, although the message says it must be negative. -/
theorem C1_init_accepts_zero_settling_velocity (sdc : Option ℚ) (va : Option Bool)
    (domain : List (Face × Vars)) :
    (∃ r, init { settling_velocity := some 0, snow_diffusion_const := sdc,
                 vertical_advection := va } domain = Except.ok r) ∧
    ∀ cfg : Config, (∃ e, init cfg domain = Except.error e) ↔
      cfg.settling_velocity.getD (-1 / 2) > 0 := by
  refine ⟨by simp [init], fun cfg => init_error_iff cfg domain⟩

/-- C2: in the first face loop of `run`, a face whose `ustar` does not exceed the saltation
threshold, or whose `swe` is `0`, or whose `swe` is NaN, gets `is_drifting = 0`, `csalt = 0`,
`Qsalt = 0`, and the right-hand side entry of its layer-0 cell is `0` (cell ids distinct). -/
theorem C2_no_saltation_zero_source (ext : Ext) (mod : Module) (dt : ℚ) (mesh : Mesh)
    (hnd : (mesh.map (fun g => g.face.cell_id)).Nodup) (i : Nat) (f : MFace)
    (hf : mesh[i]? = some f)
    (h : ustar_of ext f.vars.U_2m_above_srf ≤ u_star_saltation ext ∨ f.vars.swe = some 0
      ∨ f.vars.swe = none) :
    ∃ f1, (stage1 ext mod dt mesh).1[i]? = some f1 ∧
      f1.vars.is_drifting = 0 ∧ f1.vars.csalt = 0 ∧ f1.vars.Qsalt = 0 ∧
      (stage1 ext mod dt mesh).2.2 (mesh.length * 0 + f.face.cell_id) = 0 := by
  have hs := face_salt_not_drifting ext dt f h
  obtain ⟨h1, h2, h3⟩ := face1_out_salt ext mod dt f
  refine ⟨face1_out ext mod dt f, by rw [stage1_getElem?, hf]; rfl, ?_, ?_, ?_, ?_⟩
  · rw [h1, hs]
  · rw [h2, hs]
  · rw [h3, hs]
  · rw [Nat.mul_zero, Nat.zero_add]
    exact loop1_b_at ext mod dt mesh.length mesh mesh _ _ hnd f (List.getElem?_mem hf)
      (by rw [hs]) rfl

set_option maxRecDepth 100000 in
theorem C2_no_saltation_zero_source_witness :
    ∃ f1, (stage1 ext_ref mod_ref 3600 (mesh_two 1)).1[0]? = some f1 ∧
      f1.vars.is_drifting = 0 ∧ f1.vars.csalt = 0 ∧ f1.vars.Qsalt = 0 ∧
      (stage1 ext_ref mod_ref 3600 (mesh_two 1)).2.2
        ((mesh_two 1).length * 0 + (bare_face 1).face.cell_id) = 0 :=
  C2_no_saltation_zero_source ext_ref mod_ref 3600 (mesh_two 1) (by decide!) 0
    (bare_face 1) rfl
    (Or.inr (Or.inl rfl))

/-- C3: for a drifting face with `dt > 0` and `area > 0`, the `Qsalt` written after the mass
limiter satisfies `Qsalt * dt * (sum_e edge_length_e * (uvw . m_e)) / area ≤ swe`, with equality
whenever the limiter branch `salt > swe` is taken (exact arithmetic). -/
theorem C3_limiter_mass_bound (ext : Ext) (dt : ℚ) (f : MFace)
    (hdr : drifting ext f) (hdt : dt > 0) (harea : f.face.area > 0) :
    (salt_vars ext dt f).Qsalt * dt * edge_flux_sum ext f / f.face.area ≤ swe_of f.vars ∧
    (limiter_taken ext dt f →
      (salt_vars ext dt f).Qsalt * dt * edge_flux_sum ext f / f.face.area = swe_of f.vars) := by
  have _ := hdt
  have _ := harea
  exact saltation_mass_bound ext dt f.face f.d.m (wind_vector ext f.vars.vw_dir)
    f.vars.U_2m_above_srf (ext.log_scale_wind f.vars.U_2m_above_srf 2 10 0 none)
    (ustar_of ext f.vars.U_2m_above_srf) (hs_of ext (ustar_of ext f.vars.U_2m_above_srf))
    (z0_of (ustar_of ext f.vars.U_2m_above_srf)) (u_star_saltation ext) (swe_of f.vars)
    hdr.1 hdr.2

set_option maxRecDepth 100000 in
theorem C3_limiter_mass_bound_witness :
    limiter_taken ext_ref 3600 skew_face ∧
    (salt_vars ext_ref 3600 skew_face).Qsalt * 3600 * edge_flux_sum ext_ref skew_face
        / skew_face.face.area ≤ swe_of skew_face.vars ∧
    (limiter_taken ext_ref 3600 skew_face →
      (salt_vars ext_ref 3600 skew_face).Qsalt * 3600 * edge_flux_sum ext_ref skew_face
        / skew_face.face.area = swe_of skew_face.vars) :=
  ⟨by unfold limiter_taken; decide!,
   C3_limiter_mass_bound ext_ref 3600 skew_face (by unfold drifting; decide!) (by norm_num)
    (by decide!)⟩

theorem edge_flux_sum_eq_face (ext : Ext) (u2 : ℚ) (swe : Option ℚ) :
    edge_flux_sum ext (eq_face u2 swe) = 0 := by
  simp only [edge_flux_sum, eq_face, init_face, tri_eq, arr3, dot, vars_of]
  norm_num
  ring

/-- C4 (code evaluated at the failing input): on the equilateral triangle with `u2 = 30`,
`swe = 0.01`, `dt = 3600` the lateral flux sum is `0` whatever the library returns, so the
limiter test `salt > swe` is false and the integrated saltation mass `Qsalt * dt * sum` is `0`,
which differs from `0.01 * area` by more than `1e-6`. -/
theorem C4_equilateral_limiter_not_taken (ext : Ext) :
    edge_flux_sum ext (eq_face 30 (some (1 / 100))) = 0 ∧
    ¬ limiter_taken ext 3600 (eq_face 30 (some (1 / 100))) ∧
    |(salt_vars ext 3600 (eq_face 30 (some (1 / 100)))).Qsalt * 3600
        * edge_flux_sum ext (eq_face 30 (some (1 / 100)))
      - 1 / 100 * (eq_face 30 (some (1 / 100))).face.area| > 1 / 1000000 := by
  have h0 := edge_flux_sum_eq_face ext 30 (some (1 / 100))
  refine ⟨h0, ?_, ?_⟩
  · unfold limiter_taken
    rw [salt_of_eq]
    have : (eq_face 30 (some (1 / 100))).face.edge_length 0
          * dot (wind_vector ext (eq_face 30 (some (1 / 100))).vars.vw_dir)
              ((eq_face 30 (some (1 / 100))).d.m 0)
        + (eq_face 30 (some (1 / 100))).face.edge_length 1
          * dot (wind_vector ext (eq_face 30 (some (1 / 100))).vars.vw_dir)
              ((eq_face 30 (some (1 / 100))).d.m 1)
        + (eq_face 30 (some (1 / 100))).face.edge_length 2
          * dot (wind_vector ext (eq_face 30 (some (1 / 100))).vars.vw_dir)
              ((eq_face 30 (some (1 / 100))).d.m 2) = 0 := h0
    rw [this]
    simp [swe_of, eq_face, init_face, vars_of]
  · rw [h0]
    simp only [mul_zero, zero_sub, abs_neg, eq_face, init_face, tri_eq]
    norm_num [abs_of_pos]

/-! ## Claims C7 and C8 -/

/-- C7: for every solver output `x`, the concentration of layer `z` used by the second face
loop (in `Qsusp` and in the sublimation sum `Qsubl`) and written to `c<z>` is
`max(x[ntri*z + cell_id], 0)`, hence non-negative, and `Qsusp`, the sum over the layers of
`c_z * u_z * layer_height` with `u_z ≥ 0.1` and `layer_height > 0`, is non-negative. -/
theorem C7_clamped_concentration (ext : Ext) (mod : Module) (ntri : Nat) (x : Vec) (f : MFace)
    (hroot : roots_ok ext mod f) (hh : 0 < mod.v_edge_height) :
    ∃ f2, run_face2 ext mod ntri x f = some f2 ∧
      (∀ z, z < mod.nLayer → z < 15 →
        f2.vars.c z = max (x (ntri * z + f.face.cell_id)) 0 ∧ 0 ≤ f2.vars.c z) ∧
      f2.vars.Qsusp = ∑ z in Finset.range mod.nLayer,
        max (x (ntri * z + f.face.cell_id)) 0
          * u_z_of ext f.vars.U_2m_above_srf (cz_of mod f.d.hs z) f.d.z0 * mod.v_edge_height ∧
      f2.vars.Qsubl = ∑ z in Finset.range mod.nLayer,
        (csubl_of ext f.face (t_of f) (q_of ext f) (P_of ext f) (cz_of mod f.d.hs z)
            (u_z_of ext f.vars.U_2m_above_srf (cz_of mod f.d.hs z) f.d.z0)).getD 0
          * max (x (ntri * z + f.face.cell_id)) 0 * mod.v_edge_height ∧
      (∀ z, 1 / 10 ≤ u_z_of ext f.vars.U_2m_above_srf (cz_of mod f.d.hs z) f.d.z0) ∧
      0 ≤ f2.vars.Qsusp := by
  refine ⟨face2_out ext mod ntri x f, run_face2_eq ext mod ntri x f hroot, ?_, ?_, ?_, ?_, ?_⟩
  · intro z hz hz15
    have : (face2_out ext mod ntri x f).vars.c z = clamp0 (x (ntri * z + f.face.cell_id)) := by
      simp only [face2_out, hz, hz15, and_self, if_true]
    rw [this]
    exact ⟨clamp0_eq_max _, clamp0_nonneg _⟩
  · show Qsusp_of ext mod ntri x f = _
    simp only [Qsusp_of, Qsusp_term, clamp0_eq_max]
  · show Qsubl_of ext mod ntri x f = _
    simp only [Qsubl_of, Qsubl_term, clamp0_eq_max]
  · intro z
    exact u_z_of_pos ext _ _ _
  · show 0 ≤ Qsusp_of ext mod ntri x f
    unfold Qsusp_of Qsusp_term
    apply Finset.sum_nonneg
    intro z _
    have hu := u_z_of_pos ext f.vars.U_2m_above_srf (cz_of mod f.d.hs z) f.d.z0
    exact mul_nonneg (mul_nonneg (clamp0_nonneg _) (by linarith)) hh.le

set_option maxRecDepth 100000 in
theorem C7_clamped_concentration_witness :
    ∃ f2, run_face2 ext_ref mod_ref 2 (run_x ext_ref mod_ref 3600 (mesh_two 1))
        (face1_out ext_ref mod_ref 3600 (bare_face 1)) = some f2 ∧
      (∀ z, z < mod_ref.nLayer → z < 15 →
        f2.vars.c z = max (run_x ext_ref mod_ref 3600 (mesh_two 1)
          (2 * z + (face1_out ext_ref mod_ref 3600 (bare_face 1)).face.cell_id)) 0 ∧
        0 ≤ f2.vars.c z) ∧
      f2.vars.Qsusp = ∑ z in Finset.range mod_ref.nLayer,
        max (run_x ext_ref mod_ref 3600 (mesh_two 1)
          (2 * z + (face1_out ext_ref mod_ref 3600 (bare_face 1)).face.cell_id)) 0
          * u_z_of ext_ref (face1_out ext_ref mod_ref 3600 (bare_face 1)).vars.U_2m_above_srf
              (cz_of mod_ref (face1_out ext_ref mod_ref 3600 (bare_face 1)).d.hs z)
              (face1_out ext_ref mod_ref 3600 (bare_face 1)).d.z0 * mod_ref.v_edge_height ∧
      f2.vars.Qsubl = ∑ z in Finset.range mod_ref.nLayer,
        (csubl_of ext_ref (face1_out ext_ref mod_ref 3600 (bare_face 1)).face
            (t_of (face1_out ext_ref mod_ref 3600 (bare_face 1)))
            (q_of ext_ref (face1_out ext_ref mod_ref 3600 (bare_face 1)))
            (P_of ext_ref (face1_out ext_ref mod_ref 3600 (bare_face 1)))
            (cz_of mod_ref (face1_out ext_ref mod_ref 3600 (bare_face 1)).d.hs z)
            (u_z_of ext_ref (face1_out ext_ref mod_ref 3600 (bare_face 1)).vars.U_2m_above_srf
              (cz_of mod_ref (face1_out ext_ref mod_ref 3600 (bare_face 1)).d.hs z)
              (face1_out ext_ref mod_ref 3600 (bare_face 1)).d.z0)).getD 0
          * max (run_x ext_ref mod_ref 3600 (mesh_two 1)
              (2 * z + (face1_out ext_ref mod_ref 3600 (bare_face 1)).face.cell_id)) 0
          * mod_ref.v_edge_height ∧
      (∀ z, 1 / 10 ≤ u_z_of ext_ref
          (face1_out ext_ref mod_ref 3600 (bare_face 1)).vars.U_2m_above_srf
          (cz_of mod_ref (face1_out ext_ref mod_ref 3600 (bare_face 1)).d.hs z)
          (face1_out ext_ref mod_ref 3600 (bare_face 1)).d.z0) ∧
      0 ≤ f2.vars.Qsusp :=
  C7_clamped_concentration ext_ref mod_ref 2 (run_x ext_ref mod_ref 3600 (mesh_two 1))
    (face1_out ext_ref mod_ref 3600 (bare_face 1)) (by unfold roots_ok; decide!) (by decide!)

/-- C8: the fourth face loop writes, for the face at index `i`, with `qdep = dSdt[i]` when that
is not NaN and `0` otherwise, `drift_mass = (-qdep + Qsubl) * dt` and
`drift_mass_no_subl = -qdep * dt`; so their difference is `Qsubl * dt`, and a NaN `dSdt[i]`
gives `drift_mass = Qsubl * dt` and `drift_mass_no_subl = 0`. -/
theorem C8_mass_update (dt : ℚ) (dSdt : Nat → Option ℚ) (mesh2 : List MFace) (i : Nat)
    (f : MFace) (hf : mesh2[i]? = some f) :
    ∃ f4, (loop4 dt dSdt mesh2 0)[i]? = some f4 ∧
      f4.vars.drift_mass
        = (-(match dSdt i with | some v => v | none => 0) + f.vars.Qsubl) * dt ∧
      f4.vars.drift_mass_no_subl = -(match dSdt i with | some v => v | none => 0) * dt ∧
      f4.vars.Qsubl = f.vars.Qsubl ∧
      f4.vars.drift_mass - f4.vars.drift_mass_no_subl = f4.vars.Qsubl * dt ∧
      (dSdt i = none →
        f4.vars.drift_mass = f4.vars.Qsubl * dt ∧ f4.vars.drift_mass_no_subl = 0) := by
  refine ⟨run_face4 dt dSdt f i, ?_, ?_, ?_, rfl, ?_, ?_⟩
  · rw [loop4_getElem?, hf, Nat.zero_add]; rfl
  · cases h : dSdt i <;> simp [run_face4, h]
  · cases h : dSdt i <;> simp [run_face4, h]
  · simp only [run_face4]; ring
  · intro h
    simp [run_face4, h]

theorem C8_mass_update_witness :
    ∃ f4, (loop4 3600 (fun _ => none) (mesh_two 1) 0)[1]? = some f4 ∧
      f4.vars.drift_mass
        = (-(match (fun _ => none : Nat → Option ℚ) 1 with | some v => v | none => 0)
            + (snow_face 1).vars.Qsubl) * 3600 ∧
      f4.vars.drift_mass_no_subl
        = -(match (fun _ => none : Nat → Option ℚ) 1 with | some v => v | none => 0) * 3600 ∧
      f4.vars.Qsubl = (snow_face 1).vars.Qsubl ∧
      f4.vars.drift_mass - f4.vars.drift_mass_no_subl = f4.vars.Qsubl * 3600 ∧
      ((fun _ => none : Nat → Option ℚ) 1 = none →
        f4.vars.drift_mass = f4.vars.Qsubl * 3600 ∧ f4.vars.drift_mass_no_subl = 0) :=
  C8_mass_update 3600 (fun _ => none) (mesh_two 1) 1 (snow_face 1) rfl

/-! ## The running total sum_drift (claim C9) -/

theorem set_drivers_getElem? (drv : Nat → Drivers) :
    ∀ (fs : List MFace) (i k : Nat),
      (set_drivers drv fs i)[k]? = (fs[k]?).map (set_drivers_face (drv (i + k))) := by
  intro fs
  induction fs with
  | nil => intro i k; simp [set_drivers]
  | cons f fs ih =>
    intro i k
    cases k with
    | zero => simp [set_drivers]
    | succ k =>
      simp only [set_drivers, List.getElem?_cons_succ, ih]
      have : i + 1 + k = i + (k + 1) := by omega
      rw [this]

theorem post_loop_sum_drift (body : Nat → PostSt → Option PostSt)
    (hb : ∀ z st st1, body z st = some st1 → st1.vars.sum_drift = st.vars.sum_drift) :
    ∀ n z st st1, post_loop body n z st = some st1 →
      st1.vars.sum_drift = st.vars.sum_drift := by
  intro n
  induction n with
  | zero =>
    intro z st st1 h
    simp only [post_loop, Option.some.injEq] at h
    rw [← h]
  | succ n ih =>
    intro z st st1 h
    simp only [post_loop] at h
    cases hb1 : body z st with
    | none => rw [hb1] at h; simp at h
    | some st2 =>
      rw [hb1] at h
      rw [ih (z + 1) st2 st1 h, hb z st st2 hb1]

theorem post_layer_sum_drift (ext : Ext) (mod : Module) (ntri : Nat) (face : Face) (d : Data)
    (x : Vec) (u2 t q P : ℚ) (z : Nat) (st st1 : PostSt)
    (h : post_layer ext mod ntri face d x u2 t q P z st = some st1) :
    st1.vars.sum_drift = st.vars.sum_drift := by
  simp only [post_layer] at h
  split at h
  · simp at h
  · simp only [Option.some.injEq] at h
    rw [← h]
    split_ifs <;> rfl

theorem run_face2_sum_drift (ext : Ext) (mod : Module) (ntri : Nat) (x : Vec) (f f2 : MFace)
    (h : run_face2 ext mod ntri x f = some f2) :
    f2.vars.sum_drift = f.vars.sum_drift := by
  simp only [run_face2] at h
  split at h
  · simp at h
  · next st hst =>
    simp only [Option.some.injEq] at h
    rw [← h]
    exact post_loop_sum_drift _ (fun z st st1 => post_layer_sum_drift ext mod ntri f.face f.d x
      _ _ _ _ z st st1) _ _ _ _ hst

theorem loop2_sum_drift (ext : Ext) (mod : Module) (ntri : Nat) (x : Vec) :
    ∀ (fs fs2 : List MFace), loop2 ext mod ntri x fs = some fs2 →
      ∀ k : Nat, (fs2[k]?).map (fun g : MFace => g.vars.sum_drift)
        = (fs[k]?).map (fun g : MFace => g.vars.sum_drift) := by
  intro fs
  induction fs with
  | nil =>
    intro fs2 h k
    simp only [loop2, Option.some.injEq] at h
    rw [← h]
  | cons f fs ih =>
    intro fs2 h k
    simp only [loop2] at h
    cases h1 : run_face2 ext mod ntri x f with
    | none => rw [h1] at h; simp at h
    | some f1 =>
      rw [h1] at h
      cases h2 : loop2 ext mod ntri x fs with
      | none => rw [h2] at h; simp at h
      | some fs1 =>
        rw [h2] at h
        simp only [Option.some.injEq] at h
        rw [← h]
        cases k with
        | zero => simp [run_face2_sum_drift ext mod ntri x f f1 h1]
        | succ k => simpa using ih fs1 h2 k

theorem face1_out_sum_drift (ext : Ext) (mod : Module) (dt : ℚ) (f : MFace) :
    (face1_out ext mod dt f).vars.sum_drift = f.vars.sum_drift := by
  obtain ⟨K1, h⟩ := layer_vars_fields ext mod (data1 ext f) (ustar_of ext f.vars.U_2m_above_srf)
    mod.nLayer 0 (salt_vars ext dt f)
  have e : (face1_out ext mod dt f).vars = { salt_vars ext dt f with K := K1 } := h
  rw [e]
  rfl

/-- One run adds the run's `drift_mass` to `sum_drift` on every face. -/
theorem run_sum_drift (ext : Ext) (mod : Module) (dt : ℚ) (mesh m1 : Mesh)
    (h : run ext mod dt mesh = some m1) (k : Nat) :
    sum_drift_at m1 k = sum_drift_at mesh k + drift_mass_at m1 k := by
  simp only [run] at h
  cases h2 : stage2 ext mod dt mesh with
  | none => rw [h2] at h; simp at h
  | some mesh2 =>
    rw [h2] at h
    simp only [Option.some.injEq] at h
    have hs := loop2_sum_drift ext mod _ _ _ _ h2 k
    simp only [stage1_getElem?, Option.map_map] at hs
    simp only [sum_drift_at, drift_mass_at, ← h, loop4_getElem?]
    cases hk : mesh2[k]? with
    | none =>
      rw [hk] at hs
      cases hm : mesh[k]? with
      | none => simp
      | some f => rw [hm] at hs; simp at hs
    | some f2 =>
      rw [hk] at hs
      cases hm : mesh[k]? with
      | none => rw [hm] at hs; simp at hs
      | some f =>
        rw [hm] at hs
        simp only [Option.map_some', Option.some.injEq, Function.comp] at hs
        rw [face1_out_sum_drift] at hs
        simp [run_face4, hs]

theorem sum_drift_at_set_drivers (drv : Nat → Drivers) (mesh : Mesh) (k : Nat) :
    sum_drift_at (set_drivers drv mesh 0) k = sum_drift_at mesh k := by
  simp only [sum_drift_at, set_drivers_getElem?, Option.map_map]
  rfl

theorem run_seq_cons_inv (ext : Ext) (mod : Module) (step : ℚ × (Nat → Drivers))
    (rest : List (ℚ × (Nat → Drivers))) (mesh : Mesh) (hist : List Mesh)
    (h : run_seq ext mod (step :: rest) mesh = some hist) :
    ∃ ma ms, run ext mod step.1 (set_drivers step.2 mesh 0) = some ma ∧
      run_seq ext mod rest ma = some ms ∧ hist = ma :: ms := by
  simp only [run_seq] at h
  cases hr : run ext mod step.1 (set_drivers step.2 mesh 0) with
  | none => simp [hr] at h
  | some ma =>
    simp only [hr] at h
    cases hs : run_seq ext mod rest ma with
    | none => simp [hs] at h
    | some ms =>
      simp only [hs, Option.some.injEq] at h
      exact ⟨ma, ms, rfl, hs, h.symm⟩

theorem run_seq_step (ext : Ext) (mod : Module) (i : Nat) :
    ∀ (steps : List (ℚ × (Nat → Drivers))) (mesh : Mesh) (hist : List Mesh),
      run_seq ext mod steps mesh = some hist →
      ∀ (k : Nat) (m m1 : Mesh), (mesh :: hist)[k]? = some m → hist[k]? = some m1 →
        sum_drift_at m1 i = sum_drift_at m i + drift_mass_at m1 i := by
  intro steps
  induction steps with
  | nil =>
    intro mesh hist h k m m1 _ h2
    simp only [run_seq, Option.some.injEq] at h
    rw [← h] at h2
    simp at h2
  | cons step rest ih =>
    intro mesh hist h k m m1 h1 h2
    obtain ⟨ma, ms, hr, hs, rfl⟩ := run_seq_cons_inv ext mod step rest mesh hist h
    cases k with
    | zero =>
      simp only [List.getElem?_cons_zero, Option.some.injEq] at h1 h2
      subst h1 h2
      rw [run_sum_drift ext mod _ _ _ hr i, sum_drift_at_set_drivers]
    | succ k =>
      simp only [List.getElem?_cons_succ] at h1 h2
      exact ih ma ms hs k m m1 h1 h2

theorem run_seq_total (ext : Ext) (mod : Module) (i : Nat) :
    ∀ (steps : List (ℚ × (Nat → Drivers))) (mesh : Mesh) (hist : List Mesh),
      run_seq ext mod steps mesh = some hist →
      sum_drift_at (hist.getLast?.getD mesh) i
        = sum_drift_at mesh i + (hist.map (fun m => drift_mass_at m i)).sum := by
  intro steps
  induction steps with
  | nil =>
    intro mesh hist h
    simp only [run_seq, Option.some.injEq] at h
    rw [← h]
    simp
  | cons step rest ih =>
    intro mesh hist h
    obtain ⟨ma, ms, hr, hs, rfl⟩ := run_seq_cons_inv ext mod step rest mesh hist h
    have e : ((ma :: ms).getLast?.getD mesh) = (ms.getLast?.getD ma) := by
      cases ms with
      | nil => rfl
      | cons b bs =>
        rw [List.getLast?_cons_cons]
        obtain ⟨v, hv⟩ : ∃ v, (b :: bs).getLast? = some v :=
          ⟨_, List.getLast?_eq_getLast _ (List.cons_ne_nil b bs)⟩
        rw [hv]
        rfl
    rw [e, ih ma ms hs, run_sum_drift ext mod _ _ _ hr i, sum_drift_at_set_drivers]
    simp only [List.map_cons, List.sum_cons]
    ring

theorem init_sum_drift (cfg : Config) (domain : List (Face × Vars)) (mod : Module)
    (mesh0 : Mesh) (h : init cfg domain = Except.ok (mod, mesh0)) (i : Nat) :
    sum_drift_at mesh0 i = 0 := by
  unfold init at h
  simp only at h
  split_ifs at h
  simp only [Except.ok.injEq, Prod.mk.injEq] at h
  rw [← h.2]
  simp only [sum_drift_at, List.getElem?_map, Option.map_map]
  cases domain[i]? with
  | none => rfl
  | some fv => rfl

/-- C9: `init` sets `sum_drift = 0` on every face; every run replaces `sum_drift` by its
previous value plus that run's `drift_mass`; so after `init` and `n` runs `sum_drift` is the
sum of the `n` values of `drift_mass` of the face, and after the first run it equals
`drift_mass`. -/
theorem C9_sum_drift_running_total (ext : Ext) (cfg : Config) (domain : List (Face × Vars))
    (mod : Module) (mesh0 : Mesh) (steps : List (ℚ × (Nat → Drivers))) (hist : List Mesh)
    (hinit : init cfg domain = Except.ok (mod, mesh0))
    (hrun : run_seq ext mod steps mesh0 = some hist) (i : Nat) :
    hist.length = steps.length ∧
    sum_drift_at mesh0 i = 0 ∧
    (∀ (k : Nat) (m m1 : Mesh), (mesh0 :: hist)[k]? = some m → hist[k]? = some m1 →
      sum_drift_at m1 i = sum_drift_at m i + drift_mass_at m1 i) ∧
    sum_drift_at (hist.getLast?.getD mesh0) i = (hist.map (fun m => drift_mass_at m i)).sum ∧
    (∀ m1, hist.head? = some m1 → sum_drift_at m1 i = drift_mass_at m1 i) := by
  have h0 := init_sum_drift cfg domain mod mesh0 hinit i
  have hstep := run_seq_step ext mod i steps mesh0 hist hrun
  refine ⟨?_, h0, hstep, ?_, ?_⟩
  · clear hinit h0 hstep
    induction steps generalizing mesh0 hist with
    | nil =>
      simp only [run_seq, Option.some.injEq] at hrun
      rw [← hrun]
      rfl
    | cons step rest ih =>
      obtain ⟨ma, ms, _, hs, rfl⟩ := run_seq_cons_inv ext mod step rest mesh0 hist hrun
      simp [ih ma ms hs]
  · rw [run_seq_total ext mod i steps mesh0 hist hrun, h0, zero_add]
  · intro m1 hm
    have := hstep 0 mesh0 m1 (by simp) (by
      cases hist with
      | nil => simp at hm
      | cons a t => simpa using hm)
    rw [this, h0, zero_add]

/-! ## Quiescent runs -/

theorem face2_out_Qsalt (ext : Ext) (mod : Module) (ntri : Nat) (x : Vec) (f : MFace) :
    (face2_out ext mod ntri x f).vars.Qsalt = f.vars.Qsalt ∧
    (face2_out ext mod ntri x f).vars.sum_drift = f.vars.sum_drift ∧
    (face2_out ext mod ntri x f).vars.Qsusp = Qsusp_of ext mod ntri x f ∧
    (face2_out ext mod ntri x f).vars.Qsubl = Qsubl_of ext mod ntri x f :=
  ⟨rfl, rfl, rfl, rfl⟩

theorem Qsusp_of_zero (ext : Ext) (mod : Module) (ntri : Nat) (x : Vec) (f : MFace)
    (hcell : f.face.cell_id < ntri) (hx : ∀ k, k < ntri * mod.nLayer → x k = 0) :
    Qsusp_of ext mod ntri x f = 0 ∧ Qsubl_of ext mod ntri x f = 0 := by
  have hz : ∀ z ∈ Finset.range mod.nLayer, x (ntri * z + f.face.cell_id) = 0 := by
    intro z hz
    apply hx
    have hz1 : z + 1 ≤ mod.nLayer := Finset.mem_range.mp hz
    calc ntri * z + f.face.cell_id < ntri * z + ntri := by omega
      _ = ntri * (z + 1) := by ring
      _ ≤ ntri * mod.nLayer := Nat.mul_le_mul_left _ hz1
  constructor
  · unfold Qsusp_of
    apply Finset.sum_eq_zero
    intro z hz1
    simp [Qsusp_term, hz z hz1, clamp0]
  · unfold Qsubl_of
    apply Finset.sum_eq_zero
    intro z hz1
    simp [Qsubl_term, hz z hz1, clamp0]

theorem neighbor_face_mem (mesh : Mesh) (face : Face) (j : Nat) (nb : MFace)
    (h : neighbor_face mesh face j = some nb) : nb ∈ mesh := by
  unfold neighbor_face at h
  cases hn : face.neighbor j with
  | none => rw [hn] at h; simp at h
  | some k =>
    rw [hn] at h
    simp only [Option.some_bind] at h
    exact List.getElem?_mem h

theorem bb_incr_zero (ext : Ext) (mesh : Mesh) (f : MFace)
    (hall : ∀ g ∈ mesh, g.vars.Qsalt = 0 ∧ g.vars.Qsusp = 0)
    (hf : f.vars.Qsalt = 0 ∧ f.vars.Qsusp = 0) : bb_incr ext mesh f = 0 := by
  have hQt : ∀ j, Qt_of mesh f j = 0 := by
    intro j
    unfold Qt_of
    cases hn : neighbor_face mesh f.face j with
    | none => simp [hf.1, hf.2]
    | some nb =>
      have := hall nb (neighbor_face_mem mesh f.face j nb hn)
      simp [hf.1, hf.2, this.1, this.2]
  simp [bb_incr, bb_term, hQt]

theorem stage3_bb_zero (ext : Ext) (mesh : Mesh)
    (hall : ∀ g ∈ mesh, g.vars.Qsalt = 0 ∧ g.vars.Qsusp = 0) (k : Nat) :
    (stage3 ext mesh).2 k = 0 := by
  unfold stage3
  rw [loop3_bb]
  simp only [Nat.zero_le, if_true, zero_add, Nat.sub_zero]
  cases hk : mesh[k]? with
  | none => rfl
  | some f =>
    have hf := hall f (List.getElem?_mem hk)
    simp [bb_incr_zero ext mesh f hall hf]

theorem run_vars_eq (ext : Ext) (mod : Module) (dt : ℚ) (mesh : Mesh)
    (hroot : run_roots_ok ext mod dt mesh) (i : Nat) (f : MFace) (hf : mesh[i]? = some f) :
    run_vars ext mod dt mesh i = some (run_face4 dt
      (run_dSdt ext mesh.length (mesh2_of ext mod dt mesh))
      (face2_out ext mod mesh.length (run_x ext mod dt mesh) (face1_out ext mod dt f)) i).vars := by
  unfold run_vars
  rw [run_eq ext mod dt mesh hroot]
  simp only [Option.some_bind, loop4_getElem?, mesh2_of, List.getElem?_map, hf, Option.map_some',
    zero_add]

/-- When no face saltates and both solves return zero, a run leaves a zero suspension
right-hand side, a zero divergence right-hand side and zero fluxes and masses on every face. -/
theorem run_quiescent (ext : Ext) (mod : Module) (dt : ℚ) (mesh : Mesh)
    (hroot : run_roots_ok ext mod dt mesh)
    (hcell : ∀ f ∈ mesh, f.face.cell_id < mesh.length)
    (hq : ∀ f ∈ mesh, (face_salt ext dt f).c_salt = 0 ∧ (face_salt ext dt f).Qsalt = 0)
    (hx : ∀ k, k < mesh.length * mod.nLayer → run_x ext mod dt mesh k = 0)
    (hd : ∀ k, k < mesh.length →
      run_dSdt ext mesh.length (mesh2_of ext mod dt mesh) k = some 0) :
    (∀ k, (stage1 ext mod dt mesh).2.2 k = 0) ∧
    (∀ k, (stage3 ext (mesh2_of ext mod dt mesh)).2 k = 0) ∧
    ∀ i f, mesh[i]? = some f → ∃ v, run_vars ext mod dt mesh i = some v ∧
      v.Qsalt = 0 ∧ v.Qsusp = 0 ∧ v.Qsubl = 0 ∧ v.drift_mass = 0 ∧ v.drift_mass_no_subl = 0 ∧
      v.sum_drift = f.vars.sum_drift := by
  have h2 : ∀ f ∈ mesh,
      (face2_out ext mod mesh.length (run_x ext mod dt mesh) (face1_out ext mod dt f)).vars.Qsalt = 0
      ∧ (face2_out ext mod mesh.length (run_x ext mod dt mesh) (face1_out ext mod dt f)).vars.Qsusp = 0
      ∧ (face2_out ext mod mesh.length (run_x ext mod dt mesh) (face1_out ext mod dt f)).vars.Qsubl = 0 := by
    intro f hf
    obtain ⟨e1, _, e3, e4⟩ := face2_out_Qsalt ext mod mesh.length (run_x ext mod dt mesh)
      (face1_out ext mod dt f)
    have hz := Qsusp_of_zero ext mod mesh.length (run_x ext mod dt mesh) (face1_out ext mod dt f)
      (hcell f hf) hx
    refine ⟨?_, ?_, ?_⟩
    · rw [e1, (face1_out_salt ext mod dt f).2.2, (hq f hf).2]
    · rw [e3, hz.1]
    · rw [e4, hz.2]
  have hall : ∀ g ∈ mesh2_of ext mod dt mesh, g.vars.Qsalt = 0 ∧ g.vars.Qsusp = 0 := by
    intro g hg
    simp only [mesh2_of, List.mem_map] at hg
    obtain ⟨g1, ⟨f, hf, rfl⟩, rfl⟩ := hg
    exact ⟨(h2 f hf).1, (h2 f hf).2.1⟩
  refine ⟨?_, stage3_bb_zero ext _ hall, ?_⟩
  · intro k
    exact loop1_b_zero ext mod dt mesh.length mesh mesh _ _ (fun g hg => (hq g hg).1)
      (fun _ => rfl) k
  · intro i f hf
    have hi : i < mesh.length := by
      by_contra h
      rw [List.getElem?_eq_none (not_lt.mp h)] at hf
      simp at hf
    obtain ⟨q1, q2, q3⟩ := h2 f (List.getElem?_mem hf)
    refine ⟨_, run_vars_eq ext mod dt mesh hroot i f hf, ?_, ?_, ?_, ?_, ?_, ?_⟩
    · exact q1
    · exact q2
    · exact q3
    · simp [run_face4, hd i hi, q3]
    · simp [run_face4, hd i hi]
    · simp only [run_face4, hd i hi, q3]
      rw [(face2_out_Qsalt ext mod mesh.length (run_x ext mod dt mesh)
        (face1_out ext mod dt f)).2.1, face1_out_sum_drift]
      simp

/-! ## Claims C5, C6, C10 and concrete runs -/

theorem init_domain_two (s : ℚ) :
    init cfg_default (domain_two s) = Except.ok (mod_ref, mesh_two s) := by
  simp [init, cfg_default, mod_ref, domain_two, mesh_two, bare_face, snow_face]

set_option maxRecDepth 100000 in
theorem run_roots_ok_two : run_roots_ok ext_ref mod_ref 3600 (mesh_two 1) := by
  unfold run_roots_ok roots_ok
  decide!

set_option maxRecDepth 100000 in
theorem run_roots_ok_two_neg : run_roots_ok ext_ref mod_ref 3600 (mesh_two (-1)) := by
  unfold run_roots_ok roots_ok
  decide!

set_option maxRecDepth 100000 in
theorem run_roots_ok_calm : run_roots_ok ext_ref mod_ref 3600 mesh_calm := by
  unfold run_roots_ok roots_ok
  decide!

set_option maxRecDepth 100000 in
theorem run_seq_two :
    run_seq ext_ref mod_ref [(3600, drivers_two)] (mesh_two 1) = some [mesh_two_run] := by
  have h : (run ext_ref mod_ref 3600 (set_drivers drivers_two (mesh_two 1) 0)).isSome = true := by
    decide!
  obtain ⟨m, hm⟩ := Option.isSome_iff_exists.mp h
  simp [run_seq, mesh_two_run, hm]

/-- C6 (quiescence): if `ustar ≤ u_star_saltation` on every face, the suspension right-hand
side `b` is the zero vector; with the suspension solve returning zero, `Qsalt = Qsusp = Qsubl
= 0` on every face and the divergence right-hand side `bb` is the zero vector; with the
divergence solve returning zero, `drift_mass = drift_mass_no_subl = 0` and `sum_drift` is
unchanged on every face (root finder succeeding, cell ids below the face count). -/
theorem C6_quiescence (ext : Ext) (mod : Module) (dt : ℚ) (mesh : Mesh)
    (hroot : run_roots_ok ext mod dt mesh)
    (hcell : ∀ f ∈ mesh, f.face.cell_id < mesh.length)
    (hq : ∀ f ∈ mesh, ustar_of ext f.vars.U_2m_above_srf ≤ u_star_saltation ext)
    (hx : ∀ k, k < mesh.length * mod.nLayer → run_x ext mod dt mesh k = 0)
    (hd : ∀ k, k < mesh.length →
      run_dSdt ext mesh.length (mesh2_of ext mod dt mesh) k = some 0) :
    (∀ k, (stage1 ext mod dt mesh).2.2 k = 0) ∧
    (∀ k, (stage3 ext (mesh2_of ext mod dt mesh)).2 k = 0) ∧
    ∀ i f, mesh[i]? = some f → ∃ v, run_vars ext mod dt mesh i = some v ∧
      v.Qsalt = 0 ∧ v.Qsusp = 0 ∧ v.Qsubl = 0 ∧ v.drift_mass = 0 ∧ v.drift_mass_no_subl = 0 ∧
      v.sum_drift = f.vars.sum_drift :=
  run_quiescent ext mod dt mesh hroot hcell
    (fun f hf => by rw [face_salt_not_drifting ext dt f (Or.inl (hq f hf))]; exact ⟨rfl, rfl⟩)
    hx hd

set_option maxRecDepth 100000 in
theorem C6_quiescence_witness :
    (∀ k, (stage1 ext_ref mod_ref 3600 mesh_calm).2.2 k = 0) ∧
    (∀ k, (stage3 ext_ref (mesh2_of ext_ref mod_ref 3600 mesh_calm)).2 k = 0) ∧
    ∀ i f, mesh_calm[i]? = some f → ∃ v, run_vars ext_ref mod_ref 3600 mesh_calm i = some v ∧
      v.Qsalt = 0 ∧ v.Qsusp = 0 ∧ v.Qsubl = 0 ∧ v.drift_mass = 0 ∧ v.drift_mass_no_subl = 0 ∧
      v.sum_drift = f.vars.sum_drift :=
  C6_quiescence ext_ref mod_ref 3600 mesh_calm run_roots_ok_calm (by decide!) (by decide!)
    (by decide!) (by unfold run_dSdt; decide!)

theorem C9_sum_drift_running_total_witness :
    [mesh_two_run].length = [((3600 : ℚ), drivers_two)].length ∧
    sum_drift_at (mesh_two 1) 0 = 0 ∧
    (∀ (k : Nat) (m m1 : Mesh), (mesh_two 1 :: [mesh_two_run])[k]? = some m →
      [mesh_two_run][k]? = some m1 →
      sum_drift_at m1 0 = sum_drift_at m 0 + drift_mass_at m1 0) ∧
    sum_drift_at ([mesh_two_run].getLast?.getD (mesh_two 1)) 0
      = ([mesh_two_run].map (fun m => drift_mass_at m 0)).sum ∧
    (∀ m1, [mesh_two_run].head? = some m1 → sum_drift_at m1 0 = drift_mass_at m1 0) :=
  C9_sum_drift_running_total ext_ref cfg_default (domain_two 1) mod_ref (mesh_two 1)
    [(3600, drivers_two)] [mesh_two_run] (init_domain_two 1) run_seq_two 0

set_option maxRecDepth 100000 in
/-- C5 (counterexample): on the two-triangle mesh the bare face 0 (`swe = 0`) lies downwind of
the snow-covered face 1; both solves return exact solutions of their assembled systems, and
yet after the run face 0 has `Qsusp > 0`, `Qsubl < 0` and `drift_mass < 0`. -/
theorem C5_counterexample :
    (bare_face 1).vars.swe = some 0 ∧
    is_solution (2 * 5) (stage1 ext_ref mod_ref 3600 (mesh_two 1)).2.1
      (stage1 ext_ref mod_ref 3600 (mesh_two 1)).2.2 (run_x ext_ref mod_ref 3600 (mesh_two 1)) ∧
    is_solution 2 (stage3 ext_ref (mesh2_of ext_ref mod_ref 3600 (mesh_two 1))).1
      (stage3 ext_ref (mesh2_of ext_ref mod_ref 3600 (mesh_two 1))).2
      (fun k => (run_dSdt ext_ref 2 (mesh2_of ext_ref mod_ref 3600 (mesh_two 1)) k).getD 0) ∧
    ∃ v, run_vars ext_ref mod_ref 3600 (mesh_two 1) 0 = some v ∧
      v.Qsalt = 0 ∧ 0 < v.Qsusp ∧ v.Qsubl < 0 ∧ v.drift_mass < 0 := by
  have h : (is_solution (2 * 5) (stage1 ext_ref mod_ref 3600 (mesh_two 1)).2.1
        (stage1 ext_ref mod_ref 3600 (mesh_two 1)).2.2
        (run_x ext_ref mod_ref 3600 (mesh_two 1)) ∧
      is_solution 2 (stage3 ext_ref (mesh2_of ext_ref mod_ref 3600 (mesh_two 1))).1
        (stage3 ext_ref (mesh2_of ext_ref mod_ref 3600 (mesh_two 1))).2
        (fun k => (run_dSdt ext_ref 2 (mesh2_of ext_ref mod_ref 3600 (mesh_two 1)) k).getD 0)) ∧
      (fun v : Vars => v.Qsalt = 0 ∧ 0 < v.Qsusp ∧ v.Qsubl < 0 ∧ v.drift_mass < 0)
        (run_face4 3600 (run_dSdt ext_ref (mesh_two 1).length
          (mesh2_of ext_ref mod_ref 3600 (mesh_two 1)))
          (face2_out ext_ref mod_ref (mesh_two 1).length (run_x ext_ref mod_ref 3600 (mesh_two 1))
            (face1_out ext_ref mod_ref 3600 (bare_face 1))) 0).vars := by
    unfold is_solution run_dSdt
    decide!
  exact ⟨rfl, h.1.1, h.1.2, _,
    run_vars_eq ext_ref mod_ref 3600 (mesh_two 1) run_roots_ok_two 0 (bare_face 1) rfl, h.2⟩

/-- C5 (amended): if `swe(f) = 0` (or NaN) then `Qsalt(f) = 0` whatever the neighbours hold;
and when `swe` is `0` on every face of the mesh and both solves return zero, then also
`Qsusp(f) = 0`, `Qsubl(f) = 0` and `drift_mass(f) = 0`. -/
theorem C5_bare_face (ext : Ext) (mod : Module) (dt : ℚ) (mesh : Mesh)
    (hroot : run_roots_ok ext mod dt mesh)
    (hcell : ∀ g ∈ mesh, g.face.cell_id < mesh.length)
    (i : Nat) (f : MFace) (hf : mesh[i]? = some f) (hswe : swe_of f.vars = 0) :
    (∃ v, run_vars ext mod dt mesh i = some v ∧ v.Qsalt = 0) ∧
    ((∀ g ∈ mesh, swe_of g.vars = 0) →
      (∀ k, k < mesh.length * mod.nLayer → run_x ext mod dt mesh k = 0) →
      (∀ k, k < mesh.length → run_dSdt ext mesh.length (mesh2_of ext mod dt mesh) k = some 0) →
      ∃ v, run_vars ext mod dt mesh i = some v ∧
        v.Qsalt = 0 ∧ v.Qsusp = 0 ∧ v.Qsubl = 0 ∧ v.drift_mass = 0) := by
  have hnd : ∀ g : MFace, swe_of g.vars = 0 →
      face_salt ext dt g = { c_salt := 0, Qsalt := 0, is_drifting := 0, Qsusp_pbsm := 0 } := by
    intro g hg
    apply face_salt_not_drifting
    unfold swe_of at hg
    cases hs : g.vars.swe with
    | none => exact Or.inr (Or.inr rfl)
    | some v =>
      rw [hs] at hg
      simp only [Option.getD_some] at hg
      rw [hg]
      exact Or.inr (Or.inl rfl)
  constructor
  · refine ⟨_, run_vars_eq ext mod dt mesh hroot i f hf, ?_⟩
    show (face1_out ext mod dt f).vars.Qsalt = 0
    rw [(face1_out_salt ext mod dt f).2.2, hnd f hswe]
  · intro hall hx hd
    obtain ⟨v, h1, h2, h3, h4, h5, _⟩ := (run_quiescent ext mod dt mesh hroot hcell
      (fun g hg => by rw [hnd g (hall g hg)]; exact ⟨rfl, rfl⟩) hx hd).2.2 i f hf
    exact ⟨v, h1, h2, h3, h4, h5⟩

set_option maxRecDepth 100000 in
theorem C5_bare_face_witness :
    (∃ v, run_vars ext_ref mod_ref 3600 (mesh_two 1) 0 = some v ∧ v.Qsalt = 0) ∧
    ((∀ g ∈ mesh_two 1, swe_of g.vars = 0) →
      (∀ k, k < (mesh_two 1).length * mod_ref.nLayer →
        run_x ext_ref mod_ref 3600 (mesh_two 1) k = 0) →
      (∀ k, k < (mesh_two 1).length → run_dSdt ext_ref (mesh_two 1).length
        (mesh2_of ext_ref mod_ref 3600 (mesh_two 1)) k = some 0) →
      ∃ v, run_vars ext_ref mod_ref 3600 (mesh_two 1) 0 = some v ∧
        v.Qsalt = 0 ∧ v.Qsusp = 0 ∧ v.Qsubl = 0 ∧ v.drift_mass = 0) :=
  C5_bare_face ext_ref mod_ref 3600 (mesh_two 1) run_roots_ok_two (by decide!) 0 (bare_face 1)
    rfl rfl

set_option maxRecDepth 100000 in
/-- C10 (counterexample): on the two-triangle mesh, with both solves returning exact solutions
before and after the negation, negating every lateral edge normal changes `Qsusp`, `Qsubl`
and the absolute value of `drift_mass` of face 0. -/
theorem C10_counterexample :
    is_solution (2 * 5) (stage1 ext_ref mod_ref 3600 (mesh_two 1)).2.1
      (stage1 ext_ref mod_ref 3600 (mesh_two 1)).2.2 (run_x ext_ref mod_ref 3600 (mesh_two 1)) ∧
    is_solution 2 (stage3 ext_ref (mesh2_of ext_ref mod_ref 3600 (mesh_two 1))).1
      (stage3 ext_ref (mesh2_of ext_ref mod_ref 3600 (mesh_two 1))).2
      (fun k => (run_dSdt ext_ref 2 (mesh2_of ext_ref mod_ref 3600 (mesh_two 1)) k).getD 0) ∧
    is_solution (2 * 5) (stage1 ext_ref mod_ref 3600 (mesh_two (-1))).2.1
      (stage1 ext_ref mod_ref 3600 (mesh_two (-1))).2.2
      (run_x ext_ref mod_ref 3600 (mesh_two (-1))) ∧
    is_solution 2 (stage3 ext_ref (mesh2_of ext_ref mod_ref 3600 (mesh_two (-1)))).1
      (stage3 ext_ref (mesh2_of ext_ref mod_ref 3600 (mesh_two (-1)))).2
      (fun k => (run_dSdt ext_ref 2 (mesh2_of ext_ref mod_ref 3600 (mesh_two (-1))) k).getD 0) ∧
    ∃ v w, run_vars ext_ref mod_ref 3600 (mesh_two 1) 0 = some v ∧
      run_vars ext_ref mod_ref 3600 (mesh_two (-1)) 0 = some w ∧
      v.Qsusp ≠ w.Qsusp ∧ v.Qsubl ≠ w.Qsubl ∧ |v.drift_mass| ≠ |w.drift_mass| := by
  have h : (is_solution (2 * 5) (stage1 ext_ref mod_ref 3600 (mesh_two 1)).2.1
        (stage1 ext_ref mod_ref 3600 (mesh_two 1)).2.2
        (run_x ext_ref mod_ref 3600 (mesh_two 1)) ∧
      is_solution 2 (stage3 ext_ref (mesh2_of ext_ref mod_ref 3600 (mesh_two 1))).1
        (stage3 ext_ref (mesh2_of ext_ref mod_ref 3600 (mesh_two 1))).2
        (fun k => (run_dSdt ext_ref 2 (mesh2_of ext_ref mod_ref 3600 (mesh_two 1)) k).getD 0) ∧
      is_solution (2 * 5) (stage1 ext_ref mod_ref 3600 (mesh_two (-1))).2.1
        (stage1 ext_ref mod_ref 3600 (mesh_two (-1))).2.2
        (run_x ext_ref mod_ref 3600 (mesh_two (-1))) ∧
      is_solution 2 (stage3 ext_ref (mesh2_of ext_ref mod_ref 3600 (mesh_two (-1)))).1
        (stage3 ext_ref (mesh2_of ext_ref mod_ref 3600 (mesh_two (-1)))).2
        (fun k => (run_dSdt ext_ref 2 (mesh2_of ext_ref mod_ref 3600 (mesh_two (-1))) k).getD 0)) ∧
      (fun v w : Vars => v.Qsusp ≠ w.Qsusp ∧ v.Qsubl ≠ w.Qsubl ∧ |v.drift_mass| ≠ |w.drift_mass|)
        (run_face4 3600 (run_dSdt ext_ref (mesh_two 1).length
          (mesh2_of ext_ref mod_ref 3600 (mesh_two 1)))
          (face2_out ext_ref mod_ref (mesh_two 1).length (run_x ext_ref mod_ref 3600 (mesh_two 1))
            (face1_out ext_ref mod_ref 3600 (bare_face 1))) 0).vars
        (run_face4 3600 (run_dSdt ext_ref (mesh_two (-1)).length
          (mesh2_of ext_ref mod_ref 3600 (mesh_two (-1))))
          (face2_out ext_ref mod_ref (mesh_two (-1)).length
            (run_x ext_ref mod_ref 3600 (mesh_two (-1)))
            (face1_out ext_ref mod_ref 3600 (bare_face (-1)))) 0).vars := by
    unfold is_solution run_dSdt
    decide!
  exact ⟨h.1.1, h.1.2.1, h.1.2.2.1, h.1.2.2.2, _, _,
    run_vars_eq ext_ref mod_ref 3600 (mesh_two 1) run_roots_ok_two 0 (bare_face 1) rfl,
    run_vars_eq ext_ref mod_ref 3600 (mesh_two (-1)) run_roots_ok_two_neg 0 (bare_face (-1)) rfl,
    h.2⟩

/-! ## Negation of the lateral normals (claim C10) -/

theorem dot_neg (u a : Vec3) : dot u a.neg = -dot u a := by
  simp only [dot, Vec3.neg]; ring

theorem init_face_negate (h : ℚ) (face : Face) (vars : Vars) :
    init_face h (negate_normals face) vars = negate_mface (init_face h face vars) := by
  simp only [init_face, negate_mface, negate_normals, init_is_edge, Vec3.neg]
  congr 2
  funext j
  by_cases h0 : j = 0
  · subst h0; simp
  by_cases h1 : j = 1
  · subst h1; simp
  by_cases h2 : j = 2
  · subst h2; simp
  have h3 : ¬ j < 3 := by omega
  simp [h0, h1, h2, h3]

theorem init_face_neg_ok (h : ℚ) (face : Face) (vars : Vars)
    (hi : isolated face) (hc : closes_up face) : neg_ok (init_face h face vars) := by
  obtain ⟨i0, i1, i2⟩ := hi
  obtain ⟨c1, c2⟩ := hc
  refine ⟨⟨?_, ?_, ?_⟩, ⟨rfl, rfl, rfl⟩, ⟨c1, c2⟩, ?_, ?_⟩
  · simp [init_face, i0]
  · simp [init_face, i1]
  · simp [init_face, i2]
  · simp only [init_face]
    norm_num
    linear_combination h * c1
  · simp only [init_face]
    norm_num
    linear_combination h * c2

theorem saltation_closed (ext : Ext) (dt : ℚ) (face : Face) (m : Nat → Vec3) (uvw : Vec3)
    (u2 u10 ustar hs z0 uss swe : ℚ)
    (hS : face.edge_length 0 * dot uvw (m 0) + face.edge_length 1 * dot uvw (m 1)
      + face.edge_length 2 * dot uvw (m 2) = 0) :
    saltation ext dt face m uvw u2 u10 ustar hs z0 uss swe =
      if ustar > uss ∧ swe > 0 then
        { c_salt := c_salt_unlimited ustar uss,
          Qsalt := c_salt_unlimited ustar uss * uhs_of ext u2 hs z0 * hs,
          is_drifting := 1, Qsusp_pbsm := ext.pow u10 (413 / 100) / 674100 }
      else { c_salt := 0, Qsalt := 0, is_drifting := 0, Qsusp_pbsm := 0 } := by
  unfold saltation
  by_cases hd : ustar > uss ∧ swe > 0
  · simp only [hd, and_self, if_true]
    have hs0 : ¬ salt_of face m uvw (c_salt_unlimited ustar uss * uhs_of ext u2 hs z0 * hs) dt
        > swe := by
      rw [salt_of_eq, hS]
      simp only [mul_zero, zero_div]
      exact not_lt.mpr (le_of_lt hd.2)
    rw [if_neg hs0]
  · simp only [hd, if_false]

theorem edge_flux_closed (f : MFace) (hok : neg_ok f) (uvw : Vec3) :
    f.face.edge_length 0 * dot uvw (f.d.m 0) + f.face.edge_length 1 * dot uvw (f.d.m 1)
      + f.face.edge_length 2 * dot uvw (f.d.m 2) = 0 := by
  obtain ⟨_, ⟨z0, z1, z2⟩, ⟨c1, c2⟩, _⟩ := hok
  simp only [dot, z0, z1, z2, mul_zero, add_zero]
  linear_combination uvw.x * c1 + uvw.y * c2

theorem side_flux_closed (f : MFace) (hok : neg_ok f) (uvw : Vec3) :
    f.d.A 0 * dot uvw (f.d.m 0) + f.d.A 1 * dot uvw (f.d.m 1) + f.d.A 2 * dot uvw (f.d.m 2)
      = 0 := by
  obtain ⟨_, ⟨z0, z1, z2⟩, _, ⟨c1, c2⟩⟩ := hok
  simp only [dot, z0, z1, z2, mul_zero, add_zero]
  linear_combination uvw.x * c1 + uvw.y * c2

theorem negate_mface_m_lt (f : MFace) (j : Nat) (hj : j < 3) :
    (negate_mface f).d.m j = (f.d.m j).neg := by
  simp [negate_mface, hj]

theorem negate_mface_m_ge (f : MFace) (j : Nat) (hj : ¬ j < 3) :
    (negate_mface f).d.m j = f.d.m j := by
  simp [negate_mface, hj]

theorem face_salt_negate (ext : Ext) (dt : ℚ) (f : MFace) (hok : neg_ok f) :
    face_salt ext dt (negate_mface f) = face_salt ext dt f := by
  have h1 := edge_flux_closed f hok (wind_vector ext f.vars.vw_dir)
  have h2 : (negate_mface f).face.edge_length 0
        * dot (wind_vector ext f.vars.vw_dir) ((negate_mface f).d.m 0)
      + (negate_mface f).face.edge_length 1
        * dot (wind_vector ext f.vars.vw_dir) ((negate_mface f).d.m 1)
      + (negate_mface f).face.edge_length 2
        * dot (wind_vector ext f.vars.vw_dir) ((negate_mface f).d.m 2) = 0 := by
    rw [negate_mface_m_lt f 0 (by norm_num), negate_mface_m_lt f 1 (by norm_num),
      negate_mface_m_lt f 2 (by norm_num), dot_neg, dot_neg, dot_neg]
    show f.face.edge_length 0 * _ + f.face.edge_length 1 * _ + f.face.edge_length 2 * _ = 0
    linear_combination -h1
  unfold face_salt
  rw [saltation_closed ext dt f.face _ _ _ _ _ _ _ _ _ h1]
  exact saltation_closed ext dt (negate_mface f).face _ _ _ _ _ _ _ _ _ h2

theorem SpRow.add_add (r : SpRow) (i : Nat) (a b : ℚ) :
    (r.add i a).add i b = r.add i (a + b) := by
  funext k
  by_cases hk : k = i
  · simp [SpRow.add, hk, add_assoc]
  · simp [SpRow.add, hk]

theorem lateral_step_iso (mesh : Mesh) (face : Face) (d : Data) (ntri z idx : Nat)
    (alpha udotm : Nat → ℚ) (row : SpRow) (j : Nat)
    (hn : d.face_neigh j = false) (ha : alpha j = 0) :
    lateral_step mesh face d ntri z idx alpha udotm row j
      = row.add idx (lateral_gain d udotm j) := by
  unfold lateral_step lateral_gain
  simp only [hn, ha, Bool.false_eq_true, if_false, neg_zero]
  split_ifs <;> rfl

theorem lateral_fold_iso (mesh : Mesh) (face : Face) (d : Data) (ntri z idx : Nat)
    (alpha udotm : Nat → ℚ) (row : SpRow)
    (hn : d.face_neigh 0 = false ∧ d.face_neigh 1 = false ∧ d.face_neigh 2 = false)
    (ha : alpha 0 = 0 ∧ alpha 1 = 0 ∧ alpha 2 = 0) :
    [0, 1, 2].foldl (lateral_step mesh face d ntri z idx alpha udotm) row
      = row.add idx (lateral_gain d udotm 0 + lateral_gain d udotm 1 + lateral_gain d udotm 2) := by
  simp only [List.foldl_cons, List.foldl_nil]
  rw [lateral_step_iso _ _ _ _ _ _ _ _ _ 0 hn.1 ha.1, lateral_step_iso _ _ _ _ _ _ _ _ _ 1 hn.2.1 ha.2.1,
    lateral_step_iso _ _ _ _ _ _ _ _ _ 2 hn.2.2 ha.2.2, SpRow.add_add, SpRow.add_add, add_assoc]

theorem lateral_gain_neg (A u : ℚ) :
    (if -u > 0 then -A * -u else 0) = (if u > 0 then -A * u else 0) + A * u := by
  rcases lt_trichotomy u 0 with h | h | h
  · have h1 : -u > 0 := by linarith
    have h2 : ¬ u > 0 := by linarith
    simp only [h1, h2, if_true, if_false]; ring
  · subst h; simp
  · have h1 : ¬ -u > 0 := by linarith
    simp only [h1, h, if_true, if_false]; ring

theorem vertical_advective_congr (mod : Module) (d d1 : Data) (ntri z cell_id : Nat)
    (K alpha udotm udotm1 : Nat → ℚ) (c_salt : ℚ) (row : SpRow) (b : Vec)
    (hA3 : d1.A 3 = d.A 3) (hA4 : d1.A 4 = d.A 4)
    (h3 : udotm1 3 = udotm 3) (h4 : udotm1 4 = udotm 4) :
    vertical_advective mod d1 ntri z cell_id K alpha udotm1 c_salt row b
      = vertical_advective mod d ntri z cell_id K alpha udotm c_salt row b := by
  unfold vertical_advective
  simp only [hA3, hA4, h3, h4]

theorem vertical_diffusive_congr (mod : Module) (d d1 : Data) (ntri z cell_id : Nat)
    (K alpha : Nat → ℚ) (c_salt : ℚ) (row : SpRow) (b : Vec)
    (hA4 : d1.A 4 = d.A 4) :
    vertical_diffusive mod d1 ntri z cell_id K alpha c_salt row b
      = vertical_diffusive mod d ntri z cell_id K alpha c_salt row b := by
  unfold vertical_diffusive
  simp only [hA4]

theorem layer_body_negate (ext : Ext) (mod : Module) (ntri : Nat) (mesh mesh1 : Mesh)
    (f : MFace) (hok : neg_ok f) (u2 ustar c_salt : ℚ) (z : Nat) (st : LayerSt) :
    layer_body ext mod ntri mesh1 (negate_mface f).face (negate_mface f).d u2 ustar c_salt z st
      = layer_body ext mod ntri mesh f.face f.d u2 ustar c_salt z st := by
  have hn := hok.1
  unfold layer_body
  simp only
  have hA : ∀ j, (negate_mface f).d.A j = f.d.A j := fun _ => rfl
  have hhs : (negate_mface f).d.hs = f.d.hs := rfl
  have hz0 : (negate_mface f).d.z0 = f.d.z0 := rfl
  have hcell : (negate_mface f).face.cell_id = f.face.cell_id := rfl
  simp only [hA, hhs, hz0, hcell]
  have ha : ∀ (a3 a4 : ℚ), (arrSet (arrSet (fun _ => (0 : ℚ)) 3 a3) 4 a4) 0 = 0
      ∧ (arrSet (arrSet (fun _ => (0 : ℚ)) 3 a3) 4 a4) 1 = 0
      ∧ (arrSet (arrSet (fun _ => (0 : ℚ)) 3 a3) 4 a4) 2 = 0 := by
    intro a3 a4
    simp [arrSet]
  rw [lateral_fold_iso mesh1 _ (negate_mface f).d _ _ _ _ _ _ hn (ha _ _),
    lateral_fold_iso mesh _ f.d _ _ _ _ _ _ hn (ha _ _)]
  set uvw := layer_wind ext mod (u_z_of ext u2 (cz_of mod f.d.hs z) f.d.z0) st.uvw with huvw
  have hg : lateral_gain (negate_mface f).d (fun j => dot uvw ((negate_mface f).d.m j)) 0
        + lateral_gain (negate_mface f).d (fun j => dot uvw ((negate_mface f).d.m j)) 1
        + lateral_gain (negate_mface f).d (fun j => dot uvw ((negate_mface f).d.m j)) 2
      = lateral_gain f.d (fun j => dot uvw (f.d.m j)) 0
        + lateral_gain f.d (fun j => dot uvw (f.d.m j)) 1
        + lateral_gain f.d (fun j => dot uvw (f.d.m j)) 2 := by
    have hs := side_flux_closed f hok uvw
    simp only [lateral_gain, hA, negate_mface_m_lt f 0 (by norm_num),
      negate_mface_m_lt f 1 (by norm_num), negate_mface_m_lt f 2 (by norm_num), dot_neg,
      lateral_gain_neg]
    linear_combination hs
  rw [hg]
  have h3 : (fun j => dot uvw ((negate_mface f).d.m j)) 3 = (fun j => dot uvw (f.d.m j)) 3 := by
    simp only [negate_mface_m_ge f 3 (by norm_num)]
  have h4 : (fun j => dot uvw ((negate_mface f).d.m j)) 4 = (fun j => dot uvw (f.d.m j)) 4 := by
    simp only [negate_mface_m_ge f 4 (by norm_num)]
  rw [vertical_advective_congr mod f.d (negate_mface f).d _ _ _ _ _ (fun j => dot uvw (f.d.m j))
    (fun j => dot uvw ((negate_mface f).d.m j)) _ _ _ rfl rfl h3 h4,
    vertical_diffusive_congr mod f.d (negate_mface f).d _ _ _ _ _ _ _ _ rfl]

theorem neg_ok_negate (f : MFace) (hok : neg_ok f) : neg_ok (negate_mface f) := by
  obtain ⟨hn, ⟨z0, z1, z2⟩, ⟨c1, c2⟩, ⟨a1, a2⟩⟩ := hok
  refine ⟨hn, ⟨?_, ?_, ?_⟩, ⟨?_, ?_⟩, ⟨?_, ?_⟩⟩
  · rw [negate_mface_m_lt f 0 (by norm_num)]; simp [Vec3.neg, z0]
  · rw [negate_mface_m_lt f 1 (by norm_num)]; simp [Vec3.neg, z1]
  · rw [negate_mface_m_lt f 2 (by norm_num)]; simp [Vec3.neg, z2]
  · rw [negate_mface_m_lt f 0 (by norm_num), negate_mface_m_lt f 1 (by norm_num),
      negate_mface_m_lt f 2 (by norm_num)]
    show f.face.edge_length 0 * -(f.d.m 0).x + f.face.edge_length 1 * -(f.d.m 1).x
      + f.face.edge_length 2 * -(f.d.m 2).x = 0
    linear_combination -c1
  · rw [negate_mface_m_lt f 0 (by norm_num), negate_mface_m_lt f 1 (by norm_num),
      negate_mface_m_lt f 2 (by norm_num)]
    show f.face.edge_length 0 * -(f.d.m 0).y + f.face.edge_length 1 * -(f.d.m 1).y
      + f.face.edge_length 2 * -(f.d.m 2).y = 0
    linear_combination -c2
  · rw [negate_mface_m_lt f 0 (by norm_num), negate_mface_m_lt f 1 (by norm_num),
      negate_mface_m_lt f 2 (by norm_num)]
    show f.d.A 0 * -(f.d.m 0).x + f.d.A 1 * -(f.d.m 1).x + f.d.A 2 * -(f.d.m 2).x = 0
    linear_combination -a1
  · rw [negate_mface_m_lt f 0 (by norm_num), negate_mface_m_lt f 1 (by norm_num),
      negate_mface_m_lt f 2 (by norm_num)]
    show f.d.A 0 * -(f.d.m 0).y + f.d.A 1 * -(f.d.m 1).y + f.d.A 2 * -(f.d.m 2).y = 0
    linear_combination -a2

theorem run_face1_negate (ext : Ext) (mod : Module) (dt : ℚ) (ntri : Nat) (mesh mesh1 : Mesh)
    (f : MFace) (hok : neg_ok f) (C : SpMat) (b : Vec) :
    run_face1 ext mod dt ntri mesh1 (negate_mface f) C b
      = (negate_mface (run_face1 ext mod dt ntri mesh f C b).1,
         (run_face1 ext mod dt ntri mesh f C b).2.1, (run_face1 ext mod dt ntri mesh f C b).2.2) := by
  have hok1 : neg_ok { face := f.face, vars := f.vars, d := data1 ext f } := hok
  have hbody : layer_body ext mod ntri mesh1 (negate_mface f).face (data1 ext (negate_mface f))
        f.vars.U_2m_above_srf (ustar_of ext f.vars.U_2m_above_srf) (face_salt ext dt f).c_salt
      = layer_body ext mod ntri mesh f.face (data1 ext f)
        f.vars.U_2m_above_srf (ustar_of ext f.vars.U_2m_above_srf) (face_salt ext dt f).c_salt := by
    funext z st
    exact layer_body_negate ext mod ntri mesh mesh1
      { face := f.face, vars := f.vars, d := data1 ext f } hok1 _ _ _ z st
  have hsv : salt_vars ext dt (negate_mface f) = salt_vars ext dt f := by
    simp only [salt_vars, face_salt_negate ext dt f hok]
    rfl
  unfold run_face1
  simp only [face_salt_negate ext dt f hok, hsv]
  have hU : (negate_mface f).vars.U_2m_above_srf = f.vars.U_2m_above_srf := rfl
  have hW : (negate_mface f).vars.vw_dir = f.vars.vw_dir := rfl
  rw [hU, hW, hbody]
  rfl

theorem loop1_negate (ext : Ext) (mod : Module) (dt : ℚ) (ntri : Nat) (mesh mesh1 : Mesh) :
    ∀ (fs : List MFace) (C : SpMat) (b : Vec), (∀ f ∈ fs, neg_ok f) →
      loop1 ext mod dt ntri mesh1 (fs.map negate_mface) C b
        = ((loop1 ext mod dt ntri mesh fs C b).1.map negate_mface,
           (loop1 ext mod dt ntri mesh fs C b).2.1, (loop1 ext mod dt ntri mesh fs C b).2.2) := by
  intro fs
  induction fs with
  | nil => intro C b _; rfl
  | cons f fs ih =>
    intro C b h
    simp only [List.map_cons, loop1]
    rw [run_face1_negate ext mod dt ntri mesh mesh1 f (h f (List.mem_cons_self _ _))]
    simp only
    rw [ih _ _ (fun g hg => h g (List.mem_cons_of_mem _ hg))]

theorem run_face2_negate (ext : Ext) (mod : Module) (ntri : Nat) (x : Vec) (f : MFace) :
    run_face2 ext mod ntri x (negate_mface f) = (run_face2 ext mod ntri x f).map negate_mface := by
  have hp : post_layer ext mod ntri (negate_mface f).face (negate_mface f).d
      = post_layer ext mod ntri f.face f.d := rfl
  unfold run_face2
  simp only [hp]
  have hv : (negate_mface f).vars = f.vars := rfl
  have he : (negate_mface f).face.elev = f.face.elev := rfl
  rw [hv, he]
  cases post_loop (post_layer ext mod ntri f.face f.d x f.vars.U_2m_above_srf
      (f.vars.t + 27315 / 100)
      (633 / 1000 * (f.vars.rh / 100 * ext.saturatedVapourPressure (f.vars.t + 27315 / 100) / 1000)
        / (ext.stdAirPressure f.face.elev / 1000))
      (ext.stdAirPressure f.face.elev / 1000)) mod.nLayer 0
      { Qsusp := 0, Qsubl := 0, vars := f.vars } with
  | none => rfl
  | some st => rfl

theorem loop2_negate (ext : Ext) (mod : Module) (ntri : Nat) (x : Vec) :
    ∀ fs : List MFace, loop2 ext mod ntri x (fs.map negate_mface)
      = (loop2 ext mod ntri x fs).map (List.map negate_mface) := by
  intro fs
  induction fs with
  | nil => rfl
  | cons f fs ih =>
    simp only [List.map_cons, loop2, run_face2_negate, ih]
    cases run_face2 ext mod ntri x f with
    | none => rfl
    | some f1 =>
      cases loop2 ext mod ntri x fs with
      | none => rfl
      | some fs1 => rfl

theorem div_step_iso (ext : Ext) (mesh : Mesh) (f : MFace) (i : Nat) (udotm : Nat → ℚ)
    (acc : SpRow × ℚ) (j : Nat) (hn : f.d.face_neigh j = false) :
    div_step ext mesh f i udotm acc j
      = (acc.1.add i (eps / (1 * f.face.area) - 1),
         acc.2 + f.face.edge_length j * ((0 + f.vars.Qsalt) / 2 + (0 + f.vars.Qsusp) / 2)
           * udotm j / f.face.area) := by
  unfold div_step
  simp only [hn, Bool.false_eq_true, if_false]

/-- The row the third loop body leaves for a face without neighbours, and its unchanged
right-hand side entry. -/
theorem run_face3_iso (ext : Ext) (mesh : Mesh) (f : MFace) (i : Nat) (A : SpMat) (bb : Vec)
    (hok : neg_ok f) :
    run_face3 ext mesh f i A bb
      = (A.setRow i (((((A i).init0 i).add i (eps / (1 * f.face.area) - 1)).add i
            (eps / (1 * f.face.area) - 1)).add i (eps / (1 * f.face.area) - 1)),
         bb.set i (bb i)) := by
  have hs := edge_flux_closed f hok (wind_vector ext f.vars.vw_dir)
  unfold run_face3
  simp only [List.foldl_cons, List.foldl_nil]
  rw [div_step_iso ext mesh f i _ _ 0 hok.1.1, div_step_iso ext mesh f i _ _ 1 hok.1.2.1,
    div_step_iso ext mesh f i _ _ 2 hok.1.2.2]
  simp only
  congr 2
  have : f.face.edge_length 0 * ((0 + f.vars.Qsalt) / 2 + (0 + f.vars.Qsusp) / 2)
          * dot (wind_vector ext f.vars.vw_dir) (f.d.m 0) / f.face.area
        + f.face.edge_length 1 * ((0 + f.vars.Qsalt) / 2 + (0 + f.vars.Qsusp) / 2)
          * dot (wind_vector ext f.vars.vw_dir) (f.d.m 1) / f.face.area
        + f.face.edge_length 2 * ((0 + f.vars.Qsalt) / 2 + (0 + f.vars.Qsusp) / 2)
          * dot (wind_vector ext f.vars.vw_dir) (f.d.m 2) / f.face.area = 0 := by
    have e : f.face.edge_length 0 * ((0 + f.vars.Qsalt) / 2 + (0 + f.vars.Qsusp) / 2)
          * dot (wind_vector ext f.vars.vw_dir) (f.d.m 0) / f.face.area
        + f.face.edge_length 1 * ((0 + f.vars.Qsalt) / 2 + (0 + f.vars.Qsusp) / 2)
          * dot (wind_vector ext f.vars.vw_dir) (f.d.m 1) / f.face.area
        + f.face.edge_length 2 * ((0 + f.vars.Qsalt) / 2 + (0 + f.vars.Qsusp) / 2)
          * dot (wind_vector ext f.vars.vw_dir) (f.d.m 2) / f.face.area
        = ((0 + f.vars.Qsalt) / 2 + (0 + f.vars.Qsusp) / 2)
          * (f.face.edge_length 0 * dot (wind_vector ext f.vars.vw_dir) (f.d.m 0)
            + f.face.edge_length 1 * dot (wind_vector ext f.vars.vw_dir) (f.d.m 1)
            + f.face.edge_length 2 * dot (wind_vector ext f.vars.vw_dir) (f.d.m 2))
          / f.face.area := by ring
    rw [e, hs]
    simp
  rw [add_assoc, add_assoc, ← add_assoc (f.face.edge_length 0 * _ * _ / _), this, add_zero]

theorem run_face3_negate (ext : Ext) (mesh mesh1 : Mesh) (f : MFace) (i : Nat) (A : SpMat)
    (bb : Vec) (hok : neg_ok f) :
    run_face3 ext mesh1 (negate_mface f) i A bb = run_face3 ext mesh f i A bb := by
  rw [run_face3_iso ext mesh1 (negate_mface f) i A bb (neg_ok_negate f hok),
    run_face3_iso ext mesh f i A bb hok]
  rfl

theorem loop3_negate (ext : Ext) (mesh mesh1 : Mesh) :
    ∀ (fs : List MFace) (i : Nat) (A : SpMat) (bb : Vec), (∀ f ∈ fs, neg_ok f) →
      loop3 ext mesh1 (fs.map negate_mface) i A bb = loop3 ext mesh fs i A bb := by
  intro fs
  induction fs with
  | nil => intro i A bb _; rfl
  | cons f fs ih =>
    intro i A bb h
    simp only [List.map_cons, loop3]
    rw [run_face3_negate ext mesh mesh1 f i A bb (h f (List.mem_cons_self _ _)),
      ih _ _ _ (fun g hg => h g (List.mem_cons_of_mem _ hg))]

theorem loop4_negate (dt : ℚ) (dSdt : Nat → Option ℚ) :
    ∀ (fs : List MFace) (i : Nat),
      loop4 dt dSdt (fs.map negate_mface) i = (loop4 dt dSdt fs i).map negate_mface := by
  intro fs
  induction fs with
  | nil => intro i; rfl
  | cons f fs ih =>
    intro i
    simp only [List.map_cons, loop4, ih]
    rfl

theorem run_face2_keeps (ext : Ext) (mod : Module) (ntri : Nat) (x : Vec) (f f2 : MFace)
    (h : run_face2 ext mod ntri x f = some f2) : f2.face = f.face ∧ f2.d = f.d := by
  simp only [run_face2] at h
  split at h
  · simp at h
  · simp only [Option.some.injEq] at h
    rw [← h]
    exact ⟨rfl, rfl⟩

theorem neg_ok_congr (f g : MFace) (h1 : g.face = f.face) (h2 : g.d = f.d) (hok : neg_ok f) :
    neg_ok g := by
  unfold neg_ok at hok ⊢
  rw [h1, h2]
  exact hok

theorem loop2_neg_ok (ext : Ext) (mod : Module) (ntri : Nat) (x : Vec) :
    ∀ (fs fs2 : List MFace), loop2 ext mod ntri x fs = some fs2 → (∀ f ∈ fs, neg_ok f) →
      ∀ g ∈ fs2, neg_ok g := by
  intro fs
  induction fs with
  | nil =>
    intro fs2 h _ g hg
    simp only [loop2, Option.some.injEq] at h
    rw [← h] at hg
    simp at hg
  | cons f fs ih =>
    intro fs2 h hok g hg
    simp only [loop2] at h
    cases h1 : run_face2 ext mod ntri x f with
    | none => simp [h1] at h
    | some f1 =>
      simp only [h1] at h
      cases h2 : loop2 ext mod ntri x fs with
      | none => simp [h2] at h
      | some fs1 =>
        simp only [h2, Option.some.injEq] at h
        rw [← h] at hg
        rcases List.mem_cons.mp hg with rfl | hmem
        · obtain ⟨e1, e2⟩ := run_face2_keeps ext mod ntri x f g h1
          exact neg_ok_congr f g e1 e2 (hok f (List.mem_cons_self _ _))
        · exact ih fs1 h2 (fun q hq => hok q (List.mem_cons_of_mem _ hq)) g hmem

theorem face1_out_neg_ok (ext : Ext) (mod : Module) (dt : ℚ) (f : MFace) (hok : neg_ok f) :
    neg_ok (face1_out ext mod dt f) := hok

/-- Negating the lateral normals of a mesh of faces without neighbours whose edges close up
commutes with `run`. -/
theorem run_negate (ext : Ext) (mod : Module) (dt : ℚ) (mesh : Mesh)
    (hok : ∀ f ∈ mesh, neg_ok f) :
    run ext mod dt (mesh.map negate_mface) = (run ext mod dt mesh).map (List.map negate_mface) := by
  have h1 : stage1 ext mod dt (mesh.map negate_mface)
      = ((stage1 ext mod dt mesh).1.map negate_mface, (stage1 ext mod dt mesh).2.1,
         (stage1 ext mod dt mesh).2.2) := by
    unfold stage1
    rw [List.length_map]
    exact loop1_negate ext mod dt mesh.length mesh (mesh.map negate_mface) mesh _ _ hok
  have hx : run_x ext mod dt (mesh.map negate_mface) = run_x ext mod dt mesh := by
    unfold run_x
    simp only [h1, List.length_map]
  have h2 : stage2 ext mod dt (mesh.map negate_mface)
      = (stage2 ext mod dt mesh).map (List.map negate_mface) := by
    unfold stage2
    rw [hx, h1, List.length_map]
    exact loop2_negate ext mod mesh.length _ _
  unfold run
  rw [h2, List.length_map]
  cases hs : stage2 ext mod dt mesh with
  | none => rfl
  | some mesh2 =>
    have hok2 : ∀ g ∈ mesh2, neg_ok g := by
      apply loop2_neg_ok ext mod mesh.length (run_x ext mod dt mesh) _ mesh2 hs
      intro g hg
      rw [stage1, loop1_out] at hg
      obtain ⟨f, hf, rfl⟩ := List.mem_map.mp hg
      exact face1_out_neg_ok ext mod dt f (hok f hf)
    have h3 : stage3 ext (mesh2.map negate_mface) = stage3 ext mesh2 := by
      unfold stage3
      exact loop3_negate ext mesh2 (mesh2.map negate_mface) mesh2 0 _ _ hok2
    simp only [Option.map_some', h3, loop4_negate]

theorem run_vars_negate (ext : Ext) (mod : Module) (dt : ℚ) (mesh : Mesh)
    (hok : ∀ f ∈ mesh, neg_ok f) (i : Nat) :
    run_vars ext mod dt (mesh.map negate_mface) i = run_vars ext mod dt mesh i := by
  unfold run_vars
  rw [run_negate ext mod dt mesh hok]
  cases run ext mod dt mesh with
  | none => rfl
  | some m =>
    simp only [Option.map_some', Option.some_bind, List.getElem?_map, Option.map_map]
    rfl

/-- For a mesh in which no face has a neighbour and the edges of every face close up
(`sum_e edge_length_e * n_e = 0`), replacing every lateral edge normal by its negation before
`init` leaves every variable written by `run` unchanged on every face. -/
theorem negation_isolated_invariant (ext : Ext) (cfg : Config) (domain : List (Face × Vars))
    (mod : Module) (mesh : Mesh) (dt : ℚ)
    (hinit : init cfg domain = Except.ok (mod, mesh))
    (hgeo : ∀ fv ∈ domain, isolated fv.1 ∧ closes_up fv.1) :
    ∃ mesh1, init cfg (domain.map (fun fv => (negate_normals fv.1, fv.2)))
        = Except.ok (mod, mesh1) ∧
      ∀ i, run_vars ext mod dt mesh1 i = run_vars ext mod dt mesh i ∧
        ∀ v, run_vars ext mod dt mesh i = some v →
          ∃ w, run_vars ext mod dt mesh1 i = some w ∧ w.Qsusp = v.Qsusp ∧ w.Qsubl = v.Qsubl ∧
            |w.drift_mass| = |v.drift_mass| := by
  unfold init at hinit ⊢
  simp only at hinit ⊢
  split_ifs at hinit ⊢ with hsv
  simp only [Except.ok.injEq, Prod.mk.injEq] at hinit
  obtain ⟨hmod, hmesh⟩ := hinit
  have hok : ∀ f ∈ mesh, neg_ok f := by
    intro f hf
    rw [← hmesh] at hf
    obtain ⟨fv, hfv, rfl⟩ := List.mem_map.mp hf
    exact init_face_neg_ok _ fv.1 fv.2 (hgeo fv hfv).1 (hgeo fv hfv).2
  refine ⟨mesh.map negate_mface, ?_, ?_⟩
  · rw [hmod, ← hmesh]
    simp only [List.map_map]
    congr 2
    apply List.map_congr_left
    intro fv _
    exact init_face_negate _ fv.1 fv.2
  · intro i
    have e := run_vars_negate ext mod dt mesh hok i
    refine ⟨e, ?_⟩
    intro v hv
    exact ⟨v, by rw [e, hv], rfl, rfl, rfl⟩

theorem init_mesh_eq (u2 : ℚ) (swe : Option ℚ) :
    init cfg_default [(tri_eq, vars_of 0 u2 swe (-10) 70)]
      = Except.ok (mod_ref, mesh_eq u2 swe) := by
  simp [init, cfg_default, mod_ref, mesh_eq, eq_face]

/-! ## Negation of the normals together with the wind (claim C10) -/

theorem dot_flip_neg (u a : Vec3) (ha : a.z = 0) : dot u.flip a.neg = dot u a := by
  simp only [dot, Vec3.flip, Vec3.neg, ha]; ring

theorem dot_flip_vert (u a : Vec3) (hx : a.x = 0) (hy : a.y = 0) : dot u.flip a = dot u a := by
  simp only [dot, Vec3.flip, hx, hy]; ring

theorem wind_vector_rev (ext : Ext) (f : MFace) (hok : rev_ok ext f) :
    wind_vector ext (reverse_mface f).vars.vw_dir = (wind_vector ext f.vars.vw_dir).flip := by
  show wind_vector ext (f.vars.vw_dir + 180) = _
  simp only [wind_vector, hok.1, Vec3.flip]

theorem reverse_m_lt (f : MFace) (j : Nat) (hj : j < 3) :
    (reverse_mface f).d.m j = (f.d.m j).neg := by
  simp [reverse_mface, hj]

theorem reverse_m_ge (f : MFace) (j : Nat) (hj : ¬ j < 3) :
    (reverse_mface f).d.m j = f.d.m j := by
  simp [reverse_mface, hj]

/-- Every normal component of the wind is unchanged by the reversal. -/
theorem udotm_rev (ext : Ext) (f : MFace) (hok : rev_ok ext f) (u : Vec3) :
    dot u.flip ((reverse_mface f).d.m 0) = dot u (f.d.m 0) ∧
    dot u.flip ((reverse_mface f).d.m 1) = dot u (f.d.m 1) ∧
    dot u.flip ((reverse_mface f).d.m 2) = dot u (f.d.m 2) ∧
    dot u.flip ((reverse_mface f).d.m 3) = dot u (f.d.m 3) ∧
    dot u.flip ((reverse_mface f).d.m 4) = dot u (f.d.m 4) := by
  obtain ⟨_, ⟨z0, z1, z2⟩, ⟨x3, y3, x4, y4⟩⟩ := hok
  refine ⟨?_, ?_, ?_, ?_, ?_⟩
  · rw [reverse_m_lt f 0 (by norm_num)]; exact dot_flip_neg u _ z0
  · rw [reverse_m_lt f 1 (by norm_num)]; exact dot_flip_neg u _ z1
  · rw [reverse_m_lt f 2 (by norm_num)]; exact dot_flip_neg u _ z2
  · rw [reverse_m_ge f 3 (by norm_num)]; exact dot_flip_vert u _ x3 y3
  · rw [reverse_m_ge f 4 (by norm_num)]; exact dot_flip_vert u _ x4 y4

theorem saltation_congr (ext : Ext) (dt : ℚ) (face face1 : Face) (m m1 : Nat → Vec3)
    (uvw uvw1 : Vec3) (u2 u10 ustar hs z0 uss swe : ℚ)
    (he : face1.edge_length = face.edge_length) (ha : face1.area = face.area)
    (h0 : dot uvw1 (m1 0) = dot uvw (m 0)) (h1 : dot uvw1 (m1 1) = dot uvw (m 1))
    (h2 : dot uvw1 (m1 2) = dot uvw (m 2)) :
    saltation ext dt face1 m1 uvw1 u2 u10 ustar hs z0 uss swe
      = saltation ext dt face m uvw u2 u10 ustar hs z0 uss swe := by
  unfold saltation salt_of limiter_den
  simp only [List.foldl_cons, List.foldl_nil, he, ha, h0, h1, h2]

theorem face_salt_rev (ext : Ext) (dt : ℚ) (f : MFace) (hok : rev_ok ext f) :
    face_salt ext dt (reverse_mface f) = face_salt ext dt f := by
  obtain ⟨h0, h1, h2, _, _⟩ := udotm_rev ext f hok (wind_vector ext f.vars.vw_dir)
  unfold face_salt
  rw [wind_vector_rev ext f hok]
  exact saltation_congr ext dt f.face (reverse_mface f).face f.d.m (reverse_mface f).d.m _ _
    _ _ _ _ _ _ _ rfl rfl h0 h1 h2

theorem neighbor_face_map (g : MFace → MFace) (mesh : Mesh) (face : Face) (j : Nat) :
    neighbor_face (mesh.map g) face j = (neighbor_face mesh face j).map g := by
  unfold neighbor_face
  cases face.neighbor j with
  | none => rfl
  | some k => simp

theorem neighbor_cell_id_rev (mesh : Mesh) (f : MFace) (j : Nat) :
    neighbor_cell_id (mesh.map reverse_mface) (reverse_mface f).face j
      = neighbor_cell_id mesh f.face j := by
  unfold neighbor_cell_id
  have : neighbor_face (mesh.map reverse_mface) (reverse_mface f).face j
      = (neighbor_face mesh f.face j).map reverse_mface := neighbor_face_map _ mesh _ j
  rw [this]
  cases neighbor_face mesh f.face j with
  | none => rfl
  | some nb => rfl

theorem lateral_step_congr (mesh mesh1 : Mesh) (face face1 : Face) (d d1 : Data)
    (ntri z idx : Nat) (alpha udotm udotm1 : Nat → ℚ) (row : SpRow) (j : Nat)
    (hA : d1.A j = d.A j) (hn : d1.face_neigh j = d.face_neigh j)
    (hc : neighbor_cell_id mesh1 face1 j = neighbor_cell_id mesh face j)
    (hu : udotm1 j = udotm j) :
    lateral_step mesh1 face1 d1 ntri z idx alpha udotm1 row j
      = lateral_step mesh face d ntri z idx alpha udotm row j := by
  unfold lateral_step
  simp only [hA, hn, hc, hu]

theorem layer_wind_flip (ext : Ext) (mod : Module) (u_z : ℚ) (uvw : Vec3)
    (hnorm : ∀ v : Vec3, ext.norm v.flip = ext.norm v) :
    layer_wind ext mod u_z uvw.flip = (layer_wind ext mod u_z uvw).flip := by
  have h := hnorm uvw
  simp only [Vec3.flip] at h
  simp only [layer_wind, Vec3.scale, Vec3.flip, neg_mul, h]

theorem layer_body_rev (ext : Ext) (mod : Module) (ntri : Nat) (mesh : Mesh)
    (f : MFace) (hok : rev_ok ext f) (hnorm : ∀ v : Vec3, ext.norm v.flip = ext.norm v)
    (u2 ustar c_salt : ℚ) (z : Nat) (st : LayerSt) :
    layer_body ext mod ntri (mesh.map reverse_mface) (reverse_mface f).face (reverse_mface f).d
        u2 ustar c_salt z st.rev
      = (layer_body ext mod ntri mesh f.face f.d u2 ustar c_salt z st).rev := by
  unfold layer_body
  simp only
  have hA : ∀ j, (reverse_mface f).d.A j = f.d.A j := fun _ => rfl
  have hhs : (reverse_mface f).d.hs = f.d.hs := rfl
  have hz0 : (reverse_mface f).d.z0 = f.d.z0 := rfl
  have hcell : (reverse_mface f).face.cell_id = f.face.cell_id := rfl
  have huvw : st.rev.uvw = st.uvw.flip := rfl
  have hC : st.rev.C = st.C := rfl
  have hb : st.rev.b = st.b := rfl
  simp only [hA, hhs, hz0, hcell, huvw, hC, hb, layer_wind_flip ext mod _ _ hnorm]
  set uvw := layer_wind ext mod (u_z_of ext u2 (cz_of mod f.d.hs z) f.d.z0) st.uvw with huv
  obtain ⟨h0, h1, h2, h3, h4⟩ := udotm_rev ext f hok uvw
  simp only [List.foldl_cons, List.foldl_nil]
  rw [lateral_step_congr mesh (mesh.map reverse_mface) f.face (reverse_mface f).face f.d
      (reverse_mface f).d _ _ _ _ (fun j => dot uvw (f.d.m j)) _ _ 0 rfl rfl
      (neighbor_cell_id_rev mesh f 0) h0,
    lateral_step_congr mesh (mesh.map reverse_mface) f.face (reverse_mface f).face f.d
      (reverse_mface f).d _ _ _ _ (fun j => dot uvw (f.d.m j)) _ _ 1 rfl rfl
      (neighbor_cell_id_rev mesh f 1) h1,
    lateral_step_congr mesh (mesh.map reverse_mface) f.face (reverse_mface f).face f.d
      (reverse_mface f).d _ _ _ _ (fun j => dot uvw (f.d.m j)) _ _ 2 rfl rfl
      (neighbor_cell_id_rev mesh f 2) h2,
    vertical_advective_congr mod f.d (reverse_mface f).d _ _ _ _ _ (fun j => dot uvw (f.d.m j))
      (fun j => dot uvw.flip ((reverse_mface f).d.m j)) _ _ _ rfl rfl h3 h4,
    vertical_diffusive_congr mod f.d (reverse_mface f).d _ _ _ _ _ _ _ _ rfl]
  rfl

theorem layer_loop_rev (body body1 : Nat → LayerSt → LayerSt)
    (h : ∀ z st, body1 z st.rev = (body z st).rev) :
    ∀ n z st, layer_loop body1 n z st.rev = (layer_loop body n z st).rev := by
  intro n
  induction n with
  | zero => intro z st; rfl
  | succ n ih =>
    intro z st
    simp only [layer_loop]
    rw [h z st, ih]

theorem salt_vars_rev (ext : Ext) (dt : ℚ) (f : MFace) (hok : rev_ok ext f) :
    salt_vars ext dt (reverse_mface f) = reverse_vars (salt_vars ext dt f) := by
  simp only [salt_vars, face_salt_rev ext dt f hok]
  rfl

theorem run_face1_rev (ext : Ext) (mod : Module) (dt : ℚ) (ntri : Nat) (mesh : Mesh)
    (f : MFace) (hok : rev_ok ext f) (hnorm : ∀ v : Vec3, ext.norm v.flip = ext.norm v)
    (C : SpMat) (b : Vec) :
    run_face1 ext mod dt ntri (mesh.map reverse_mface) (reverse_mface f) C b
      = (reverse_mface (run_face1 ext mod dt ntri mesh f C b).1,
         (run_face1 ext mod dt ntri mesh f C b).2.1, (run_face1 ext mod dt ntri mesh f C b).2.2) := by
  have hok1 : rev_ok ext { face := f.face, vars := f.vars, d := data1 ext f } := hok
  have hbody : ∀ z st,
      layer_body ext mod ntri (mesh.map reverse_mface) (reverse_mface f).face
        (data1 ext (reverse_mface f)) f.vars.U_2m_above_srf (ustar_of ext f.vars.U_2m_above_srf)
        (face_salt ext dt f).c_salt z st.rev
      = (layer_body ext mod ntri mesh f.face (data1 ext f)
        f.vars.U_2m_above_srf (ustar_of ext f.vars.U_2m_above_srf)
        (face_salt ext dt f).c_salt z st).rev := by
    intro z st
    exact layer_body_rev ext mod ntri mesh
      { face := f.face, vars := f.vars, d := data1 ext f } hok1 hnorm _ _ _ z st
  have hst0 : LayerSt.mk (wind_vector ext (reverse_mface f).vars.vw_dir) C b
        (salt_vars ext dt (reverse_mface f))
      = LayerSt.rev (LayerSt.mk (wind_vector ext f.vars.vw_dir) C b (salt_vars ext dt f)) := by
    rw [wind_vector_rev ext f hok, salt_vars_rev ext dt f hok]
    rfl
  unfold run_face1
  simp only [face_salt_rev ext dt f hok, hst0]
  have hU : (reverse_mface f).vars.U_2m_above_srf = f.vars.U_2m_above_srf := rfl
  rw [hU, layer_loop_rev _ _ hbody]
  rfl

theorem loop1_rev (ext : Ext) (mod : Module) (dt : ℚ) (ntri : Nat) (mesh : Mesh)
    (hnorm : ∀ v : Vec3, ext.norm v.flip = ext.norm v) :
    ∀ (fs : List MFace) (C : SpMat) (b : Vec), (∀ f ∈ fs, rev_ok ext f) →
      loop1 ext mod dt ntri (mesh.map reverse_mface) (fs.map reverse_mface) C b
        = ((loop1 ext mod dt ntri mesh fs C b).1.map reverse_mface,
           (loop1 ext mod dt ntri mesh fs C b).2.1, (loop1 ext mod dt ntri mesh fs C b).2.2) := by
  intro fs
  induction fs with
  | nil => intro C b _; rfl
  | cons f fs ih =>
    intro C b h
    simp only [List.map_cons, loop1]
    rw [run_face1_rev ext mod dt ntri mesh f (h f (List.mem_cons_self _ _)) hnorm]
    simp only
    rw [ih _ _ (fun g hg => h g (List.mem_cons_of_mem _ hg))]

theorem post_layer_rev (ext : Ext) (mod : Module) (ntri : Nat) (f : MFace) (x : Vec)
    (u2 t q P : ℚ) (z : Nat) (st : PostSt) :
    post_layer ext mod ntri (reverse_mface f).face (reverse_mface f).d x u2 t q P z st.rev
      = (post_layer ext mod ntri f.face f.d x u2 t q P z st).map PostSt.rev := by
  have hcs : ∀ cz u_z, csubl_of ext (reverse_mface f).face t q P cz u_z
      = csubl_of ext f.face t q P cz u_z := fun _ _ => rfl
  have hcell : (reverse_mface f).face.cell_id = f.face.cell_id := rfl
  have hhs : (reverse_mface f).d.hs = f.d.hs := rfl
  have hz0 : (reverse_mface f).d.z0 = f.d.z0 := rfl
  unfold post_layer
  simp only [hcs, hcell, hhs, hz0]
  cases csubl_of ext f.face t q P (cz_of mod f.d.hs z)
      (u_z_of ext u2 (cz_of mod f.d.hs z) f.d.z0) with
  | none => rfl
  | some v =>
    simp only [Option.map_some']
    by_cases hz : z < 15
    · simp only [hz, if_true]; rfl
    · simp only [hz, if_false]; rfl

theorem post_loop_rev (body body1 : Nat → PostSt → Option PostSt)
    (h : ∀ z st, body1 z st.rev = (body z st).map PostSt.rev) :
    ∀ n z st, post_loop body1 n z st.rev = (post_loop body n z st).map PostSt.rev := by
  intro n
  induction n with
  | zero => intro z st; rfl
  | succ n ih =>
    intro z st
    simp only [post_loop, h z st]
    cases body z st with
    | none => rfl
    | some st1 => simp only [Option.map_some']; exact ih (z + 1) st1

theorem run_face2_rev (ext : Ext) (mod : Module) (ntri : Nat) (x : Vec) (f : MFace) :
    run_face2 ext mod ntri x (reverse_mface f)
      = (run_face2 ext mod ntri x f).map reverse_mface := by
  have hv : (reverse_mface f).vars.U_2m_above_srf = f.vars.U_2m_above_srf
      ∧ (reverse_mface f).vars.rh = f.vars.rh ∧ (reverse_mface f).vars.t = f.vars.t
      ∧ (reverse_mface f).face.elev = f.face.elev := ⟨rfl, rfl, rfl, rfl⟩
  have hst : PostSt.mk 0 0 (reverse_mface f).vars = PostSt.rev (PostSt.mk 0 0 f.vars) := rfl
  unfold run_face2
  simp only [hv.1, hv.2.1, hv.2.2.1, hv.2.2.2, hst]
  rw [post_loop_rev _ _ (fun z st => post_layer_rev ext mod ntri f x _ _ _ _ z st)]
  cases post_loop (post_layer ext mod ntri f.face f.d x f.vars.U_2m_above_srf
      (f.vars.t + 27315 / 100)
      (633 / 1000 * (f.vars.rh / 100 * ext.saturatedVapourPressure (f.vars.t + 27315 / 100) / 1000)
        / (ext.stdAirPressure f.face.elev / 1000))
      (ext.stdAirPressure f.face.elev / 1000)) mod.nLayer 0
      { Qsusp := 0, Qsubl := 0, vars := f.vars } with
  | none => rfl
  | some st => rfl

theorem loop2_rev (ext : Ext) (mod : Module) (ntri : Nat) (x : Vec) :
    ∀ fs : List MFace, loop2 ext mod ntri x (fs.map reverse_mface)
      = (loop2 ext mod ntri x fs).map (List.map reverse_mface) := by
  intro fs
  induction fs with
  | nil => rfl
  | cons f fs ih =>
    simp only [List.map_cons, loop2, run_face2_rev, ih]
    cases run_face2 ext mod ntri x f with
    | none => rfl
    | some f1 =>
      cases loop2 ext mod ntri x fs with
      | none => rfl
      | some fs1 => rfl

theorem div_step_congr (ext : Ext) (mesh : Mesh) (f : MFace) (i : Nat) (udotm udotm1 : Nat → ℚ)
    (acc : SpRow × ℚ) (j : Nat) (hu : udotm1 j = udotm j) :
    div_step ext mesh f i udotm1 acc j = div_step ext mesh f i udotm acc j := by
  unfold div_step
  simp only [hu]

theorem div_step_rev (ext : Ext) (mesh : Mesh) (f : MFace) (i : Nat) (udotm : Nat → ℚ)
    (acc : SpRow × ℚ) (j : Nat) :
    div_step ext (mesh.map reverse_mface) (reverse_mface f) i udotm acc j
      = div_step ext mesh f i udotm acc j := by
  have hnf : neighbor_face (mesh.map reverse_mface) (reverse_mface f).face j
      = (neighbor_face mesh f.face j).map reverse_mface := neighbor_face_map _ mesh _ j
  have hnc := neighbor_cell_id_rev mesh f j
  unfold div_step
  simp only [hnf, hnc, Option.map_map]
  rfl

theorem run_face3_rev (ext : Ext) (mesh : Mesh) (f : MFace) (i : Nat) (A : SpMat) (bb : Vec)
    (hok : rev_ok ext f) :
    run_face3 ext (mesh.map reverse_mface) (reverse_mface f) i A bb
      = run_face3 ext mesh f i A bb := by
  obtain ⟨h0, h1, h2, _, _⟩ := udotm_rev ext f hok (wind_vector ext f.vars.vw_dir)
  unfold run_face3
  simp only [List.foldl_cons, List.foldl_nil, div_step_rev, wind_vector_rev ext f hok]
  rw [div_step_congr ext mesh f i (fun j => dot (wind_vector ext f.vars.vw_dir) (f.d.m j))
      (fun j => dot (wind_vector ext f.vars.vw_dir).flip ((reverse_mface f).d.m j)) _ 0 h0,
    div_step_congr ext mesh f i (fun j => dot (wind_vector ext f.vars.vw_dir) (f.d.m j))
      (fun j => dot (wind_vector ext f.vars.vw_dir).flip ((reverse_mface f).d.m j)) _ 1 h1,
    div_step_congr ext mesh f i (fun j => dot (wind_vector ext f.vars.vw_dir) (f.d.m j))
      (fun j => dot (wind_vector ext f.vars.vw_dir).flip ((reverse_mface f).d.m j)) _ 2 h2]

theorem loop3_rev (ext : Ext) (mesh : Mesh) :
    ∀ (fs : List MFace) (i : Nat) (A : SpMat) (bb : Vec), (∀ f ∈ fs, rev_ok ext f) →
      loop3 ext (mesh.map reverse_mface) (fs.map reverse_mface) i A bb
        = loop3 ext mesh fs i A bb := by
  intro fs
  induction fs with
  | nil => intro i A bb _; rfl
  | cons f fs ih =>
    intro i A bb h
    simp only [List.map_cons, loop3]
    rw [run_face3_rev ext mesh f i A bb (h f (List.mem_cons_self _ _)),
      ih _ _ _ (fun g hg => h g (List.mem_cons_of_mem _ hg))]

theorem loop4_rev (dt : ℚ) (dSdt : Nat → Option ℚ) :
    ∀ (fs : List MFace) (i : Nat),
      loop4 dt dSdt (fs.map reverse_mface) i = (loop4 dt dSdt fs i).map reverse_mface := by
  intro fs
  induction fs with
  | nil => intro i; rfl
  | cons f fs ih =>
    intro i
    simp only [List.map_cons, loop4, ih]
    rfl

theorem post_loop_vw_dir (body : Nat → PostSt → Option PostSt)
    (hb : ∀ z st st1, body z st = some st1 → st1.vars.vw_dir = st.vars.vw_dir) :
    ∀ n z st st1, post_loop body n z st = some st1 → st1.vars.vw_dir = st.vars.vw_dir := by
  intro n
  induction n with
  | zero =>
    intro z st st1 h
    simp only [post_loop, Option.some.injEq] at h
    rw [← h]
  | succ n ih =>
    intro z st st1 h
    simp only [post_loop] at h
    cases hb1 : body z st with
    | none => simp [hb1] at h
    | some st2 =>
      simp only [hb1] at h
      rw [ih (z + 1) st2 st1 h, hb z st st2 hb1]

theorem post_layer_vw_dir (ext : Ext) (mod : Module) (ntri : Nat) (face : Face) (d : Data)
    (x : Vec) (u2 t q P : ℚ) (z : Nat) (st st1 : PostSt)
    (h : post_layer ext mod ntri face d x u2 t q P z st = some st1) :
    st1.vars.vw_dir = st.vars.vw_dir := by
  simp only [post_layer] at h
  split at h
  · simp at h
  · simp only [Option.some.injEq] at h
    rw [← h]
    split_ifs <;> rfl

theorem run_face2_rev_ok (ext : Ext) (mod : Module) (ntri : Nat) (x : Vec) (f f2 : MFace)
    (h : run_face2 ext mod ntri x f = some f2) (hok : rev_ok ext f) : rev_ok ext f2 := by
  obtain ⟨e1, e2⟩ := run_face2_keeps ext mod ntri x f f2 h
  have e3 : f2.vars.vw_dir = f.vars.vw_dir := by
    simp only [run_face2] at h
    split at h
    · simp at h
    · next st hst =>
      simp only [Option.some.injEq] at h
      rw [← h]
      exact post_loop_vw_dir _ (fun z st st1 => post_layer_vw_dir ext mod ntri f.face f.d x
        _ _ _ _ z st st1) _ _ _ _ hst
  unfold rev_ok at hok ⊢
  rw [e2, e3]
  exact hok

theorem loop2_rev_ok (ext : Ext) (mod : Module) (ntri : Nat) (x : Vec) :
    ∀ (fs fs2 : List MFace), loop2 ext mod ntri x fs = some fs2 → (∀ f ∈ fs, rev_ok ext f) →
      ∀ g ∈ fs2, rev_ok ext g := by
  intro fs
  induction fs with
  | nil =>
    intro fs2 h _ g hg
    simp only [loop2, Option.some.injEq] at h
    rw [← h] at hg
    simp at hg
  | cons f fs ih =>
    intro fs2 h hok g hg
    simp only [loop2] at h
    cases h1 : run_face2 ext mod ntri x f with
    | none => simp [h1] at h
    | some f1 =>
      simp only [h1] at h
      cases h2 : loop2 ext mod ntri x fs with
      | none => simp [h2] at h
      | some fs1 =>
        simp only [h2, Option.some.injEq] at h
        rw [← h] at hg
        rcases List.mem_cons.mp hg with rfl | hmem
        · exact run_face2_rev_ok ext mod ntri x f g h1 (hok f (List.mem_cons_self _ _))
        · exact ih fs1 h2 (fun q hq => hok q (List.mem_cons_of_mem _ hq)) g hmem

theorem face1_out_rev_ok (ext : Ext) (mod : Module) (dt : ℚ) (f : MFace) (hok : rev_ok ext f) :
    rev_ok ext (face1_out ext mod dt f) := by
  obtain ⟨K1, h⟩ := layer_vars_fields ext mod (data1 ext f) (ustar_of ext f.vars.U_2m_above_srf)
    mod.nLayer 0 (salt_vars ext dt f)
  have e : (face1_out ext mod dt f).vars = { salt_vars ext dt f with K := K1 } := h
  have e3 : (face1_out ext mod dt f).vars.vw_dir = f.vars.vw_dir := by rw [e]; rfl
  unfold rev_ok at hok ⊢
  rw [e3]
  exact hok

/-- Negating the lateral normals together with turning the wind by 180 degrees commutes with
`run`, on every mesh. -/
theorem run_reverse (ext : Ext) (mod : Module) (dt : ℚ) (mesh : Mesh)
    (hnorm : ∀ v : Vec3, ext.norm v.flip = ext.norm v) (hok : ∀ f ∈ mesh, rev_ok ext f) :
    run ext mod dt (mesh.map reverse_mface)
      = (run ext mod dt mesh).map (List.map reverse_mface) := by
  have h1 : stage1 ext mod dt (mesh.map reverse_mface)
      = ((stage1 ext mod dt mesh).1.map reverse_mface, (stage1 ext mod dt mesh).2.1,
         (stage1 ext mod dt mesh).2.2) := by
    unfold stage1
    rw [List.length_map]
    exact loop1_rev ext mod dt mesh.length mesh hnorm mesh _ _ hok
  have hx : run_x ext mod dt (mesh.map reverse_mface) = run_x ext mod dt mesh := by
    unfold run_x
    simp only [h1, List.length_map]
  have h2 : stage2 ext mod dt (mesh.map reverse_mface)
      = (stage2 ext mod dt mesh).map (List.map reverse_mface) := by
    unfold stage2
    rw [hx, h1, List.length_map]
    exact loop2_rev ext mod mesh.length _ _
  unfold run
  rw [h2, List.length_map]
  cases hs : stage2 ext mod dt mesh with
  | none => rfl
  | some mesh2 =>
    have hok2 : ∀ g ∈ mesh2, rev_ok ext g := by
      apply loop2_rev_ok ext mod mesh.length (run_x ext mod dt mesh) _ mesh2 hs
      intro g hg
      rw [stage1, loop1_out] at hg
      obtain ⟨f, hf, rfl⟩ := List.mem_map.mp hg
      exact face1_out_rev_ok ext mod dt f (hok f hf)
    have h3 : stage3 ext (mesh2.map reverse_mface) = stage3 ext mesh2 := by
      unfold stage3
      exact loop3_rev ext mesh2 mesh2 0 _ _ hok2
    simp only [Option.map_some', h3, loop4_rev]

theorem run_vars_reverse (ext : Ext) (mod : Module) (dt : ℚ) (mesh : Mesh)
    (hnorm : ∀ v : Vec3, ext.norm v.flip = ext.norm v) (hok : ∀ f ∈ mesh, rev_ok ext f)
    (i : Nat) :
    run_vars ext mod dt (mesh.map reverse_mface) i
      = (run_vars ext mod dt mesh i).map reverse_vars := by
  unfold run_vars
  rw [run_reverse ext mod dt mesh hnorm hok]
  cases run ext mod dt mesh with
  | none => rfl
  | some m =>
    simp only [Option.map_some', Option.some_bind, List.getElem?_map, Option.map_map]
    rfl

theorem init_face_reverse (h : ℚ) (face : Face) (vars : Vars) :
    init_face h (negate_normals face) (reverse_vars vars)
      = reverse_mface (init_face h face vars) := by
  simp only [init_face, reverse_mface, negate_normals, init_is_edge, Vec3.neg, reverse_vars]
  congr 2
  funext j
  by_cases h0 : j = 0
  · subst h0; simp
  by_cases h1 : j = 1
  · subst h1; simp
  by_cases h2 : j = 2
  · subst h2; simp
  have h3 : ¬ j < 3 := by omega
  simp [h0, h1, h2, h3]

/-- On every mesh, negating every lateral edge normal and turning the wind bearing of every
face by 180 degrees before `init` changes no variable written by `run` (only the bearing
itself differs), provided the library's norm and bearing conversion respect the reversal. -/
theorem reversal_invariant (ext : Ext) (cfg : Config) (domain : List (Face × Vars))
    (mod : Module) (mesh : Mesh) (dt : ℚ)
    (hinit : init cfg domain = Except.ok (mod, mesh))
    (hnorm : ∀ v : Vec3, ext.norm v.flip = ext.norm v)
    (hbear : ∀ fv ∈ domain, ext.bearing_to_cartesian (fv.2.vw_dir + 180)
      = (-(ext.bearing_to_cartesian fv.2.vw_dir).1, -(ext.bearing_to_cartesian fv.2.vw_dir).2)) :
    ∃ mesh1, init cfg (domain.map (fun fv => (negate_normals fv.1, reverse_vars fv.2)))
        = Except.ok (mod, mesh1) ∧
      ∀ i, run_vars ext mod dt mesh1 i = (run_vars ext mod dt mesh i).map reverse_vars ∧
        ∀ v, run_vars ext mod dt mesh i = some v →
          ∃ w, run_vars ext mod dt mesh1 i = some w ∧ w.Qsusp = v.Qsusp ∧ w.Qsubl = v.Qsubl ∧
            |w.drift_mass| = |v.drift_mass| := by
  unfold init at hinit ⊢
  simp only at hinit ⊢
  split_ifs at hinit ⊢ with hsv
  simp only [Except.ok.injEq, Prod.mk.injEq] at hinit
  obtain ⟨hmod, hmesh⟩ := hinit
  have hok : ∀ f ∈ mesh, rev_ok ext f := by
    intro f hf
    rw [← hmesh] at hf
    obtain ⟨fv, hfv, rfl⟩ := List.mem_map.mp hf
    exact ⟨hbear fv hfv, ⟨rfl, rfl, rfl⟩, ⟨rfl, rfl, rfl, rfl⟩⟩
  refine ⟨mesh.map reverse_mface, ?_, ?_⟩
  · rw [hmod, ← hmesh]
    simp only [List.map_map]
    congr 2
    apply List.map_congr_left
    intro fv _
    exact init_face_reverse _ fv.1 fv.2
  · intro i
    have e := run_vars_reverse ext mod dt mesh hnorm hok i
    refine ⟨e, ?_⟩
    intro v hv
    exact ⟨reverse_vars v, by rw [e, hv]; rfl, rfl, rfl, rfl⟩

/-- C10 (amended): negating every lateral edge normal leaves `Qsusp`, `Qsubl` and
`drift_mass` (hence its absolute value) of every face unchanged (a) on every mesh, when the
wind bearing of every face is turned by 180 degrees at the same time, so that `uvec` is
negated too, and (b) with all other inputs equal, on meshes in which no face has a neighbour
and the edges of every face close up. -/
theorem C10_negation_symmetry (ext : Ext) (cfg : Config) (domain : List (Face × Vars))
    (mod : Module) (mesh : Mesh) (dt : ℚ)
    (hinit : init cfg domain = Except.ok (mod, mesh)) :
    ((∀ v : Vec3, ext.norm v.flip = ext.norm v) →
      (∀ fv ∈ domain, ext.bearing_to_cartesian (fv.2.vw_dir + 180)
        = (-(ext.bearing_to_cartesian fv.2.vw_dir).1,
           -(ext.bearing_to_cartesian fv.2.vw_dir).2)) →
      ∃ mesh1, init cfg (domain.map (fun fv => (negate_normals fv.1, reverse_vars fv.2)))
          = Except.ok (mod, mesh1) ∧
        ∀ i, run_vars ext mod dt mesh1 i = (run_vars ext mod dt mesh i).map reverse_vars ∧
          ∀ v, run_vars ext mod dt mesh i = some v →
            ∃ w, run_vars ext mod dt mesh1 i = some w ∧ w.Qsusp = v.Qsusp
              ∧ w.Qsubl = v.Qsubl ∧ |w.drift_mass| = |v.drift_mass|) ∧
    ((∀ fv ∈ domain, isolated fv.1 ∧ closes_up fv.1) →
      ∃ mesh1, init cfg (domain.map (fun fv => (negate_normals fv.1, fv.2)))
          = Except.ok (mod, mesh1) ∧
        ∀ i, run_vars ext mod dt mesh1 i = run_vars ext mod dt mesh i ∧
          ∀ v, run_vars ext mod dt mesh i = some v →
            ∃ w, run_vars ext mod dt mesh1 i = some w ∧ w.Qsusp = v.Qsusp
              ∧ w.Qsubl = v.Qsubl ∧ |w.drift_mass| = |v.drift_mass|) :=
  ⟨fun hnorm hbear => reversal_invariant ext cfg domain mod mesh dt hinit hnorm hbear,
   fun hgeo => negation_isolated_invariant ext cfg domain mod mesh dt hinit hgeo⟩

theorem ext_ref_norm_flip (v : Vec3) : ext_ref.norm v.flip = ext_ref.norm v := by
  simp only [ext_ref, Vec3.flip, neg_mul_neg]

theorem C10_negation_symmetry_witness :
    (∃ mesh1, init cfg_default ([(tri_eq, vars_of 0 10 (some 100) (-10) 70)].map
          (fun fv => (negate_normals fv.1, reverse_vars fv.2))) = Except.ok (mod_ref, mesh1) ∧
        ∀ i, run_vars ext_ref mod_ref 3600 mesh1 i
            = (run_vars ext_ref mod_ref 3600 (mesh_eq 10 (some 100)) i).map reverse_vars ∧
          ∀ v, run_vars ext_ref mod_ref 3600 (mesh_eq 10 (some 100)) i = some v →
            ∃ w, run_vars ext_ref mod_ref 3600 mesh1 i = some w ∧ w.Qsusp = v.Qsusp
              ∧ w.Qsubl = v.Qsubl ∧ |w.drift_mass| = |v.drift_mass|) ∧
    (∃ mesh1, init cfg_default ([(tri_eq, vars_of 0 10 (some 100) (-10) 70)].map
          (fun fv => (negate_normals fv.1, fv.2))) = Except.ok (mod_ref, mesh1) ∧
        ∀ i, run_vars ext_ref mod_ref 3600 mesh1 i
            = run_vars ext_ref mod_ref 3600 (mesh_eq 10 (some 100)) i ∧
          ∀ v, run_vars ext_ref mod_ref 3600 (mesh_eq 10 (some 100)) i = some v →
            ∃ w, run_vars ext_ref mod_ref 3600 mesh1 i = some w ∧ w.Qsusp = v.Qsusp
              ∧ w.Qsubl = v.Qsubl ∧ |w.drift_mass| = |v.drift_mass|) :=
  ⟨(C10_negation_symmetry ext_ref cfg_default [(tri_eq, vars_of 0 10 (some 100) (-10) 70)]
      mod_ref (mesh_eq 10 (some 100)) 3600 (init_mesh_eq 10 (some 100))).1 ext_ref_norm_flip
      (by
        intro fv hfv
        simp only [List.mem_singleton] at hfv
        subst hfv
        decide!),
   (C10_negation_symmetry ext_ref cfg_default [(tri_eq, vars_of 0 10 (some 100) (-10) 70)]
      mod_ref (mesh_eq 10 (some 100)) 3600 (init_mesh_eq 10 (some 100))).2
      (by
        intro fv hfv
        simp only [List.mem_singleton] at hfv
        subst hfv
        refine ⟨⟨rfl, rfl, rfl⟩, ?_, ?_⟩ <;> simp [tri_eq, arr3] <;> norm_num)⟩

/-- The reversal symmetry applies to the two-triangle mesh, whose faces are neighbours: the run
on the mesh with negated normals and reversed wind returns the same variables. -/
theorem reverse_two_triangles (i : Nat) :
    run_vars ext_ref mod_ref 3600 ((mesh_two 1).map reverse_mface) i
      = (run_vars ext_ref mod_ref 3600 (mesh_two 1) i).map reverse_vars :=
  run_vars_reverse ext_ref mod_ref 3600 (mesh_two 1) ext_ref_norm_flip
    (by unfold rev_ok; decide!) i

/-! ## Claim C11: indexing of the suspension system -/

theorem SpRow.below_add (r : SpRow) (N k : Nat) (v : ℚ) (hr : r.below N) (hk : k < N) :
    (r.add k v).below N := by
  intro j hj
  unfold SpRow.add at hj
  by_cases h : j = k
  · rw [h]; exact hk
  · rw [if_neg h] at hj; exact hr j hj

theorem SpRow.below_set (r : SpRow) (N k : Nat) (v : ℚ) (hr : r.below N) (hk : k < N) :
    (r.set k v).below N := by
  intro j hj
  unfold SpRow.set at hj
  by_cases h : j = k
  · rw [h]; exact hk
  · rw [if_neg h] at hj; exact hr j hj

theorem SpRow.below_init0 (r : SpRow) (N k : Nat) (hr : r.below N) (hk : k < N) :
    (r.init0 k).below N := by
  unfold SpRow.init0
  split_ifs
  · exact SpRow.below_set r N k 0 hr hk
  · exact hr

theorem SpRow.below_init0_if (c : Prop) [Decidable c] (r : SpRow) (N k : Nat) (hr : r.below N)
    (hk : c → k < N) : (if c then r.init0 k else r).below N := by
  by_cases h : c
  · rw [if_pos h]; exact SpRow.below_init0 r N k hr (hk h)
  · rw [if_neg h]; exact hr

theorem SpMat.below_setRow (C : SpMat) (N i : Nat) (r : SpRow) (hC : C.below N) (hi : i < N)
    (hr : r.below N) : (C.setRow i r).below N := by
  intro k j hkj
  unfold SpMat.setRow at hkj
  by_cases h : k = i
  · rw [if_pos h] at hkj
    exact ⟨h ▸ hi, hr j hkj⟩
  · rw [if_neg h] at hkj
    exact hC k j hkj

theorem SpMat.below_row (C : SpMat) (N i : Nat) (hC : C.below N) : (C i).below N :=
  fun j hj => (hC i j hj).2

theorem lateral_step_below (mesh : Mesh) (face : Face) (d : Data) (ntri z idx N : Nat)
    (alpha udotm : Nat → ℚ) (row : SpRow) (f : Nat) (hr : row.below N) (hidx : idx < N)
    (hn : ntri * z + neighbor_cell_id mesh face f < N) :
    (lateral_step mesh face d ntri z idx alpha udotm row f).below N := by
  unfold lateral_step
  split_ifs
  · exact SpRow.below_add _ _ _ _ (SpRow.below_add _ _ _ _ hr hidx) hidx
  · exact SpRow.below_add _ _ _ _ hr hidx
  · exact SpRow.below_set _ _ _ _ (SpRow.below_add _ _ _ _ hr hidx) hn
  · exact SpRow.below_add _ _ _ _ hr hidx

theorem vertical_advective_below (mod : Module) (d : Data) (ntri z cell_id N : Nat)
    (K alpha udotm : Nat → ℚ) (c_salt : ℚ) (row : SpRow) (b : Vec) (hr : row.below N)
    (hidx : ntri * z + cell_id < N)
    (hup : z = 0 ∨ z ≠ mod.nLayer - 1 → ntri * (z + 1) + cell_id < N)
    (hdown : z ≠ 0 → ntri * (z - 1) + cell_id < N) :
    (vertical_advective mod d ntri z cell_id K alpha udotm c_salt row b).1.below N := by
  unfold vertical_advective
  by_cases hz : z = 0
  · have hu := hup (Or.inl hz)
    simp only [hz, if_true]
    rw [hz] at hidx hu
    split_ifs
    · exact SpRow.below_add _ _ _ _ (SpRow.below_add _ _ _ _ (SpRow.below_add _ _ _ _ hr hidx) hidx) hu
    · exact SpRow.below_add _ _ _ _ (SpRow.below_add _ _ _ _ (SpRow.below_add _ _ _ _ hr hidx) hidx) hu
  · have hd := hdown hz
    simp only [hz, if_false]
    by_cases ht : z = mod.nLayer - 1
    · simp only [if_pos ht]
      split_ifs
      all_goals first
        | exact SpRow.below_add _ _ _ _ (SpRow.below_add _ _ _ _ (SpRow.below_add _ _ _ _ hr hidx) hidx) hd
    · have hu := hup (Or.inr ht)
      simp only [if_neg ht]
      split_ifs
      all_goals first
        | exact SpRow.below_add _ _ _ _ (SpRow.below_add _ _ _ _
            (SpRow.below_add _ _ _ _ (SpRow.below_add _ _ _ _ hr hidx) hu) hidx) hd

theorem vertical_diffusive_below (mod : Module) (d : Data) (ntri z cell_id N : Nat)
    (K alpha : Nat → ℚ) (c_salt : ℚ) (row : SpRow) (b : Vec) (hr : row.below N)
    (hidx : ntri * z + cell_id < N)
    (hup : z = 0 ∨ z ≠ mod.nLayer - 1 → ntri * (z + 1) + cell_id < N)
    (hdown : z ≠ 0 → ntri * (z - 1) + cell_id < N) :
    (vertical_diffusive mod d ntri z cell_id K alpha c_salt row b).1.below N := by
  unfold vertical_diffusive
  by_cases hz : z = 0
  · have hu := hup (Or.inl hz)
    simp only [hz, if_true]
    rw [hz] at hidx hu
    exact SpRow.below_add _ _ _ _ (SpRow.below_add _ _ _ _ (SpRow.below_add _ _ _ _ hr hidx) hidx) hu
  · have hd := hdown hz
    simp only [hz, if_false]
    by_cases ht : z = mod.nLayer - 1
    · simp only [if_pos ht]
      exact SpRow.below_add _ _ _ _ (SpRow.below_add _ _ _ _ hr hidx) hd
    · have hu := hup (Or.inr ht)
      simp only [if_neg ht]
      exact SpRow.below_add _ _ _ _ (SpRow.below_add _ _ _ _ (SpRow.below_add _ _ _ _ hr hidx) hu) hd

theorem neighbor_cell_id_lt (mesh : Mesh) (face : Face) (j : Nat)
    (hid : ∀ g ∈ mesh, g.face.cell_id < mesh.length) (hne : 0 < mesh.length) :
    neighbor_cell_id mesh face j < mesh.length := by
  unfold neighbor_cell_id
  cases h : neighbor_face mesh face j with
  | none => simpa using hne
  | some nb => simpa using hid nb (neighbor_face_mem mesh face j nb h)

theorem layer_body_below (ext : Ext) (mod : Module) (mesh : Mesh) (face : Face) (d : Data)
    (u2 ustar c_salt : ℚ) (z : Nat) (st : LayerSt)
    (hL : 2 ≤ mod.nLayer) (hz : z < mod.nLayer)
    (hid : ∀ g ∈ mesh, g.face.cell_id < mesh.length) (hf : face.cell_id < mesh.length)
    (hC : st.C.below (mesh.length * mod.nLayer)) :
    (layer_body ext mod mesh.length mesh face d u2 ustar c_salt z st).C.below
      (mesh.length * mod.nLayer) := by
  have hne : 0 < mesh.length := Nat.lt_of_le_of_lt (Nat.zero_le _) hf
  have hcell : ∀ (k c : Nat), k < mod.nLayer → c < mesh.length →
      mesh.length * k + c < mesh.length * mod.nLayer := by
    intro k c hk hc
    calc mesh.length * k + c < mesh.length * k + mesh.length := Nat.add_lt_add_left hc _
      _ = mesh.length * (k + 1) := by ring
      _ ≤ mesh.length * mod.nLayer := Nat.mul_le_mul_left _ hk
  have hidx := hcell z face.cell_id hz hf
  have hup : z = 0 ∨ z ≠ mod.nLayer - 1 → mesh.length * (z + 1) + face.cell_id
      < mesh.length * mod.nLayer := by
    intro h
    apply hcell _ _ _ hf
    rcases h with h | h
    · omega
    · omega
  have hdown : z ≠ 0 → mesh.length * (z - 1) + face.cell_id < mesh.length * mod.nLayer :=
    fun _ => hcell _ _ (by omega) hf
  unfold layer_body
  apply SpMat.below_setRow _ _ _ _ hC hidx
  have h0 : ((st.C (mesh.length * z + face.cell_id)).init0 (mesh.length * z + face.cell_id)).below
      (mesh.length * mod.nLayer) :=
    SpRow.below_init0 _ _ _ (SpMat.below_row _ _ _ hC) hidx
  have hlat : ∀ (alpha udotm : Nat → ℚ), ([0, 1, 2].foldl
      (lateral_step mesh face d mesh.length z (mesh.length * z + face.cell_id) alpha udotm)
      ((st.C (mesh.length * z + face.cell_id)).init0 (mesh.length * z + face.cell_id))).below
      (mesh.length * mod.nLayer) := by
    intro alpha udotm
    simp only [List.foldl_cons, List.foldl_nil]
    have hn : ∀ f, mesh.length * z + neighbor_cell_id mesh face f < mesh.length * mod.nLayer :=
      fun f => hcell _ _ hz (neighbor_cell_id_lt mesh face f hid hne)
    exact lateral_step_below _ _ _ _ _ _ _ _ _ _ _
      (lateral_step_below _ _ _ _ _ _ _ _ _ _ _
        (lateral_step_below _ _ _ _ _ _ _ _ _ _ _ h0 hidx (hn 0)) hidx (hn 1)) hidx (hn 2)
  cases mod.do_vertical_advection
  · simp only [Bool.false_eq_true, if_false]
    exact vertical_diffusive_below _ _ _ _ _ _ _ _ _ _ _ (SpRow.below_init0_if _ _ _ _ (SpRow.below_init0_if _ _ _ _ (hlat _ _)
      (fun h => hup (Or.inr h))) hdown) hidx hup hdown
  · simp only [if_true]
    exact vertical_advective_below _ _ _ _ _ _ _ _ _ _ _ _ (SpRow.below_init0_if _ _ _ _ (SpRow.below_init0_if _ _ _ _ (hlat _ _)
      (fun h => hup (Or.inr h))) hdown) hidx hup hdown

theorem layer_loop_below (ext : Ext) (mod : Module) (mesh : Mesh) (face : Face) (d : Data)
    (u2 ustar c_salt : ℚ) (hL : 2 ≤ mod.nLayer)
    (hid : ∀ g ∈ mesh, g.face.cell_id < mesh.length) (hf : face.cell_id < mesh.length) :
    ∀ (n z : Nat) (st : LayerSt), z + n ≤ mod.nLayer → st.C.below (mesh.length * mod.nLayer) →
      (layer_loop (layer_body ext mod mesh.length mesh face d u2 ustar c_salt) n z st).C.below
        (mesh.length * mod.nLayer) := by
  intro n
  induction n with
  | zero => intro z st _ h; exact h
  | succ n ih =>
    intro z st hz hC
    simp only [layer_loop]
    exact ih (z + 1) _ (by omega)
      (layer_body_below ext mod mesh face d u2 ustar c_salt z st hL (by omega) hid hf hC)

theorem run_face1_below (ext : Ext) (mod : Module) (dt : ℚ) (mesh : Mesh) (f : MFace)
    (C : SpMat) (b : Vec) (hL : 2 ≤ mod.nLayer)
    (hid : ∀ g ∈ mesh, g.face.cell_id < mesh.length) (hf : f.face.cell_id < mesh.length)
    (hC : C.below (mesh.length * mod.nLayer)) :
    (run_face1 ext mod dt mesh.length mesh f C b).2.1.below (mesh.length * mod.nLayer) := by
  unfold run_face1
  exact layer_loop_below ext mod mesh f.face _ _ _ _ hL hid hf mod.nLayer 0 _ (by omega) hC

theorem loop1_below (ext : Ext) (mod : Module) (dt : ℚ) (mesh : Mesh) (hL : 2 ≤ mod.nLayer)
    (hid : ∀ g ∈ mesh, g.face.cell_id < mesh.length) :
    ∀ (fs : List MFace) (C : SpMat) (b : Vec), (∀ g ∈ fs, g.face.cell_id < mesh.length) →
      C.below (mesh.length * mod.nLayer) →
      (loop1 ext mod dt mesh.length mesh fs C b).2.1.below (mesh.length * mod.nLayer) := by
  intro fs
  induction fs with
  | nil => intro C b _ h; exact h
  | cons f fs ih =>
    intro C b hfs hC
    simp only [loop1]
    exact ih _ _ (fun g hg => hfs g (List.mem_cons_of_mem _ hg))
      (run_face1_below ext mod dt mesh f C b hL hid (hfs f (List.mem_cons_self _ _)) hC)

theorem stage1_below (ext : Ext) (mod : Module) (dt : ℚ) (mesh : Mesh) (hL : 2 ≤ mod.nLayer)
    (hid : ∀ g ∈ mesh, g.face.cell_id < mesh.length) :
    (stage1 ext mod dt mesh).2.1.below (mesh.length * mod.nLayer) := by
  unfold stage1
  exact loop1_below ext mod dt mesh hL hid mesh _ _ hid (fun r j h => absurd rfl h)

theorem alpha_arr_lateral (a3 a4 : ℚ) (f : Nat) (hf : f < 3) : alpha_arr a3 a4 f = 0 := by
  unfold alpha_arr arrSet
  have h3 : f ≠ 3 := by omega
  have h4 : f ≠ 4 := by omega
  simp [h3, h4]

/-- Claim C12.  One pass of the lateral loop on row `idx = ntri*z + cell_id`, with the lateral
`alpha` equal to `0` as the assembly leaves it.  Outflow (`u.m_f > 0`): the diagonal receives
`-A_f*(u.m_f)` and no other entry changes, with or without a neighbour.  Inflow (`u.m_f <= 0`)
with a neighbour (another cell): the diagonal receives `0`, the entry at
`ntri*z + neighbour cell_id` becomes `-A_f*(u.m_f)`, which is non-negative, and no other entry
changes.  Inflow without a neighbour: the diagonal receives `0` and no other entry changes. -/
theorem C12_lateral_upwind_rule (mesh : Mesh) (face : Face) (d : Data) (ntri z : Nat)
    (a3 a4 : ℚ) (udotm : Nat → ℚ) (row : SpRow) (f : Nat) (hf : f < 3) (hA : 0 ≤ d.A f)
    (hnb : neighbor_cell_id mesh face f ≠ face.cell_id) :
    (udotm f > 0 →
      lateral_step mesh face d ntri z (ntri * z + face.cell_id) (alpha_arr a3 a4) udotm row f
          (ntri * z + face.cell_id)
        = some ((row (ntri * z + face.cell_id)).getD 0 + -d.A f * udotm f) ∧
      ∀ j, j ≠ ntri * z + face.cell_id →
        lateral_step mesh face d ntri z (ntri * z + face.cell_id) (alpha_arr a3 a4) udotm row f j
          = row j) ∧
    (udotm f ≤ 0 → d.face_neigh f = true →
      lateral_step mesh face d ntri z (ntri * z + face.cell_id) (alpha_arr a3 a4) udotm row f
          (ntri * z + face.cell_id)
        = some ((row (ntri * z + face.cell_id)).getD 0 + 0) ∧
      lateral_step mesh face d ntri z (ntri * z + face.cell_id) (alpha_arr a3 a4) udotm row f
          (ntri * z + neighbor_cell_id mesh face f)
        = some (-d.A f * udotm f) ∧
      0 ≤ -d.A f * udotm f ∧
      ∀ j, j ≠ ntri * z + face.cell_id → j ≠ ntri * z + neighbor_cell_id mesh face f →
        lateral_step mesh face d ntri z (ntri * z + face.cell_id) (alpha_arr a3 a4) udotm row f j
          = row j) ∧
    (udotm f ≤ 0 → d.face_neigh f = false →
      lateral_step mesh face d ntri z (ntri * z + face.cell_id) (alpha_arr a3 a4) udotm row f
          (ntri * z + face.cell_id)
        = some ((row (ntri * z + face.cell_id)).getD 0 + 0) ∧
      ∀ j, j ≠ ntri * z + face.cell_id →
        lateral_step mesh face d ntri z (ntri * z + face.cell_id) (alpha_arr a3 a4) udotm row f j
          = row j) := by
  have ha : alpha_arr a3 a4 f = 0 := alpha_arr_lateral a3 a4 f hf
  have hne : ntri * z + neighbor_cell_id mesh face f ≠ ntri * z + face.cell_id :=
    fun e => hnb (Nat.add_left_cancel e)
  refine ⟨?_, ?_, ?_⟩
  · intro hu
    unfold lateral_step
    rw [if_pos hu, ha]
    cases d.face_neigh f
    · simp only [Bool.false_eq_true, if_false]
      refine ⟨by simp [SpRow.add], fun j hj => by simp [SpRow.add, hj]⟩
    · simp only [if_true]
      refine ⟨by simp [SpRow.add], fun j hj => by simp [SpRow.add, hj]⟩
  · intro hu hn
    unfold lateral_step
    rw [if_neg (not_lt.mpr hu), if_pos hn, ha]
    refine ⟨?_, ?_, ?_, ?_⟩
    · simp [SpRow.add, SpRow.set, hne.symm]
    · simp [SpRow.set]
    · have : 0 ≤ d.A f * (-udotm f) := mul_nonneg hA (by linarith)
      linarith
    · intro j hj hj1
      simp [SpRow.add, SpRow.set, hj, hj1]
  · intro hu hn
    unfold lateral_step
    rw [if_neg (not_lt.mpr hu), hn, ha]
    simp only [Bool.false_eq_true, if_false]
    refine ⟨by simp [SpRow.add], fun j hj => by simp [SpRow.add, hj]⟩

set_option maxRecDepth 100000 in
theorem C12_lateral_upwind_rule_witness :
    (0 < 3 ∧ 0 ≤ (snow_face 1).d.A 0 ∧
      neighbor_cell_id (mesh_two 1) (tri1 1) 0 ≠ (tri1 1).cell_id) ∧
    ((fun _ : Nat => (-1 : ℚ)) 0 ≤ 0 ∧ (snow_face 1).d.face_neigh 0 = true) ∧
    lateral_step (mesh_two 1) (tri1 1) (snow_face 1).d 2 0 (2 * 0 + (tri1 1).cell_id)
        (alpha_arr 1 1) (fun _ => -1) SpRow.empty 0
        (2 * 0 + neighbor_cell_id (mesh_two 1) (tri1 1) 0)
      = some (-(snow_face 1).d.A 0 * (fun _ : Nat => (-1 : ℚ)) 0) :=
  ⟨⟨by decide, by decide!, by decide⟩, ⟨by decide!, by decide⟩,
    ((C12_lateral_upwind_rule (mesh_two 1) (tri1 1) (snow_face 1).d 2 0 1 1 (fun _ => -1)
      SpRow.empty 0 (by decide) (by decide!) (by decide)).2.1 (by decide!) (by decide)).2.1⟩

/-! ## Claim C13: the layer wind vector -/

theorem layer_loop_succ (body : Nat → LayerSt → LayerSt) :
    ∀ (n z : Nat) (st : LayerSt),
      layer_loop body (n + 1) z st = body (z + n) (layer_loop body n z st) := by
  intro n
  induction n with
  | zero => intro z st; rfl
  | succ n ih =>
    intro z st
    have h := ih (z + 1) (body z st)
    simp only [layer_loop] at h ⊢
    rw [h]
    have e : z + 1 + n = z + (n + 1) := by omega
    rw [e]

theorem layer_body_uvw (ext : Ext) (mod : Module) (ntri : Nat) (mesh : Mesh) (face : Face)
    (d : Data) (u2 ustar c_salt : ℚ) (z : Nat) (st : LayerSt) :
    (layer_body ext mod ntri mesh face d u2 ustar c_salt z st).uvw =
      layer_wind ext mod (u_z_of ext u2 (cz_of mod d.hs z) d.z0) st.uvw := rfl

theorem layer_uvw_zero (ext : Ext) (mod : Module) (dt : ℚ) (ntri : Nat) (mesh : Mesh) (f : MFace) :
    layer_uvw ext mod dt ntri mesh f 0 =
      layer_wind ext mod (face_u_z ext mod f 0) (wind_vector ext f.vars.vw_dir) := rfl

theorem layer_uvw_succ (ext : Ext) (mod : Module) (dt : ℚ) (ntri : Nat) (mesh : Mesh) (f : MFace)
    (z : Nat) :
    layer_uvw ext mod dt ntri mesh f (z + 1) =
      layer_wind ext mod (face_u_z ext mod f (z + 1)) (layer_uvw ext mod dt ntri mesh f z) := by
  unfold layer_uvw
  rw [layer_loop_succ, layer_body_uvw]
  simp only [face_u_z, Nat.zero_add]

set_option maxRecDepth 100000 in
/-- Claim C13 at layers 0 and 1 of the snow-covered face of the two-triangle mesh (wind
10 m/s, settling velocity -0.5).  The vertical component of the layer wind vector is the
settling velocity at every layer, and at every layer above the first the vector is the
previous layer's vector, settling velocity included, rescaled by `u_z / norm`.  At layer 0
the horizontal part is `u_z * uvec`; at layer 1 it is not: its square magnitude is below
`u_z^2`. -/
theorem C13_layer_wind_rescaled_in_place :
    (∀ (ext : Ext) (mod : Module) (dt : ℚ) (ntri : Nat) (mesh : Mesh) (f : MFace) (z : Nat),
      (layer_uvw ext mod dt ntri mesh f z).z = mod.settling_velocity ∧
      layer_uvw ext mod dt ntri mesh f (z + 1) =
        layer_wind ext mod (face_u_z ext mod f (z + 1)) (layer_uvw ext mod dt ntri mesh f z)) ∧
    ((layer_uvw ext_ref mod_ref 3600 2 (mesh_two 1) (snow_face 1) 0).x =
        face_u_z ext_ref mod_ref (snow_face 1) 0 * (wind_vector ext_ref (5313 / 100)).x ∧
     (layer_uvw ext_ref mod_ref 3600 2 (mesh_two 1) (snow_face 1) 0).y =
        face_u_z ext_ref mod_ref (snow_face 1) 0 * (wind_vector ext_ref (5313 / 100)).y) ∧
    ((layer_uvw ext_ref mod_ref 3600 2 (mesh_two 1) (snow_face 1) 1).x ≠
        face_u_z ext_ref mod_ref (snow_face 1) 1 * (wind_vector ext_ref (5313 / 100)).x ∧
     (layer_uvw ext_ref mod_ref 3600 2 (mesh_two 1) (snow_face 1) 1).x
          * (layer_uvw ext_ref mod_ref 3600 2 (mesh_two 1) (snow_face 1) 1).x
        + (layer_uvw ext_ref mod_ref 3600 2 (mesh_two 1) (snow_face 1) 1).y
          * (layer_uvw ext_ref mod_ref 3600 2 (mesh_two 1) (snow_face 1) 1).y
        < face_u_z ext_ref mod_ref (snow_face 1) 1 * face_u_z ext_ref mod_ref (snow_face 1) 1) := by
  refine ⟨?_, ?_, ?_⟩
  · intro ext mod dt ntri mesh f z
    refine ⟨?_, layer_uvw_succ ext mod dt ntri mesh f z⟩
    cases z with
    | zero => rfl
    | succ z => rw [layer_uvw_succ]; rfl
  · decide!
  · decide!

/-! ## Claim C14: the pure-diffusion mode -/

theorem vertical_upwind_one (mod : Module) (d : Data) (ntri z cell_id : Nat)
    (K alpha udotm : Nat → ℚ) (c_salt : ℚ) (row : SpRow) (b : Vec) :
    vertical_upwind 1 mod d ntri z cell_id K alpha udotm c_salt row b =
      vertical_advective mod d ntri z cell_id K alpha udotm c_salt row b := by
  unfold vertical_upwind vertical_advective
  simp only [one_mul, neg_mul, add_zero]

theorem SpRow.add_comm (r : SpRow) (i j : Nat) (a b : ℚ) (h : i ≠ j) :
    (r.add i a).add j b = (r.add j b).add i a := by
  funext k
  by_cases hi : k = i
  · have hj : k ≠ j := fun e => h (hi.symm.trans e)
    have hij : ¬ j = i := fun e => h e.symm
    simp [SpRow.add, hi, h, hij]
  · by_cases hj : k = j
    · simp [SpRow.add, hj, h, Ne.symm h]
    · simp [SpRow.add, hi, hj]

theorem vertical_upwind_zero (mod : Module) (d : Data) (ntri z cell_id : Nat)
    (K alpha udotm : Nat → ℚ) (c_salt : ℚ) (row : SpRow) (b : Vec) (hn : 0 < ntri) :
    vertical_upwind 0 mod d ntri z cell_id K alpha udotm c_salt row b =
      vertical_diffusive mod d ntri z cell_id K alpha c_salt row b := by
  have hup : ntri * (z + 1) + cell_id ≠ ntri * z + cell_id := by
    intro e
    have : ntri * (z + 1) = ntri * z := Nat.add_right_cancel e
    have := Nat.eq_of_mul_eq_mul_left hn this
    omega
  unfold vertical_upwind vertical_diffusive
  simp only [zero_mul, neg_zero, zero_sub, zero_add, ite_self]
  by_cases hz : z = 0
  · simp only [hz, if_true]
  · simp only [hz, if_false]
    by_cases ht : z = mod.nLayer - 1
    · simp only [if_pos ht, SpRow.add_add]
      rw [sub_eq_add_neg]
    · simp only [if_neg ht]
      rw [SpRow.add_comm _ _ _ _ _ hup, SpRow.add_add, sub_eq_add_neg]

theorem layer_body_up_one (ext : Ext) (mod : Module) (ntri : Nat) (mesh : Mesh) (face : Face)
    (d : Data) (u2 ustar c_salt : ℚ) (z : Nat) (st : LayerSt) :
    layer_body ext (with_advection mod true) ntri mesh face d u2 ustar c_salt z st =
      layer_body_up 1 ext mod ntri mesh face d u2 ustar c_salt z st := by
  simp only [layer_body, layer_body_up, with_advection, if_true, vertical_upwind_one]
  rfl

theorem layer_body_up_zero (ext : Ext) (mod : Module) (ntri : Nat) (mesh : Mesh) (face : Face)
    (d : Data) (u2 ustar c_salt : ℚ) (z : Nat) (st : LayerSt) (hn : 0 < ntri) :
    layer_body ext (with_advection mod false) ntri mesh face d u2 ustar c_salt z st =
      layer_body_up 0 ext mod ntri mesh face d u2 ustar c_salt z st := by
  simp only [layer_body, layer_body_up, with_advection, Bool.false_eq_true, if_false,
    vertical_upwind_zero _ _ _ _ _ _ _ _ _ _ _ hn]
  rfl

theorem run_face1_up_one (ext : Ext) (mod : Module) (dt : ℚ) (ntri : Nat) (mesh : Mesh)
    (f : MFace) (C : SpMat) (b : Vec) :
    run_face1 ext (with_advection mod true) dt ntri mesh f C b =
      run_face1_up 1 ext mod dt ntri mesh f C b := by
  have h : layer_body ext (with_advection mod true) ntri mesh f.face (data1 ext f)
        f.vars.U_2m_above_srf (ustar_of ext f.vars.U_2m_above_srf) (face_salt ext dt f).c_salt
      = layer_body_up 1 ext mod ntri mesh f.face (data1 ext f)
        f.vars.U_2m_above_srf (ustar_of ext f.vars.U_2m_above_srf) (face_salt ext dt f).c_salt := by
    funext z st
    exact layer_body_up_one ext mod ntri mesh f.face _ _ _ _ z st
  simp only [run_face1, run_face1_up, h]
  rfl

theorem run_face1_up_zero (ext : Ext) (mod : Module) (dt : ℚ) (ntri : Nat) (mesh : Mesh)
    (f : MFace) (C : SpMat) (b : Vec) (hn : 0 < ntri) :
    run_face1 ext (with_advection mod false) dt ntri mesh f C b =
      run_face1_up 0 ext mod dt ntri mesh f C b := by
  have h : layer_body ext (with_advection mod false) ntri mesh f.face (data1 ext f)
        f.vars.U_2m_above_srf (ustar_of ext f.vars.U_2m_above_srf) (face_salt ext dt f).c_salt
      = layer_body_up 0 ext mod ntri mesh f.face (data1 ext f)
        f.vars.U_2m_above_srf (ustar_of ext f.vars.U_2m_above_srf) (face_salt ext dt f).c_salt := by
    funext z st
    exact layer_body_up_zero ext mod ntri mesh f.face _ _ _ _ z st hn
  simp only [run_face1, run_face1_up, h]
  rfl

theorem loop1_up_one (ext : Ext) (mod : Module) (dt : ℚ) (ntri : Nat) (mesh : Mesh) :
    ∀ (fs : List MFace) (C : SpMat) (b : Vec),
      loop1 ext (with_advection mod true) dt ntri mesh fs C b =
        loop1_up 1 ext mod dt ntri mesh fs C b := by
  intro fs
  induction fs with
  | nil => intro C b; rfl
  | cons f fs ih =>
    intro C b
    simp only [loop1, loop1_up, run_face1_up_one, ih]

theorem loop1_up_zero (ext : Ext) (mod : Module) (dt : ℚ) (ntri : Nat) (mesh : Mesh)
    (hn : 0 < ntri) :
    ∀ (fs : List MFace) (C : SpMat) (b : Vec),
      loop1 ext (with_advection mod false) dt ntri mesh fs C b =
        loop1_up 0 ext mod dt ntri mesh fs C b := by
  intro fs
  induction fs with
  | nil => intro C b; rfl
  | cons f fs ih =>
    intro C b
    simp only [loop1, loop1_up, run_face1_up_zero _ _ _ _ _ _ _ _ hn, ih]

theorem stage1_up_one (ext : Ext) (mod : Module) (dt : ℚ) (mesh : Mesh) :
    stage1 ext (with_advection mod true) dt mesh = stage1_up 1 ext mod dt mesh :=
  loop1_up_one ext mod dt mesh.length mesh mesh _ _

theorem stage1_up_zero (ext : Ext) (mod : Module) (dt : ℚ) (mesh : Mesh) :
    stage1 ext (with_advection mod false) dt mesh = stage1_up 0 ext mod dt mesh := by
  cases mesh with
  | nil => rfl
  | cons f fs => exact loop1_up_zero ext mod dt _ _ (Nat.succ_pos _) _ _ _

theorem loop1_b_entry (ext : Ext) (mod : Module) (dt : ℚ) (ntri : Nat) (mesh : Mesh)
    (hL : 0 < mod.nLayer) :
    ∀ (fs : List MFace) (C : SpMat) (b : Vec),
      (fs.map (fun g => g.face.cell_id)).Nodup → ∀ f ∈ fs,
      (loop1 ext mod dt ntri mesh fs C b).2.2 f.face.cell_id =
        b_entry ext mod (data1 ext f) (ustar_of ext f.vars.U_2m_above_srf)
          (face_salt ext dt f).c_salt := by
  intro fs
  induction fs with
  | nil => intro C b _ f hf; simp at hf
  | cons g fs ih =>
    intro C b hnd f hf
    simp only [List.map_cons, List.nodup_cons, List.mem_map, not_exists, not_and] at hnd
    simp only [loop1]
    rcases List.mem_cons.mp hf with rfl | hmem
    · rw [loop1_b_other _ _ _ _ _ _ _ _ _ (fun g hg => hnd.1 g hg), run_face1_b]
      simp [hL]
    · exact ih _ _ hnd.2 f hmem

/-- Claim C14.  The suspension system assembled in pure-diffusion mode
(`vertical_advection = false`) is the upwind assembly with every vertical advective product
`A_3*(u.m_3)`, `A_4*(u.m_4)` deleted (multiplied by `0`), the advective mode being the same
assembly with the products kept (multiplied by `1`).  In both modes the layer-0 right-hand
side of a face is `-A_4*K_4*c_salt`, and no key at or beyond `ntri*nLayer` exists: no cell is
coupled to a cell above the top layer. -/
theorem C14_pure_diffusion_refinement (ext : Ext) (mod : Module) (dt : ℚ) (mesh : Mesh)
    (hL : 2 ≤ mod.nLayer) (hid : ∀ g ∈ mesh, g.face.cell_id < mesh.length)
    (hnd : (mesh.map (fun g => g.face.cell_id)).Nodup) :
    stage1 ext (with_advection mod false) dt mesh = stage1_up 0 ext mod dt mesh ∧
    stage1 ext (with_advection mod true) dt mesh = stage1_up 1 ext mod dt mesh ∧
    (∀ f ∈ mesh, ∀ v : Bool,
      (stage1 ext (with_advection mod v) dt mesh).2.2 (mesh.length * 0 + f.face.cell_id) =
        -(data1 ext f).A 4
          * K_of ext mod (ustar_of ext f.vars.U_2m_above_srf) (data1 ext f).z0
              (cz_of mod (data1 ext f).hs 0)
          * (face_salt ext dt f).c_salt) ∧
    (∀ (v : Bool) (r j : Nat), mesh.length * mod.nLayer ≤ j →
      (stage1 ext (with_advection mod v) dt mesh).2.1 r j = none) := by
  refine ⟨stage1_up_zero ext mod dt mesh, stage1_up_one ext mod dt mesh, ?_, ?_⟩
  · intro f hf v
    rw [Nat.mul_zero, Nat.zero_add]
    unfold stage1
    rw [loop1_b_entry ext (with_advection mod v) dt mesh.length mesh
      (Nat.lt_of_lt_of_le (by decide) hL) mesh _ _ hnd f hf]
    rfl
  · intro v r j hj
    by_contra h
    have := (stage1_below ext (with_advection mod v) dt mesh hL hid r j h).2
    exact absurd this (not_lt.mpr hj)

theorem C14_pure_diffusion_refinement_witness :
    (2 ≤ mod_ref.nLayer ∧ (∀ g ∈ mesh_two 1, g.face.cell_id < (mesh_two 1).length) ∧
      ((mesh_two 1).map (fun g => g.face.cell_id)).Nodup) ∧
    stage1 ext_ref (with_advection mod_ref false) 3600 (mesh_two 1) =
      stage1_up 0 ext_ref mod_ref 3600 (mesh_two 1) :=
  have h1 : ∀ g ∈ mesh_two 1, g.face.cell_id < (mesh_two 1).length := by
    intro g hg; simp [mesh_two] at hg; rcases hg with rfl | rfl <;> decide
  ⟨⟨by decide, h1, by decide⟩,
    (C14_pure_diffusion_refinement ext_ref mod_ref 3600 (mesh_two 1) (by decide) h1
      (by decide)).1⟩

/-! ## Claim C15: the divergence assembly -/

theorem div_step_e_eps (ext : Ext) (mesh : Mesh) (f : MFace) (i : Nat) (udotm : Nat → ℚ) :
    div_step_e eps ext mesh f i udotm = div_step ext mesh f i udotm := rfl

theorem run_face3_e_eps (ext : Ext) (mesh : Mesh) (f : MFace) (i : Nat) (A : SpMat) (bb : Vec) :
    run_face3_e eps ext mesh f i A bb = run_face3 ext mesh f i A bb := rfl

theorem loop3_e_eps (ext : Ext) (mesh : Mesh) :
    ∀ (fs : List MFace) (i : Nat) (A : SpMat) (bb : Vec),
      loop3_e eps ext mesh fs i A bb = loop3 ext mesh fs i A bb := by
  intro fs
  induction fs with
  | nil => intro i A bb; rfl
  | cons f fs ih => intro i A bb; simp only [loop3_e, loop3, run_face3_e_eps, ih]

theorem stage3_e_eps (ext : Ext) (mesh : Mesh) : stage3_e eps ext mesh = stage3 ext mesh :=
  loop3_e_eps ext mesh mesh 0 _ _

theorem SpRow.add_apply (r : SpRow) (k : Nat) (v : ℚ) (j : Nat) :
    (r.add k v) j = if j = k then some ((r k).getD 0 + v) else r j := rfl

theorem SpRow.init0_apply (r : SpRow) (k j : Nat) :
    (r.init0 k) j = if j = k then some ((r k).getD 0) else r j := by
  unfold SpRow.init0 SpRow.set
  cases h : r k with
  | none => simp
  | some v =>
    by_cases hj : j = k
    · simp [hj, h]
    · simp [hj]

theorem div_step_e_row (e : ℚ) (ext : Ext) (mesh : Mesh) (f : MFace) (i : Nat) (udotm : Nat → ℚ)
    (acc : SpRow × ℚ) (j k : Nat) :
    (div_step_e e ext mesh f i udotm acc j).1 k =
      if k = i ∨ edge_to mesh f k j = true then
        some ((acc.1 k).getD 0 + div_gain e ext mesh f i k j)
      else acc.1 k := by
  unfold div_step_e div_gain reg_term dx_of edge_to
  cases hn : f.d.face_neigh j
  · simp only [Bool.false_and, Bool.false_eq_true, if_false, or_false, add_zero,
      SpRow.add_apply]
    by_cases hk : k = i
    · simp [hk]
    · simp [hk]
  · simp only [if_true, Bool.true_and, decide_eq_true_eq, SpRow.add_apply, SpRow.init0_apply]
    by_cases hk : k = i
    · by_cases hc : neighbor_cell_id mesh f.face j = k
      · have hc1 : neighbor_cell_id mesh f.face j = i := hc.trans hk
        subst hk
        simp only [hc, if_true, true_or, Option.getD_some, neg_div, add_assoc]
      · have hc1 : ¬ neighbor_cell_id mesh f.face j = i := fun h => hc (h.trans hk.symm)
        have hc2 : ¬ i = neighbor_cell_id mesh f.face j := fun h => hc1 h.symm
        subst hk
        simp only [hc, hc1, hc2, if_true, if_false, true_or, add_zero]
    · by_cases hc : neighbor_cell_id mesh f.face j = k
      · subst hc
        simp only [hk, if_true, if_false, or_true, zero_add, Option.getD_some, neg_div]
      · have hc2 : ¬ k = neighbor_cell_id mesh f.face j := fun h => hc h.symm
        simp only [hk, hc, hc2, if_false, or_self]

theorem div_gain_zero (e : ℚ) (ext : Ext) (mesh : Mesh) (f : MFace) (i k j : Nat)
    (h : ¬ (k = i ∨ edge_to mesh f k j = true)) : div_gain e ext mesh f i k j = 0 := by
  have h1 : ¬ k = i := fun e => h (Or.inl e)
  have h2 : ¬ edge_to mesh f k j = true := fun e => h (Or.inr e)
  simp [div_gain, h1, h2]

theorem div_gain_sum_zero (e : ℚ) (ext : Ext) (mesh : Mesh) (f : MFace) (i k : Nat) :
    ∀ (L : List Nat), (¬ ∃ j ∈ L, (k = i ∨ edge_to mesh f k j = true)) →
      (L.map (div_gain e ext mesh f i k)).sum = 0 := by
  intro L
  induction L with
  | nil => intro _; rfl
  | cons j L ih =>
    intro h
    rw [List.map_cons, List.sum_cons,
      div_gain_zero e ext mesh f i k j (fun t => h ⟨j, List.mem_cons_self _ _, t⟩),
      ih (fun ⟨j1, hj1, t⟩ => h ⟨j1, List.mem_cons_of_mem _ hj1, t⟩), add_zero]

theorem div_fold_row (e : ℚ) (ext : Ext) (mesh : Mesh) (f : MFace) (i : Nat) (udotm : Nat → ℚ)
    (k : Nat) :
    ∀ (L : List Nat) (acc : SpRow × ℚ),
      (L.foldl (div_step_e e ext mesh f i udotm) acc).1 k =
        if ∃ j ∈ L, (k = i ∨ edge_to mesh f k j = true) then
          some ((acc.1 k).getD 0 + (L.map (div_gain e ext mesh f i k)).sum)
        else acc.1 k := by
  intro L
  induction L with
  | nil => intro acc; simp
  | cons j L ih =>
    intro acc
    rw [List.foldl_cons, ih, div_step_e_row, List.map_cons, List.sum_cons]
    by_cases hj : k = i ∨ edge_to mesh f k j = true
    · have hex : ∃ j1 ∈ j :: L, (k = i ∨ edge_to mesh f k j1 = true) :=
        ⟨j, List.mem_cons_self _ _, hj⟩
      rw [if_pos hj, if_pos hex]
      by_cases hL : ∃ j1 ∈ L, (k = i ∨ edge_to mesh f k j1 = true)
      · rw [if_pos hL, Option.getD_some, add_assoc]
      · rw [if_neg hL, div_gain_sum_zero e ext mesh f i k L hL, add_zero]
    · rw [if_neg hj, div_gain_zero e ext mesh f i k j hj, zero_add]
      by_cases hL : ∃ j1 ∈ L, (k = i ∨ edge_to mesh f k j1 = true)
      · have hex : ∃ j1 ∈ j :: L, (k = i ∨ edge_to mesh f k j1 = true) := by
          obtain ⟨j1, h1, t⟩ := hL
          exact ⟨j1, List.mem_cons_of_mem _ h1, t⟩
        rw [if_pos hL, if_pos hex]
      · have hex : ¬ ∃ j1 ∈ j :: L, (k = i ∨ edge_to mesh f k j1 = true) := by
          rintro ⟨j1, h1, t⟩
          rcases List.mem_cons.mp h1 with rfl | h2
          · exact hj t
          · exact hL ⟨j1, h2, t⟩
        rw [if_neg hL, if_neg hex]

theorem run_face3_e_row (e : ℚ) (ext : Ext) (mesh : Mesh) (f : MFace) (i : Nat) (A : SpMat)
    (bb : Vec) (hA : A i = SpRow.empty) (r k : Nat) :
    (run_face3_e e ext mesh f i A bb).1 r k =
      if r = i then div_row e ext mesh f i k else A r k := by
  unfold run_face3_e
  simp only [SpMat.setRow]
  by_cases hr : r = i
  · rw [if_pos hr, if_pos hr, div_fold_row, hA]
    simp only [SpRow.init0_apply]
    unfold div_row
    by_cases hk : k = i
    · have hex : ∃ j ∈ [0, 1, 2], (k = i ∨ edge_to mesh f k j = true) :=
        ⟨0, by simp, Or.inl hk⟩
      rw [if_pos hex, if_pos (Or.inl hk), if_pos hk]
      simp [SpRow.empty, add_assoc]
    · by_cases ht : edge_to mesh f k 0 = true ∨ edge_to mesh f k 1 = true
          ∨ edge_to mesh f k 2 = true
      · have hex : ∃ j ∈ [0, 1, 2], (k = i ∨ edge_to mesh f k j = true) := by
          rcases ht with t | t | t
          · exact ⟨0, by simp, Or.inr t⟩
          · exact ⟨1, by simp, Or.inr t⟩
          · exact ⟨2, by simp, Or.inr t⟩
        rw [if_pos hex, if_pos (Or.inr ht), if_neg hk]
        simp [SpRow.empty, add_assoc]
      · have hex : ¬ ∃ j ∈ [0, 1, 2], (k = i ∨ edge_to mesh f k j = true) := by
          rintro ⟨j, hj, t⟩
          simp only [List.mem_cons, List.mem_singleton, List.not_mem_nil, or_false] at hj
          rcases t with t | t
          · exact hk t
          · rcases hj with rfl | rfl | rfl
            · exact ht (Or.inl t)
            · exact ht (Or.inr (Or.inl t))
            · exact ht (Or.inr (Or.inr t))
        have hno : ¬ (k = i ∨ edge_to mesh f k 0 = true ∨ edge_to mesh f k 1 = true
            ∨ edge_to mesh f k 2 = true) := by
          rintro (t | t)
          · exact hk t
          · exact ht t
        rw [if_neg hex, if_neg hno, if_neg hk]
        rfl
  · rw [if_neg hr, if_neg hr]

theorem loop3_e_row (e : ℚ) (ext : Ext) (mesh : Mesh) :
    ∀ (fs : List MFace) (i : Nat) (A : SpMat) (bb : Vec),
      (∀ r, i ≤ r → A r = SpRow.empty) → ∀ (r k : Nat),
      (loop3_e e ext mesh fs i A bb).1 r k =
        if i ≤ r then
          match fs[r - i]? with
          | some f => div_row e ext mesh f r k
          | none => none
        else A r k := by
  intro fs
  induction fs with
  | nil =>
    intro i A bb hA r k
    by_cases h : i ≤ r
    · simp [loop3_e, h, hA r h, SpRow.empty]
    · simp [loop3_e, h]
  | cons f fs ih =>
    intro i A bb hA r k
    simp only [loop3_e]
    have hA1 : ∀ r1, i + 1 ≤ r1 → (run_face3_e e ext mesh f i A bb).1 r1 = SpRow.empty := by
      intro r1 h1
      funext k1
      rw [run_face3_e_row e ext mesh f i A bb (hA i (le_refl _)), if_neg (by omega),
        hA r1 (by omega)]
    rw [ih (i + 1) _ _ hA1]
    by_cases h1 : i + 1 ≤ r
    · have h2 : i ≤ r := by omega
      have h4 : r - i = (r - (i + 1)) + 1 := by omega
      rw [if_pos h1, if_pos h2, h4, List.getElem?_cons_succ]
    · rw [if_neg h1, run_face3_e_row e ext mesh f i A bb (hA i (le_refl _))]
      by_cases h2 : r = i
      · subst h2
        simp
      · have h3 : ¬ i ≤ r := by omega
        rw [if_neg h2, if_neg h3]

theorem stage3_e_row (e : ℚ) (ext : Ext) (mesh : Mesh) (i : Nat) (f : MFace)
    (hf : mesh[i]? = some f) (k : Nat) :
    (stage3_e e ext mesh).1 i k = div_row e ext mesh f i k := by
  unfold stage3_e
  rw [loop3_e_row e ext mesh mesh 0 _ _ (fun _ _ => rfl)]
  simp [hf]

theorem stage3_row (ext : Ext) (mesh : Mesh) (i : Nat) (f : MFace)
    (hf : mesh[i]? = some f) (k : Nat) :
    (stage3 ext mesh).1 i k = div_row eps ext mesh f i k := by
  rw [← stage3_e_eps, stage3_e_row eps ext mesh i f hf]

theorem stage3_bb (ext : Ext) (mesh : Mesh) (i : Nat) (f : MFace) (hf : mesh[i]? = some f) :
    (stage3 ext mesh).2 i = bb_incr ext mesh f := by
  unfold stage3
  rw [loop3_bb]
  simp [hf]

/-- Claim C15.  Row `i` of the divergence system after assembly, for a face `i` whose present
neighbours are other cells: the diagonal is `sum_j eps/(dx_j*area_i) - 3`; the entry in the
column of a neighbour `nb` is minus the sum of `eps/(dx_j*area_i)` over the edges `j` whose
neighbour is `nb`; no other entry exists; `bb[i]` is the sum over the edges of
`edge_length_j * Qt_j * (uvec . m_j) / area_i`.  For a present neighbour `Qt_j` averages the
two faces' `Qsalt` and `Qsusp` and `dx_j` is the centre distance; for a missing neighbour
`Qt_j = Qsalt_i/2 + Qsusp_i/2` and `dx_j = 1`. -/
theorem C15_divergence_assembly (ext : Ext) (mesh : Mesh) (i : Nat) (f : MFace)
    (hf : mesh[i]? = some f)
    (hnb : ∀ j, f.d.face_neigh j = true → neighbor_cell_id mesh f.face j ≠ i) :
    (stage3 ext mesh).1 i i =
      some (eps / (dx_of ext mesh f 0 * f.face.area) + eps / (dx_of ext mesh f 1 * f.face.area)
        + eps / (dx_of ext mesh f 2 * f.face.area) - 3) ∧
    (∀ nb, nb ≠ i →
      (stage3 ext mesh).1 i nb =
        if edge_to mesh f nb 0 = true ∨ edge_to mesh f nb 1 = true ∨ edge_to mesh f nb 2 = true
        then some (-((if edge_to mesh f nb 0 = true then eps / (dx_of ext mesh f 0 * f.face.area)
              else 0)
            + (if edge_to mesh f nb 1 = true then eps / (dx_of ext mesh f 1 * f.face.area) else 0)
            + (if edge_to mesh f nb 2 = true then eps / (dx_of ext mesh f 2 * f.face.area)
              else 0)))
        else none) ∧
    (stage3 ext mesh).2 i =
      f.face.edge_length 0 * Qt_of mesh f 0 * dot (wind_vector ext f.vars.vw_dir) (f.d.m 0)
          / f.face.area
        + f.face.edge_length 1 * Qt_of mesh f 1 * dot (wind_vector ext f.vars.vw_dir) (f.d.m 1)
          / f.face.area
        + f.face.edge_length 2 * Qt_of mesh f 2 * dot (wind_vector ext f.vars.vw_dir) (f.d.m 2)
          / f.face.area ∧
    (∀ j, f.d.face_neigh j = false →
      Qt_of mesh f j = f.vars.Qsalt / 2 + f.vars.Qsusp / 2 ∧ dx_of ext mesh f j = 1) ∧
    (∀ j g, f.d.face_neigh j = true → neighbor_face mesh f.face j = some g →
      Qt_of mesh f j = (f.vars.Qsalt + g.vars.Qsalt) / 2 + (f.vars.Qsusp + g.vars.Qsusp) / 2 ∧
      dx_of ext mesh f j = ext.distance f.face.center g.face.center) := by
  have hno : ∀ j, edge_to mesh f i j = false := by
    intro j
    unfold edge_to
    cases hj : f.d.face_neigh j
    · rfl
    · simp [hnb j hj]
  refine ⟨?_, ?_, ?_, ?_, ?_⟩
  · rw [stage3_row ext mesh i f hf]
    unfold div_row div_gain reg_term
    simp only [hno, true_or, if_true, Bool.false_eq_true, if_false, add_zero]
    congr 1
    ring
  · intro nb hne
    rw [stage3_row ext mesh i f hf]
    unfold div_row div_gain reg_term
    simp only [hne, false_or, if_false, zero_add]
    by_cases h : edge_to mesh f nb 0 = true ∨ edge_to mesh f nb 1 = true
        ∨ edge_to mesh f nb 2 = true
    · rw [if_pos h, if_pos h]
      congr 1
      by_cases h0 : edge_to mesh f nb 0 = true <;> by_cases h1 : edge_to mesh f nb 1 = true <;>
        by_cases h2 : edge_to mesh f nb 2 = true <;> simp [h0, h1, h2] <;> ring
    · rw [if_neg h, if_neg h]
  · rw [stage3_bb ext mesh i f hf]
    rfl
  · intro j hj
    unfold Qt_of dx_of
    simp [hj]
  · intro j g hj hg
    unfold Qt_of dx_of
    simp only [hj, if_true, hg, Option.map_some', Option.getD_some, and_true]
    ring

set_option maxRecDepth 100000 in
theorem C15_divergence_assembly_witness :
    ((mesh_two 1)[1]? = some (snow_face 1) ∧
      ∀ j, (snow_face 1).d.face_neigh j = true →
        neighbor_cell_id (mesh_two 1) (snow_face 1).face j ≠ 1) ∧
    (stage3 ext_ref (mesh_two 1)).1 1 1 =
      some (eps / (dx_of ext_ref (mesh_two 1) (snow_face 1) 0 * (snow_face 1).face.area)
        + eps / (dx_of ext_ref (mesh_two 1) (snow_face 1) 1 * (snow_face 1).face.area)
        + eps / (dx_of ext_ref (mesh_two 1) (snow_face 1) 2 * (snow_face 1).face.area) - 3) :=
  have h : ∀ j, (snow_face 1).d.face_neigh j = true →
      neighbor_cell_id (mesh_two 1) (snow_face 1).face j ≠ 1 := by
    intro j hj
    have h0 : j = 0 := by
      by_contra hne
      have : (snow_face 1).d.face_neigh j = false := by
        simp [snow_face, init_face, tri1, arr3, hne]
      rw [this] at hj
      exact Bool.false_ne_true hj
    subst h0
    decide
  ⟨⟨rfl, h⟩, (C15_divergence_assembly ext_ref (mesh_two 1) 1 (snow_face 1) rfl h).1⟩

/-! ## Claim C16: the divergence solve -/

theorem div_step_e_bb (e : ℚ) (ext : Ext) (mesh : Mesh) (f : MFace) (i : Nat) (acc : SpRow × ℚ)
    (j : Nat) :
    (div_step_e e ext mesh f i (fun j => dot (wind_vector ext f.vars.vw_dir) (f.d.m j)) acc j).2 =
      acc.2 + bb_term ext mesh f j := by
  unfold div_step_e bb_term Qt_of
  split_ifs <;> rfl

theorem run_face3_e_bb (e : ℚ) (ext : Ext) (mesh : Mesh) (f : MFace) (i : Nat) (A : SpMat)
    (bb : Vec) :
    (run_face3_e e ext mesh f i A bb).2 = (run_face3 ext mesh f i A bb).2 := by
  rw [run_face3_bb]
  simp only [run_face3_e, List.foldl_cons, List.foldl_nil, div_step_e_bb, bb_incr]
  rw [add_assoc, add_assoc, ← add_assoc (bb_term ext mesh f 0)]

theorem loop3_e_bb (e : ℚ) (ext : Ext) (mesh : Mesh) :
    ∀ (fs : List MFace) (i : Nat) (A A1 : SpMat) (bb : Vec),
      (loop3_e e ext mesh fs i A bb).2 = (loop3 ext mesh fs i A1 bb).2 := by
  intro fs
  induction fs with
  | nil => intro i A A1 bb; rfl
  | cons f fs ih =>
    intro i A A1 bb
    simp only [loop3_e, loop3]
    rw [run_face3_e_bb, run_face3_bb, run_face3_bb]
    exact ih _ _ _ _

theorem stage3_e_bb (e : ℚ) (ext : Ext) (mesh : Mesh) :
    (stage3_e e ext mesh).2 = (stage3 ext mesh).2 :=
  loop3_e_bb e ext mesh mesh 0 _ _ _

theorem div_row_zero (ext : Ext) (mesh : Mesh) (f : MFace) (i k : Nat) :
    (div_row 0 ext mesh f i k).getD 0 = if k = i then -3 else 0 := by
  unfold div_row div_gain reg_term
  simp only [zero_div, zero_sub, neg_zero, ite_self, add_zero]
  by_cases hk : k = i
  · simp [hk]; norm_num
  · simp only [hk, false_or, if_false, add_zero]
    split_ifs <;> rfl

theorem stage3_zero_mul (ext : Ext) (mesh : Mesh) (x : Vec) (i : Nat) (hi : i < mesh.length) :
    ∑ j in Finset.range mesh.length, ((stage3_e 0 ext mesh).1 i j).getD 0 * x j = -3 * x i := by
  obtain ⟨f, hf⟩ : ∃ f, mesh[i]? = some f := ⟨mesh[i], List.getElem?_eq_getElem hi⟩
  rw [Finset.sum_eq_single i]
  · rw [stage3_e_row 0 ext mesh i f hf, div_row_zero, if_pos rfl]
  · intro j _ hj
    rw [stage3_e_row 0 ext mesh i f hf, div_row_zero, if_neg hj, zero_mul]
  · intro h
    exact absurd (Finset.mem_range.mpr hi) h

theorem stage3_zero_solution (ext : Ext) (mesh : Mesh) (x : Vec) :
    is_solution mesh.length (stage3_e 0 ext mesh).1 (stage3_e 0 ext mesh).2 x ↔
      ∀ i, i < mesh.length → x i = -((stage3 ext mesh).2 i) / 3 := by
  unfold is_solution
  constructor
  · intro h i hi
    have := h i hi
    rw [stage3_zero_mul ext mesh x i hi, stage3_e_bb] at this
    linarith
  · intro h i hi
    rw [stage3_zero_mul ext mesh x i hi, stage3_e_bb, h i hi]
    ring

set_option maxRecDepth 100000 in
/-- C16 (counterexample): on the two-triangle mesh after the first two stages of an hourly
timestep, `bb_1` is positive and, with `eps = 0`, the vector `dSdt = bb` does not solve
`A dSdt = bb` while `dSdt = -bb/3` does.  The exact solution of the system as assembled
(`eps = 1e-8`) is negative on face 1, within `1e-12` of `-bb_1/3`. -/
theorem C16_counterexample :
    0 < (stage3 ext_ref (mesh2_of ext_ref mod_ref 3600 (mesh_two 1))).2 1 ∧
    ¬ is_solution 2 (stage3_e 0 ext_ref (mesh2_of ext_ref mod_ref 3600 (mesh_two 1))).1
        (stage3_e 0 ext_ref (mesh2_of ext_ref mod_ref 3600 (mesh_two 1))).2
        (stage3 ext_ref (mesh2_of ext_ref mod_ref 3600 (mesh_two 1))).2 ∧
    is_solution 2 (stage3_e 0 ext_ref (mesh2_of ext_ref mod_ref 3600 (mesh_two 1))).1
        (stage3_e 0 ext_ref (mesh2_of ext_ref mod_ref 3600 (mesh_two 1))).2
        (fun i => -((stage3 ext_ref (mesh2_of ext_ref mod_ref 3600 (mesh_two 1))).2 i) / 3) ∧
    is_solution 2 (stage3 ext_ref (mesh2_of ext_ref mod_ref 3600 (mesh_two 1))).1
        (stage3 ext_ref (mesh2_of ext_ref mod_ref 3600 (mesh_two 1))).2
        (fun k => (run_dSdt ext_ref 2 (mesh2_of ext_ref mod_ref 3600 (mesh_two 1)) k).getD 0) ∧
    (run_dSdt ext_ref 2 (mesh2_of ext_ref mod_ref 3600 (mesh_two 1)) 1).getD 0 < 0 ∧
    |(run_dSdt ext_ref 2 (mesh2_of ext_ref mod_ref 3600 (mesh_two 1)) 1).getD 0
        + (stage3 ext_ref (mesh2_of ext_ref mod_ref 3600 (mesh_two 1))).2 1 / 3|
      < 1 / 1000000000000 := by
  have hc : 0 < (stage3 ext_ref (mesh2_of ext_ref mod_ref 3600 (mesh_two 1))).2 1 ∧
      is_solution 2 (stage3 ext_ref (mesh2_of ext_ref mod_ref 3600 (mesh_two 1))).1
        (stage3 ext_ref (mesh2_of ext_ref mod_ref 3600 (mesh_two 1))).2
        (fun k => (run_dSdt ext_ref 2 (mesh2_of ext_ref mod_ref 3600 (mesh_two 1)) k).getD 0) ∧
      (run_dSdt ext_ref 2 (mesh2_of ext_ref mod_ref 3600 (mesh_two 1)) 1).getD 0 < 0 ∧
      |(run_dSdt ext_ref 2 (mesh2_of ext_ref mod_ref 3600 (mesh_two 1)) 1).getD 0
        + (stage3 ext_ref (mesh2_of ext_ref mod_ref 3600 (mesh_two 1))).2 1 / 3|
       < 1 / 1000000000000 := by
    unfold is_solution run_dSdt
    decide!
  refine ⟨hc.1, ?_, ?_, hc.2.1, hc.2.2.1, hc.2.2.2⟩
  · intro hs
    have h1 := (stage3_zero_solution ext_ref (mesh2_of ext_ref mod_ref 3600 (mesh_two 1)) _).mp
      hs 1 (by decide)
    have h2 := hc.1
    linarith
  · exact (stage3_zero_solution ext_ref (mesh2_of ext_ref mod_ref 3600 (mesh_two 1)) _).mpr
      (fun _ _ => rfl)

/-- C16 (amended): for every mesh, when the `eps` terms are neglected (`eps = 0`) the
solutions of the assembled system `A dSdt = bb` are exactly the vectors with
`dSdt_i = -bb_i/3` on every face `i` (each of the three edge passes adds `-1` to the diagonal,
so the matrix is `-3` times the identity); `bb` does not depend on `eps` and
`bb_i = sum_j edge_length_j * Qt_j * (uvec . m_j) / area_i`. -/
theorem C16_divergence_solve_minus_third (ext : Ext) (mesh : Mesh) :
    (∀ x : Vec,
      is_solution mesh.length (stage3_e 0 ext mesh).1 (stage3_e 0 ext mesh).2 x ↔
        ∀ i, i < mesh.length → x i = -((stage3 ext mesh).2 i) / 3) ∧
    (stage3_e eps ext mesh = stage3 ext mesh ∧ (stage3_e 0 ext mesh).2 = (stage3 ext mesh).2) ∧
    (∀ (i : Nat) (f : MFace), mesh[i]? = some f →
      (stage3 ext mesh).2 i =
        f.face.edge_length 0 * Qt_of mesh f 0 * dot (wind_vector ext f.vars.vw_dir) (f.d.m 0)
            / f.face.area
          + f.face.edge_length 1 * Qt_of mesh f 1 * dot (wind_vector ext f.vars.vw_dir) (f.d.m 1)
            / f.face.area
          + f.face.edge_length 2 * Qt_of mesh f 2 * dot (wind_vector ext f.vars.vw_dir) (f.d.m 2)
            / f.face.area) := by
  refine ⟨stage3_zero_solution ext mesh, ⟨stage3_e_eps ext mesh, stage3_e_bb 0 ext mesh⟩, ?_⟩
  intro i f hf
  rw [stage3_bb ext mesh i f hf]
  rfl

theorem C16_divergence_solve_minus_third_witness :
    is_solution (mesh_two 1).length (stage3_e 0 ext_ref (mesh_two 1)).1
      (stage3_e 0 ext_ref (mesh_two 1)).2
      (fun i => -((stage3 ext_ref (mesh_two 1)).2 i) / 3) :=
  ((C16_divergence_solve_minus_third ext_ref (mesh_two 1)).1 _).mpr (fun _ _ => rfl)

/-! ## Claim C17: diagonal dominance of the divergence matrix -/

theorem div_row_getD (e : ℚ) (ext : Ext) (mesh : Mesh) (f : MFace) (i k : Nat) :
    (div_row e ext mesh f i k).getD 0 =
      div_gain e ext mesh f i k 0 + div_gain e ext mesh f i k 1 + div_gain e ext mesh f i k 2 := by
  unfold div_row
  split_ifs with h
  · rfl
  · have h0 : ¬ (k = i ∨ edge_to mesh f k 0 = true) := fun t => h (by tauto)
    have h1 : ¬ (k = i ∨ edge_to mesh f k 1 = true) := fun t => h (by tauto)
    have h2 : ¬ (k = i ∨ edge_to mesh f k 2 = true) := fun t => h (by tauto)
    rw [div_gain_zero _ _ _ _ _ _ _ h0, div_gain_zero _ _ _ _ _ _ _ h1,
      div_gain_zero _ _ _ _ _ _ _ h2]
    simp

theorem edge_abs_sum (mesh : Mesh) (f : MFace) (i : Nat) (S : Finset Nat) (hi : i ∉ S) (j : Nat)
    (v : ℚ) (hv : 0 ≤ v) :
    ∑ k in S, (if edge_to mesh f k j = true then v else 0) ≤
      if edge_to mesh f i j = true ∨ f.d.face_neigh j = false then 0 else v := by
  unfold edge_to
  cases hn : f.d.face_neigh j
  · simp
  · simp only [Bool.true_and, decide_eq_true_eq, Bool.true_eq_false, or_false]
    rw [Finset.sum_ite_eq]
    by_cases hm : neighbor_cell_id mesh f.face j ∈ S
    · have : ¬ neighbor_cell_id mesh f.face j = i := fun t => hi (t ▸ hm)
      rw [if_pos hm, if_neg this]
    · rw [if_neg hm]
      split_ifs
      · exact le_refl _
      · exact hv

theorem div_gain_offdiag_abs (e : ℚ) (ext : Ext) (mesh : Mesh) (f : MFace) (i k j : Nat)
    (hk : k ≠ i) :
    |div_gain e ext mesh f i k j| =
      if edge_to mesh f k j = true then |reg_term e ext mesh f j| else 0 := by
  unfold div_gain
  rw [if_neg hk, zero_add]
  split_ifs
  · exact abs_neg _
  · exact abs_zero

theorem div_row_dominant (e : ℚ) (ext : Ext) (mesh : Mesh) (f : MFace) (i : Nat)
    (hreg : ∀ j, j < 3 → reg_term e ext mesh f j < 1 / 2) (S : Finset Nat) (hi : i ∉ S) :
    (div_row e ext mesh f i i).getD 0 < 0 ∧
    ∑ k in S, |(div_row e ext mesh f i k).getD 0| < -(div_row e ext mesh f i i).getD 0 := by
  have hedge : ∀ j, j < 3 →
      (if edge_to mesh f i j = true ∨ f.d.face_neigh j = false then 0
        else |reg_term e ext mesh f j|) < -div_gain e ext mesh f i i j ∧
      div_gain e ext mesh f i i j < 0 := by
    intro j hj
    have h := hreg j hj
    unfold div_gain
    rw [if_pos rfl]
    by_cases ht : edge_to mesh f i j = true
    · rw [if_pos (Or.inl ht), if_pos ht]
      constructor <;> linarith
    · rw [if_neg ht, add_zero]
      by_cases hn : f.d.face_neigh j = false
      · rw [if_pos (Or.inr hn)]
        constructor <;> linarith
      · rw [if_neg (fun t => t.elim ht hn)]
        constructor
        · rcases abs_cases (reg_term e ext mesh f j) with ⟨h1, _⟩ | ⟨h1, _⟩ <;> rw [h1] <;> linarith
        · linarith
  have hsum : ∑ k in S, |(div_row e ext mesh f i k).getD 0| ≤
      ∑ k in S, ((if edge_to mesh f k 0 = true then |reg_term e ext mesh f 0| else 0)
        + (if edge_to mesh f k 1 = true then |reg_term e ext mesh f 1| else 0)
        + (if edge_to mesh f k 2 = true then |reg_term e ext mesh f 2| else 0)) := by
    apply Finset.sum_le_sum
    intro k hk
    have hki : k ≠ i := fun t => hi (t ▸ hk)
    rw [div_row_getD, ← div_gain_offdiag_abs e ext mesh f i k 0 hki,
      ← div_gain_offdiag_abs e ext mesh f i k 1 hki, ← div_gain_offdiag_abs e ext mesh f i k 2 hki]
    exact (abs_add _ _).trans (add_le_add_right (abs_add _ _) _)
  rw [Finset.sum_add_distrib, Finset.sum_add_distrib] at hsum
  have s0 := edge_abs_sum mesh f i S hi 0 _ (abs_nonneg (reg_term e ext mesh f 0))
  have s1 := edge_abs_sum mesh f i S hi 1 _ (abs_nonneg (reg_term e ext mesh f 1))
  have s2 := edge_abs_sum mesh f i S hi 2 _ (abs_nonneg (reg_term e ext mesh f 2))
  have e0 := hedge 0 (by decide)
  have e1 := hedge 1 (by decide)
  have e2 := hedge 2 (by decide)
  rw [div_row_getD]
  constructor
  · linarith [e0.2, e1.2, e2.2]
  · linarith [e0.1, e1.1, e2.1]

theorem rat_norm_eq_abs (q : ℚ) : ‖q‖ = ((|q| : ℚ) : ℝ) := by
  rw [← Rat.norm_cast_real, Real.norm_eq_abs, Rat.cast_abs]

theorem dominant_unique_solution (n : Nat) (A : SpMat) (b : Vec)
    (hdom : ∀ i, i < n → ∀ S : Finset Nat, i ∉ S →
      ∑ k in S, |(A i k).getD 0| < |(A i i).getD 0|) :
    ∃ x, is_solution n A b x ∧ ∀ y, is_solution n A b y → ∀ i, i < n → y i = x i := by
  have hdet : (Matrix.of (fun i k : Fin n => (A i.val k.val).getD 0)).det ≠ 0 := by
    apply det_ne_zero_of_sum_row_lt_diag
    intro k
    simp only [Matrix.of_apply, rat_norm_eq_abs]
    rw [← Rat.cast_sum, Rat.cast_lt]
    have hk : k.val ∉ (Finset.univ.erase k).map Fin.valEmbedding := by
      intro h
      obtain ⟨j, hj, e⟩ := Finset.mem_map.mp h
      exact (Finset.mem_erase.mp hj).1 (Fin.ext e)
    have := hdom k.val k.isLt _ hk
    rwa [Finset.sum_map] at this
  have hunit : IsUnit (Matrix.of (fun i k : Fin n => (A i.val k.val).getD 0)) :=
    (Matrix.isUnit_iff_isUnit_det _).mpr (isUnit_iff_ne_zero.mpr hdet)
  have hsol : ∀ (x : Vec),
      is_solution n A b x ↔
        (Matrix.of (fun i k : Fin n => (A i.val k.val).getD 0)).mulVec (fun j => x j.val)
          = fun i => b i.val := by
    intro x
    unfold is_solution
    constructor
    · intro h
      funext i
      rw [← h i.val i.isLt, Finset.sum_range]
      rfl
    · intro h i hi
      have := congrFun h ⟨i, hi⟩
      rw [Finset.sum_range]
      exact this
  obtain ⟨v, hv⟩ := (Matrix.mulVec_surjective_iff_isUnit.mpr hunit) (fun i => b i.val)
  refine ⟨fun i => if h : i < n then v ⟨i, h⟩ else 0, ?_, ?_⟩
  · rw [hsol]
    have : (fun j : Fin n => (fun i => if h : i < n then v ⟨i, h⟩ else 0) j.val) = v := by
      funext j
      simp
    rw [this]
    exact hv
  · intro y hy i hi
    rw [hsol] at hy
    have := Matrix.mulVec_injective_iff_isUnit.mpr hunit (hy.trans hv.symm)
    have := congrFun this ⟨i, hi⟩
    simp only [hi, dif_pos]
    exact this

/-- Claim C17.  When `eps/(dx_j*area_i) < 1/2` for every face `i` and edge `j` (`dx_j = 1` for
a missing neighbour), every row of the assembled divergence matrix has a strictly negative
diagonal entry whose absolute value exceeds the sum of the absolute values of the row's other
entries, over any set of columns; and the system `A dSdt = bb` has a solution, which is the
only one on the faces of the mesh. -/
theorem C17_divergence_matrix_well_posed (ext : Ext) (mesh : Mesh)
    (hreg : ∀ f ∈ mesh, ∀ j, j < 3 → eps / (dx_of ext mesh f j * f.face.area) < 1 / 2) :
    (∀ i, i < mesh.length → ∃ d, (stage3 ext mesh).1 i i = some d ∧ d < 0 ∧
      ∀ S : Finset Nat, i ∉ S → ∑ k in S, |((stage3 ext mesh).1 i k).getD 0| < |d|) ∧
    (∃ x, is_solution mesh.length (stage3 ext mesh).1 (stage3 ext mesh).2 x ∧
      ∀ y, is_solution mesh.length (stage3 ext mesh).1 (stage3 ext mesh).2 y →
        ∀ i, i < mesh.length → y i = x i) := by
  have hrow : ∀ i, i < mesh.length → ∃ d, (stage3 ext mesh).1 i i = some d ∧ d < 0 ∧
      ∀ S : Finset Nat, i ∉ S → ∑ k in S, |((stage3 ext mesh).1 i k).getD 0| < |d| := by
    intro i hi
    have hf : mesh[i]? = some mesh[i] := List.getElem?_eq_getElem hi
    have hdom := div_row_dominant eps ext mesh mesh[i] i
      (fun j hj => hreg mesh[i] (List.getElem_mem hi) j hj)
    refine ⟨(div_row eps ext mesh mesh[i] i i).getD 0, ?_, (hdom ∅ (by simp)).1, ?_⟩
    · rw [stage3_row ext mesh i _ hf]
      unfold div_row
      rw [if_pos (Or.inl rfl)]
      rfl
    · intro S hS
      have h := hdom S hS
      rw [abs_of_neg h.1]
      simp only [stage3_row ext mesh i _ hf]
      exact h.2
  refine ⟨hrow, dominant_unique_solution _ _ _ ?_⟩
  intro i hi S hS
  obtain ⟨d, hd, _, hsum⟩ := hrow i hi
  rw [hd]
  exact hsum S hS

set_option maxRecDepth 100000 in
theorem C17_divergence_matrix_well_posed_witness :
    (∀ f ∈ mesh_two 1, ∀ j, j < 3 →
      eps / (dx_of ext_ref (mesh_two 1) f j * f.face.area) < 1 / 2) ∧
    ∃ x, is_solution (mesh_two 1).length (stage3 ext_ref (mesh_two 1)).1
        (stage3 ext_ref (mesh_two 1)).2 x ∧
      ∀ y, is_solution (mesh_two 1).length (stage3 ext_ref (mesh_two 1)).1
          (stage3 ext_ref (mesh_two 1)).2 y →
        ∀ i, i < (mesh_two 1).length → y i = x i :=
  have h : ∀ f ∈ mesh_two 1, ∀ j, j < 3 →
      eps / (dx_of ext_ref (mesh_two 1) f j * f.face.area) < 1 / 2 := by decide!
  ⟨h, (C17_divergence_matrix_well_posed ext_ref (mesh_two 1) h).2⟩

/-! ## Claims C18 and C19: saltation values -/

theorem c_salt_unlimited_pos (ustar uss : ℚ) (h1 : ustar > uss) (h2 : uss > 0) :
    c_salt_unlimited ustar uss > 0 := by
  unfold c_salt_unlimited
  have hu : ustar > 0 := lt_trans h2 h1
  have hsq : uss * uss < ustar * ustar := by nlinarith
  have hq : uss * uss / (ustar * ustar) < 1 := (div_lt_one (by positivity)).mpr hsq
  have hr : (0 : ℚ) < rho_f / (329 / 100 * ustar) := by
    unfold rho_f
    positivity
  exact mul_pos hr (by linarith)

theorem uhs_of_ge (ext : Ext) (u2 hs z0 : ℚ) : uhs_of ext u2 hs z0 ≥ 1 / 10 := le_max_left _ _

theorem face_salt_unlimited (ext : Ext) (dt : ℚ) (f : MFace) (hd : drifting ext f)
    (hl : ¬ limiter_taken ext dt f) :
    face_salt ext dt f =
      Salt.mk (c_salt_unlimited (ustar_of ext f.vars.U_2m_above_srf) (u_star_saltation ext))
        (Qsalt_unlimited ext f) 1
        (ext.pow (ext.log_scale_wind f.vars.U_2m_above_srf 2 10 0 none) (413 / 100) / 674100) := by
  unfold drifting at hd
  unfold limiter_taken Qsalt_unlimited at hl
  unfold face_salt saltation Qsalt_unlimited
  simp only [hd, and_self, if_true]
  rw [if_neg hl]

theorem face_salt_limited (ext : Ext) (dt : ℚ) (f : MFace) (hd : drifting ext f)
    (hl : limiter_taken ext dt f) (hden : face_limiter_den ext dt f ≠ 0) :
    face_salt ext dt f =
      Salt.mk (swe_of f.vars * f.face.area / face_limiter_den ext dt f)
        (swe_of f.vars * f.face.area / face_limiter_den ext dt f * face_uhs ext f
          * hs_of ext (ustar_of ext f.vars.U_2m_above_srf)) 1
        (ext.pow (ext.log_scale_wind f.vars.U_2m_above_srf 2 10 0 none) (413 / 100) / 674100) := by
  unfold drifting at hd
  unfold limiter_taken Qsalt_unlimited at hl
  unfold face_limiter_den face_uhs at hden
  have hno : ¬ (swe_of f.vars * f.face.area = 0 ∧
      limiter_den f.face f.d.m (wind_vector ext f.vars.vw_dir) dt
        (hs_of ext (ustar_of ext f.vars.U_2m_above_srf))
        (uhs_of ext f.vars.U_2m_above_srf (hs_of ext (ustar_of ext f.vars.U_2m_above_srf))
          (z0_of (ustar_of ext f.vars.U_2m_above_srf))) = 0) := fun h => hden h.2
  unfold face_salt saltation face_limiter_den face_uhs
  simp only [hd, and_self, if_true]
  rw [if_pos hl, if_neg hno]

/-- Claim C18.  On a drifting face (`ustar > u_star_saltation > 0`, `swe > 0`) with `dt > 0`,
`area > 0` and `hs > 0`, the values written to `csalt` and `Qsalt` are strictly positive.
When the limiter does not fire they are `c_salt = rho_f/(3.29*ustar)*(1 - u_sat^2/ustar^2)`
and `c_salt*uhs*hs` with `uhs >= 0.1`; when it fires the limiter denominator is strictly
positive and they are `swe*area/den` and `c_salt*uhs*hs`. -/
theorem C18_drifting_values_positive (ext : Ext) (dt : ℚ) (f : MFace)
    (hdr : ustar_of ext f.vars.U_2m_above_srf > u_star_saltation ext)
    (huss : u_star_saltation ext > 0) (hswe : swe_of f.vars > 0) (hdt : dt > 0)
    (harea : f.face.area > 0) (hhs : hs_of ext (ustar_of ext f.vars.U_2m_above_srf) > 0) :
    (salt_vars ext dt f).csalt > 0 ∧ (salt_vars ext dt f).Qsalt > 0 ∧
    (¬ limiter_taken ext dt f →
      (salt_vars ext dt f).csalt =
        rho_f / (329 / 100 * ustar_of ext f.vars.U_2m_above_srf)
          * (1 - u_star_saltation ext * u_star_saltation ext
              / (ustar_of ext f.vars.U_2m_above_srf * ustar_of ext f.vars.U_2m_above_srf)) ∧
      (salt_vars ext dt f).Qsalt = (salt_vars ext dt f).csalt * face_uhs ext f
        * hs_of ext (ustar_of ext f.vars.U_2m_above_srf) ∧
      face_uhs ext f ≥ 1 / 10) ∧
    (limiter_taken ext dt f →
      face_limiter_den ext dt f > 0 ∧
      (salt_vars ext dt f).csalt = swe_of f.vars * f.face.area / face_limiter_den ext dt f ∧
      (salt_vars ext dt f).Qsalt = (salt_vars ext dt f).csalt * face_uhs ext f
        * hs_of ext (ustar_of ext f.vars.U_2m_above_srf)) := by
  have hd : drifting ext f := ⟨hdr, hswe⟩
  have hcs := c_salt_unlimited_pos _ _ hdr huss
  have huhs : face_uhs ext f ≥ 1 / 10 := uhs_of_ge ext _ _ _
  have huhs0 : face_uhs ext f > 0 := by linarith
  have hQ : Qsalt_unlimited ext f > 0 := mul_pos (mul_pos hcs huhs0) hhs
  have hc : (salt_vars ext dt f).csalt = (face_salt ext dt f).c_salt := rfl
  have hq : (salt_vars ext dt f).Qsalt = (face_salt ext dt f).Qsalt := rfl
  rw [hc, hq]
  by_cases hl : limiter_taken ext dt f
  · have hden : face_limiter_den ext dt f > 0 := by
      have h1 : salt_of f.face f.d.m (wind_vector ext f.vars.vw_dir) (Qsalt_unlimited ext f) dt
          > 0 := lt_trans hswe hl
      rw [salt_of_eq] at h1
      have h2 : Qsalt_unlimited ext f * dt
          * (f.face.edge_length 0 * dot (wind_vector ext f.vars.vw_dir) (f.d.m 0)
            + f.face.edge_length 1 * dot (wind_vector ext f.vars.vw_dir) (f.d.m 1)
            + f.face.edge_length 2 * dot (wind_vector ext f.vars.vw_dir) (f.d.m 2)) > 0 := by
        have := mul_pos h1 harea
        rwa [div_mul_cancel₀ _ (ne_of_gt harea)] at this
      have h3 := (pos_iff_pos_of_mul_pos h2).mp (mul_pos hQ hdt)
      unfold face_limiter_den limiter_den
      exact mul_pos (mul_pos (mul_pos hdt hhs) huhs0) h3
    have hcpos : swe_of f.vars * f.face.area / face_limiter_den ext dt f > 0 :=
      div_pos (mul_pos hswe harea) hden
    rw [face_salt_limited ext dt f hd hl (ne_of_gt hden)]
    exact ⟨hcpos, mul_pos (mul_pos hcpos huhs0) hhs, fun h => absurd hl h,
      fun _ => ⟨hden, rfl, rfl⟩⟩
  · rw [face_salt_unlimited ext dt f hd hl]
    exact ⟨hcs, hQ, fun _ => ⟨rfl, rfl, huhs⟩, fun h => absurd h hl⟩

set_option maxRecDepth 100000 in
theorem C18_drifting_values_positive_witness :
    (ustar_of ext_ref skew_face.vars.U_2m_above_srf > u_star_saltation ext_ref ∧
      u_star_saltation ext_ref > 0 ∧ swe_of skew_face.vars > 0 ∧ (3600 : ℚ) > 0 ∧
      skew_face.face.area > 0 ∧ hs_of ext_ref (ustar_of ext_ref skew_face.vars.U_2m_above_srf) > 0 ∧
      limiter_taken ext_ref 3600 skew_face) ∧
    (salt_vars ext_ref 3600 skew_face).csalt > 0 ∧ (salt_vars ext_ref 3600 skew_face).Qsalt > 0 ∧
    face_limiter_den ext_ref 3600 skew_face > 0 :=
  have h : ustar_of ext_ref skew_face.vars.U_2m_above_srf > u_star_saltation ext_ref ∧
      u_star_saltation ext_ref > 0 ∧ swe_of skew_face.vars > 0 ∧ (3600 : ℚ) > 0 ∧
      skew_face.face.area > 0 ∧ hs_of ext_ref (ustar_of ext_ref skew_face.vars.U_2m_above_srf) > 0 ∧
      limiter_taken ext_ref 3600 skew_face := by
    unfold limiter_taken
    decide!
  have t := C18_drifting_values_positive ext_ref 3600 skew_face h.1 h.2.1 h.2.2.1 h.2.2.2.1
    h.2.2.2.2.1 h.2.2.2.2.2.1
  ⟨h, t.1, t.2.1, (t.2.2.2 h.2.2.2.2.2.2).1⟩

theorem edge_flux_closes_up (f : MFace) (hm : normals_cached f) (hc : closes_up f.face)
    (uvw : Vec3) :
    f.face.edge_length 0 * dot uvw (f.d.m 0) + f.face.edge_length 1 * dot uvw (f.d.m 1)
      + f.face.edge_length 2 * dot uvw (f.d.m 2) = 0 := by
  obtain ⟨c1, c2⟩ := hc
  rw [hm 0 (by decide), hm 1 (by decide), hm 2 (by decide)]
  simp only [dot, mul_zero, add_zero]
  linear_combination uvw.x * c1 + uvw.y * c2

/-- Claim C19.  On a face whose edges close up (`sum_e edge_length_e * m_e = 0`), for every
library, wind bearing, wind speed, `dt` and `swe > 0`: the limiter test quantity `salt` is
`0`, the test `salt > swe` is false, and on a drifting face `csalt` and `Qsalt` hold their
unlimited values. -/
theorem C19_closed_face_limiter_not_taken (ext : Ext) (dt : ℚ) (f : MFace)
    (hm : normals_cached f) (hc : closes_up f.face) (hswe : swe_of f.vars > 0) :
    salt_of f.face f.d.m (wind_vector ext f.vars.vw_dir) (Qsalt_unlimited ext f) dt = 0 ∧
    ¬ limiter_taken ext dt f ∧
    (drifting ext f →
      (salt_vars ext dt f).csalt =
        c_salt_unlimited (ustar_of ext f.vars.U_2m_above_srf) (u_star_saltation ext) ∧
      (salt_vars ext dt f).Qsalt = Qsalt_unlimited ext f) := by
  have hS := edge_flux_closes_up f hm hc (wind_vector ext f.vars.vw_dir)
  have h0 : salt_of f.face f.d.m (wind_vector ext f.vars.vw_dir) (Qsalt_unlimited ext f) dt
      = 0 := by
    rw [salt_of_eq, hS, mul_zero, zero_div]
  have hl : ¬ limiter_taken ext dt f := by
    unfold limiter_taken
    rw [h0]
    exact not_lt.mpr (le_of_lt hswe)
  refine ⟨h0, hl, fun hd => ?_⟩
  have hc1 : (salt_vars ext dt f).csalt = (face_salt ext dt f).c_salt := rfl
  have hq1 : (salt_vars ext dt f).Qsalt = (face_salt ext dt f).Qsalt := rfl
  rw [hc1, hq1, face_salt_unlimited ext dt f hd hl]
  exact ⟨rfl, rfl⟩

set_option maxRecDepth 100000 in
theorem C19_closed_face_limiter_not_taken_witness :
    (normals_cached (eq_face 30 (some (1 / 100))) ∧ closes_up (eq_face 30 (some (1 / 100))).face ∧
      swe_of (eq_face 30 (some (1 / 100))).vars > 0 ∧ drifting ext_ref (eq_face 30 (some (1 / 100)))) ∧
    ¬ limiter_taken ext_ref 3600 (eq_face 30 (some (1 / 100))) ∧
    (salt_vars ext_ref 3600 (eq_face 30 (some (1 / 100)))).Qsalt
      = Qsalt_unlimited ext_ref (eq_face 30 (some (1 / 100))) :=
  have hm : normals_cached (eq_face 30 (some (1 / 100))) := by
    intro j hj
    interval_cases j <;> rfl
  have hc : closes_up (eq_face 30 (some (1 / 100))).face := by
    unfold closes_up
    decide!
  have hs : swe_of (eq_face 30 (some (1 / 100))).vars > 0 := by decide!
  have hd : drifting ext_ref (eq_face 30 (some (1 / 100))) := by
    unfold drifting
    decide!
  have t := C19_closed_face_limiter_not_taken ext_ref 3600 (eq_face 30 (some (1 / 100))) hm hc hs
  ⟨⟨hm, hc, hs, hd⟩, t.2.1, (t.2.2 hd).2⟩

end PBSM3D
